import Mathlib

/-!
# CineVerse: content-matching and ranking engine

A shallow embedding of the scoring and ranking code of the CineVerse server
(`server/routes/movies.js`, `server/routes/trending.js`,
`server/services/imageMatchingService.js`,
`server/services/tmdbKeywordSearch.js`) together with theorems about it.

Modelling conventions.

* JavaScript numbers are exact rationals (`ℚ`); IEEE rounding, `NaN` and the
  infinities are outside the model.
* JavaScript strings are lists of characters. The method
  `String.prototype.toLowerCase` applies the Unicode case mapping of the
  JavaScript engine, which is no part of this repository: it is a parameter
  `toLowerCase` of every function that calls it, and the theorems hold for
  every such mapping. The flag `i` of a regular expression without the flag
  `u` folds the ASCII letters only (`asciiLowerCase`).
* A field that may be missing is an `Option`; a list field read through
  `x || []` is a plain list, the missing list being `[]`.
* `Array.prototype.sort` with a comparator `(a, b) => key b - key a` is the
  stable sort by decreasing key.
* Network and image-library calls are parameters of the model (an
  environment record), never fixed functions.
-/

namespace CineVerse

/-! ## Shared JavaScript helpers -/

/-- A JavaScript string. -/
abbrev JsString := List Char

/-- The lowercase form of the ASCII letters, every other character kept: what
`String.prototype.toLowerCase` gives on a string of ASCII characters, and the
case folding of a regular expression with the flag `i` and without the flag
`u` on the ASCII words of the patterns of `extractYearRange`. -/
def asciiLowerCase (s : JsString) : JsString := s.map Char.toLower

/-- The method `String.prototype.includes`: `needle` occurs in `hay`. -/
def includes (hay needle : JsString) : Bool :=
  hay.tails.any fun t => needle.isPrefixOf t

/-- Adding a value to a `Set`: kept once, in insertion order. -/
def setAdd {α : Type} [DecidableEq α] (s : List α) (x : α) : List α :=
  if x ∈ s then s else s ++ [x]

/-- The constructor `new Set(iterable)`, as the list of its distinct members. -/
def newSet {α : Type} [DecidableEq α] (xs : List α) : List α :=
  xs.foldl setAdd []

/-- The idiom `n || 1` on a count. -/
def orOne (n : ℕ) : ℕ := if n = 0 then 1 else n

/-- The method `arr.sort((a, b) => key(b) - key(a))`: stable, decreasing key. -/
def sortDesc {α : Type} (key : α → ℚ) (xs : List α) : List α :=
  xs.insertionSort fun a b => key b ≤ key a

/-- The method `arr.slice(0, n)` for an integer `n` (a negative `n` counts
from the end). -/
def slice0 {α : Type} (xs : List α) (n : ℤ) : List α :=
  if n < 0 then xs.take (xs.length - n.natAbs) else xs.take n.toNat

/-! ## `server/routes/movies.js`: the similarity scorer -/

/-- The table `VIBE_KEYWORDS`. -/
def VIBE_KEYWORDS : List (String × List String) :=
  [ ("emotional", ["emotional", "heartfelt", "touching", "moving", "passionate"]),
    ("wholesome", ["wholesome", "feel-good", "uplifting", "inspiring", "heartwarming"]),
    ("dark", ["dark", "gloomy", "bleak", "noir", "sinister"]),
    ("energetic", ["fast-paced", "energetic", "intense", "dynamic", "thrilling"]),
    ("suspenseful", ["suspenseful", "tense", "thrilling", "suspense", "mystery"]),
    ("nostalgic", ["nostalgic", "retro", "vintage", "classic", "timeless"]),
    ("romantic", ["romantic", "romance", "love", "passionate", "intimate"]),
    ("violent", ["violent", "brutal", "gory", "action-packed", "combat"]),
    ("familyFriendly", ["family-friendly", "wholesome", "kids", "children", "animated"]),
    ("epic", ["epic", "grand", "sweeping", "monumental", "legendary"]),
    ("calm", ["calm", "peaceful", "serene", "meditative", "quiet"]),
    ("funny", ["funny", "comedy", "humorous", "comedic", "witty"]),
    ("sad", ["sad", "tragic", "melancholic", "sorrowful", "depressing"]),
    ("psychological",
      ["psychological", "mind-bending", "introspective", "cerebral", "philosophical"]) ]

/-- A JavaScript value used as a set member: a number or a string. -/
inductive JsKey where
  | num (n : ℤ)
  | str (s : JsString)
  deriving DecidableEq, Repr

/-- An element of `movie.genres`: a bare string or an object `{id, name}`. -/
inductive Genre where
  | str (name : String)
  | obj (id : ℤ) (name : String)
  deriving DecidableEq, Repr

/-- An element of `movie.keywords`: a bare string or an object `{name}`. -/
inductive Keyword where
  | str (s : String)
  | obj (name : String)
  deriving DecidableEq, Repr

/-- An element of `movie.cast`. -/
structure CastMember where
  id : ℤ
  deriving DecidableEq, Repr

/-- The fields of a movie record read by the similarity scorer. -/
structure MovieRecord where
  genres : List Genre
  keywords : List Keyword
  cast : List CastMember
  rating : Option ℚ
  deriving Repr

/-- The expression `typeof g === 'object' ? g.id : g`. -/
def Genre.key : Genre → JsKey
  | .str name => .str name.toList
  | .obj id _ => .num id

/-- The expression `typeof g === 'string' ? g.toLowerCase() : g.name.toLowerCase()`. -/
def Genre.lowerName (toLowerCase : JsString → JsString) : Genre → JsString
  | .str name => toLowerCase name.toList
  | .obj _ name => toLowerCase name.toList

/-- The expression `typeof k === 'string' ? k.toLowerCase() : k.name.toLowerCase()`. -/
def Keyword.lower (toLowerCase : JsString → JsString) : Keyword → JsString
  | .str s => toLowerCase s.toList
  | .obj name => toLowerCase name.toList

/-- A vibe vector: the own keys of the object, in order, with their values. -/
abbrev VibeVector := List (String × ℚ)

/-- The function `extractVibes`; `toLowerCase` is the method of the engine. -/
def extractVibes (toLowerCase : JsString → JsString) (movie : MovieRecord) : VibeVector :=
  let keywords := movie.keywords.map (Keyword.lower toLowerCase)
  let genreNames := movie.genres.map (Genre.lowerName toLowerCase)
  VIBE_KEYWORDS.map fun entry =>
    (entry.1, entry.2.foldl (fun (score : ℚ) phrase =>
      if keywords.any (fun k => includes k (toLowerCase phrase.toList)) ||
          genreNames.any (fun g => includes g (toLowerCase phrase.toList))
      then score + 1 else score) 0)

/-- One iteration of the loop of `calculateVibeSimilarity` on the pair
`(totalDiff, count)`, for the key and value `kv` of `movie1Vibes`. -/
def vibeStep (movie2Vibes : VibeVector) (acc : ℚ × ℕ) (kv : String × ℚ) : ℚ × ℕ :=
  match movie2Vibes.lookup kv.1 with
  | some x => (acc.1 + |kv.2 - x|, acc.2 + 1)
  | none => acc

/-- The loop of `calculateVibeSimilarity`: the pair `(totalDiff, count)`. -/
def vibeLoop (movie1Vibes movie2Vibes : VibeVector) : ℚ × ℕ :=
  movie1Vibes.foldl (vibeStep movie2Vibes) (0, 0)

/-- The function `calculateVibeSimilarity`. -/
def calculateVibeSimilarity (movie1Vibes movie2Vibes : VibeVector) : ℚ :=
  let r := vibeLoop movie1Vibes movie2Vibes
  if r.2 > 0 then 1 - r.1 / ((r.2 : ℚ) * 5) else 1 / 2

/-- The expression `movie.rating || 6`. -/
def ratingOr6 : Option ℚ → ℚ
  | some r => if r = 0 then 6 else r
  | none => 6

/-- The function `calculateComprehensiveSimilarityScore`; `toLowerCase` is the
method of the engine. -/
def calculateComprehensiveSimilarityScore (toLowerCase : JsString → JsString)
    (primaryMovie compareMovie : MovieRecord)
    (primaryVibes compareVibes : VibeVector) : ℚ :=
  -- Genre overlap (0.25 weight)
  let primaryGenreIds := newSet (primaryMovie.genres.map Genre.key)
  let compareGenreIds := newSet (compareMovie.genres.map Genre.key)
  let genreOverlap := (primaryGenreIds.filter fun g => g ∈ compareGenreIds).length
  let maxGenres := orOne (max primaryGenreIds.length compareGenreIds.length)
  let genreScore : ℚ := (genreOverlap : ℚ) / (maxGenres : ℚ)
  -- Keyword similarity (0.25 weight)
  let primaryKeywords := newSet (primaryMovie.keywords.map (Keyword.lower toLowerCase))
  let compareKeywords := newSet (compareMovie.keywords.map (Keyword.lower toLowerCase))
  let keywordOverlap := (primaryKeywords.filter fun k => k ∈ compareKeywords).length
  let maxKeywords := orOne (max primaryKeywords.length compareKeywords.length)
  let keywordScore : ℚ := (keywordOverlap : ℚ) / (maxKeywords : ℚ)
  -- Cast similarity (0.15 weight)
  let primaryCastIds := newSet (primaryMovie.cast.map CastMember.id)
  let compareCastIds := newSet (compareMovie.cast.map CastMember.id)
  let castOverlap := (primaryCastIds.filter fun c => c ∈ compareCastIds).length
  let maxCast := orOne (max primaryCastIds.length compareCastIds.length)
  let castScore : ℚ := (castOverlap : ℚ) / (maxCast : ℚ)
  -- Tone similarity based on rating (0.15 weight)
  let ratingDiff := |ratingOr6 primaryMovie.rating - ratingOr6 compareMovie.rating| / 10
  let toneScore := 1 - ratingDiff
  -- Vibe similarity (0.20 weight)
  let vibeScore := calculateVibeSimilarity primaryVibes compareVibes
  genreScore * (25 / 100) + keywordScore * (25 / 100) + castScore * (15 / 100)
    + toneScore * (15 / 100) + vibeScore * (20 / 100)

/-! ## `server/routes/trending.js`: the movie trending ranker ("talk of the town") -/

/-- The fields of a catalog movie read by the India branch of `GET /movies`.
`release_date` is the time value, in milliseconds, of `new Date(movie.release_date)`
(`none` when the field is missing or empty); `source` is the tag set by
`addMovies` (`none` for an entry of the `movie/popular` fallback). -/
structure TrendingMovie where
  id : ℤ
  original_language : Option String
  release_date : Option ℤ
  popularity : ℚ
  vote_count : ℚ
  source : Option String
  deriving DecidableEq, Repr

/-- The `status` tag of a scored entry. -/
inductive Status where
  | upcoming
  | fresh
  | viral_old
  | dead
  deriving DecidableEq, Repr

/-- An element of `scoredMovies`: `{ ...movie, score, status, daysDiff }`. -/
structure ScoredMovie where
  movie : TrendingMovie
  score : ℚ
  status : Status
  daysDiff : ℚ
  deriving DecidableEq, Repr

/-- The closure `addMovies(list, source)` acting on `uniqueMovies`, a map keyed
by id and kept in insertion order. -/
def addMovies (uniqueMovies list : List TrendingMovie) (source : String) :
    List TrendingMovie :=
  list.foldl (fun u movie =>
    if u.any (fun m => m.id == movie.id) then u
    else u ++ [{ movie with source := some source }]) uniqueMovies

/-- The pool `allMovies` when the three catalog calls succeed. -/
def buildPool (dailyTrending upcoming nowPlaying : List TrendingMovie) :
    List TrendingMovie :=
  addMovies (addMovies (addMovies [] dailyTrending "trending") upcoming "upcoming")
    nowPlaying "now_playing"

/-- The language codes accepted by the "Indian content only" filter. -/
def INDIAN_LANGUAGES : List String := ["hi", "ta", "te", "ml", "kn", "bn", "mr", "pa"]

/-- The expression `(releaseDate - today) / (1000 * 60 * 60 * 24)`, `today`
being the time value of `new Date()` in milliseconds. -/
def daysDiffOf (today : ℤ) (movie : TrendingMovie) : ℚ :=
  let releaseDate : ℤ := match movie.release_date with
    | some t => t
    | none => 0
  ((releaseDate - today : ℤ) : ℚ) / (1000 * 60 * 60 * 24)

/-- The callback of `indianOnlyMovies.map`: the scoring of one entry. -/
def scoreMovie (today : ℤ) (movie : TrendingMovie) : ScoredMovie :=
  let daysDiff := daysDiffOf today movie
  let branch : ℚ × Status :=
    if daysDiff > 0 then (1000 + movie.popularity / 10, Status.upcoming)
    else if daysDiff > -90 then
      (500 + movie.popularity / 5 + 100 / (|daysDiff| + 1), Status.fresh)
    else if movie.source = some "trending" then
      (100 + movie.popularity / 20, Status.viral_old)
    else (0, Status.dead)
  let score := if movie.vote_count > 1000 then branch.1 + 50 else branch.1
  { movie := movie, score := score, status := branch.2, daysDiff := daysDiff }

/-- The India branch of `GET /movies` from the pool `allMovies` on: the list
`results` (the response lists the same entries, in the same order). -/
def talkOfTheTown (today : ℤ) (allMovies : List TrendingMovie) : List ScoredMovie :=
  let indianOnlyMovies := allMovies.filter fun movie =>
    match movie.original_language with
    | some l => decide (l ≠ "") && decide (l ∈ INDIAN_LANGUAGES)
    | none => false
  if indianOnlyMovies.length = 0 then []
  else
    let scoredMovies := indianOnlyMovies.map (scoreMovie today)
    slice0 (sortDesc ScoredMovie.score (scoredMovies.filter fun m => decide (m.score > 0))) 20

/-- An old movie from the now-playing list with more than 1000 votes. -/
def oldPopularMovie : TrendingMovie :=
  { id := 1, original_language := some "hi", release_date := some 0, popularity := 10,
    vote_count := 1500, source := some "now_playing" }

/-- An upcoming entry, ten days ahead of `today = 0`, with popularity 5000. -/
def upcomingHot : TrendingMovie :=
  { id := 2, original_language := some "hi", release_date := some 864000000,
    popularity := 5000, vote_count := 200, source := some "upcoming" }

/-- A fresh entry, ten days behind `today = 0`, with popularity 5000. -/
def freshHot : TrendingMovie :=
  { id := 3, original_language := some "hi", release_date := some (-864000000),
    popularity := 5000, vote_count := 200, source := some "now_playing" }

/-! ## Catalog entries -/

/-- The fields of a raw catalog result read by the image matcher and by the
keyword search. -/
structure CatalogMovie where
  id : ℤ
  title : Option JsString
  name : Option JsString
  poster_path : Option String
  backdrop_path : Option String
  overview : Option JsString
  vote_average : Option ℚ
  popularity : Option ℚ
  release_date : Option String
  first_air_date : Option String
  genre_ids : Option (List ℤ)
  deriving DecidableEq, Repr

/-- The expression `a || b` on two strings that may be missing (the empty
string is falsy). -/
def strOr {α : Type} [DecidableEq α] (a b : Option (List α)) : Option (List α) :=
  match a with
  | some x => if x = [] then b else some x
  | none => b

/-- The expression `a || b` on two opaque strings that may be missing. -/
def pathOr (a b : Option String) : Option String :=
  match a with
  | some x => if x = "" then b else some x
  | none => b

/-! ## `server/services/imageMatchingService.js`: the image match engine -/

/-- An image buffer: its bytes. -/
abbrev Buffer := List ℕ

/-- The dominant colour reported by the image library, channels in `0..255`. -/
structure RGB where
  r : ℕ
  g : ℕ
  b : ℕ
  deriving DecidableEq, Repr

/-- The record `{ h, s, v }`. -/
structure HSV where
  h : ℚ
  s : ℚ
  v : ℚ
  deriving DecidableEq, Repr

/-- The result of `extractColorHistogram` (the `hex` rendering, which no
matcher reads, is left out). -/
structure ColorHistogram where
  rgb : RGB
  hsv : HSV
  deriving DecidableEq, Repr

/-- The result of `extractImageFeatures`. -/
structure ImageFeatures where
  colorHistogram : Option ColorHistogram
  perceptualHash : Option JsString
  deriving DecidableEq, Repr

/-- The image library (`sharp`): the dominant colour of `stats()` and the raw
bytes of the 8 x 8 greyscale resize, each `none` when the call throws. -/
structure ImageLib where
  stats : Buffer → Option RGB
  resizeGray : Buffer → Option (List ℕ)

/-- The remainder operator `a % b` of JavaScript (sign of the dividend). -/
def jsRem (a b : ℚ) : ℚ :=
  a - b * (if 0 ≤ a / b then (⌊a / b⌋ : ℤ) else (⌈a / b⌉ : ℤ))

/-- The helper `rgbToHsv`. -/
def rgbToHsv (r g b : ℕ) : HSV :=
  let r : ℚ := (r : ℚ) / 255
  let g : ℚ := (g : ℚ) / 255
  let b : ℚ := (b : ℚ) / 255
  let mx := max (max r g) b
  let mn := min (min r g) b
  let diff := mx - mn
  let s := if mx = 0 then 0 else (diff / mx) * 100
  let v := mx * 100
  let h : ℚ :=
    if diff ≠ 0 then
      if mx = r then 60 * jsRem ((g - b) / diff) 6
      else if mx = g then 60 * ((b - r) / diff + 2)
      else 60 * ((r - g) / diff + 4)
    else 0
  let h := if h < 0 then h + 360 else h
  { h := h, s := s, v := v }

/-- The function `extractColorHistogram`. -/
def extractColorHistogram (lib : ImageLib) (buffer : Buffer) : Option ColorHistogram :=
  match lib.stats buffer with
  | some dominant =>
    some { rgb := dominant, hsv := rgbToHsv dominant.r dominant.g dominant.b }
  | none => none

/-- The function `generatePerceptualHash`. -/
def generatePerceptualHash (lib : ImageLib) (buffer : Buffer) : Option JsString :=
  match lib.resizeGray buffer with
  | some resized =>
    let sum : ℕ := resized.foldl (fun sum px => sum + px) 0
    let average : ℚ := (sum : ℚ) / (resized.length : ℚ)
    some (resized.foldl (fun (hash : JsString) (px : ℕ) =>
      hash ++ [if ((px : ℕ) : ℚ) ≥ average then '1' else '0']) [])
  | none => none

/-- The function `hammingDistance`; a hash is falsy when `null` or empty. The
counting loop runs over the positions of two hashes of equal length. -/
def hammingDistance (hash1 hash2 : Option JsString) : ℚ :=
  match hash1, hash2 with
  | some h1, some h2 =>
    if h1 = [] ∨ h2 = [] ∨ h1.length ≠ h2.length then 100
    else (((h1.zip h2).countP fun p => p.1 != p.2 : ℕ) : ℚ)
  | _, _ => 100

/-- The function `calculateColorSimilarity`. -/
def calculateColorSimilarity (color1 color2 : Option ColorHistogram) : ℚ :=
  match color1, color2 with
  | some color1, some color2 =>
    let hDiff := |color1.hsv.h - color2.hsv.h|
    let sDiff := |color1.hsv.s - color2.hsv.s|
    let vDiff := |color1.hsv.v - color2.hsv.v|
    let hSimilarity := 1 - min hDiff (360 - hDiff) / 180
    let sSimilarity := 1 - sDiff / 100
    let vSimilarity := 1 - vDiff / 100
    (hSimilarity * (5 / 10) + sSimilarity * (3 / 10) + vSimilarity * (2 / 10)) * 100
  | _, _ => 0

/-- The function `extractImageFeatures`. -/
def extractImageFeatures (lib : ImageLib) (buffer : Buffer) : ImageFeatures :=
  { colorHistogram := extractColorHistogram lib buffer,
    perceptualHash := generatePerceptualHash lib buffer }

/-- The expression `Math.max(0, 100 - (hashDistance * 1.5625))`. -/
def hashSimilarityOf (hashDistance : ℚ) : ℚ :=
  max 0 (100 - hashDistance * (15625 / 10000))

/-- The argument `options` of `matchImageToMovie`, as the caller in
`routes/sceneSearch.js` builds it: `{ type, limit, excludeId }`. -/
structure MatchOptions where
  type : Option String
  limit : Option ℤ
  excludeId : Option ℤ
  deriving DecidableEq, Repr

/-- An element of `matches`. -/
structure ImageMatch where
  id : ℤ
  title : Option JsString
  poster : Option String
  backdrop : Option String
  overview : Option JsString
  rating : Option ℚ
  releaseDate : Option String
  type : String
  matchScore : ℚ
  hashSimilarity : ℚ
  colorSimilarity : ℚ
  deriving DecidableEq, Repr

/-- The `confidence` label. -/
inductive Confidence where
  | high
  | medium
  | low
  deriving DecidableEq, Repr

/-- The object returned by `matchImageToMovie` and `matchVideoToMovie`. -/
structure MatchResult where
  identified : Bool
  confidence : Confidence
  identifiedMovie : Option ImageMatch
  alternativeResults : List ImageMatch
  matchingMethod : String
  error : Option String
  deriving DecidableEq, Repr

/-- What `matchImageToMovie` reaches outside itself: the image library, the
catalog discovery call by endpoint (an error message when it throws, the list
`response.data.results || []` otherwise) and `downloadPoster(posterPath, id)`
(`none` for `null`). -/
structure ImageEnv where
  lib : ImageLib
  discover : String → Except String (List CatalogMovie)
  downloadPoster : String → ℤ → Option Buffer

/-- The expression `type === 'tv' ? 'discover/tv' : 'discover/movie'`. -/
def discoverEndpoint (type : String) : String :=
  if type = "tv" then "discover/tv" else "discover/movie"

/-- The body of the candidate loop of `matchImageToMovie` for one `movie`:
the entry pushed on `matches`, if any. -/
def processCandidate (env : ImageEnv) (uploadedFeatures : ImageFeatures) (type : String)
    (movie : CatalogMovie) : Option ImageMatch :=
  match movie.poster_path with
  | none => none
  | some posterPath =>
    if posterPath = "" then none
    else
      match env.downloadPoster posterPath movie.id with
      | none => none
      | some posterBuffer =>
        let posterFeatures := extractImageFeatures env.lib posterBuffer
        let hashDistance :=
          hammingDistance uploadedFeatures.perceptualHash posterFeatures.perceptualHash
        let colorSimilarity :=
          calculateColorSimilarity uploadedFeatures.colorHistogram posterFeatures.colorHistogram
        let hashSimilarity := hashSimilarityOf hashDistance
        let combinedScore := hashSimilarity * (7 / 10) + colorSimilarity * (3 / 10)
        if combinedScore > 25 then
          some { id := movie.id,
                 title := strOr movie.title movie.name,
                 poster := movie.poster_path,
                 backdrop := movie.backdrop_path,
                 overview := movie.overview,
                 rating := movie.vote_average,
                 releaseDate := pathOr movie.release_date movie.first_air_date,
                 type := type,
                 matchScore := combinedScore,
                 hashSimilarity := hashSimilarity,
                 colorSimilarity := colorSimilarity }
        else none

/-- The `try` block of `matchImageToMovie` up to `topMatches`: an error
message when it throws. Only `type` and `limit` are read from `options`. -/
def topMatches (env : ImageEnv) (imageBuffer : Buffer) (options : MatchOptions) :
    Except String (List ImageMatch) :=
  let type := options.type.getD "movie"
  let limit := options.limit.getD 20
  let uploadedFeatures := extractImageFeatures env.lib imageBuffer
  if uploadedFeatures.perceptualHash = none ∨ uploadedFeatures.perceptualHash = some [] then
    .error "Failed to extract image features"
  else
    let endpoint := discoverEndpoint type
    match env.discover endpoint with
    | .error message => .error message
    | .ok movies =>
      let moviesToCheck := movies.take 15
      let found := moviesToCheck.filterMap (processCandidate env uploadedFeatures type)
      .ok (slice0 (sortDesc ImageMatch.matchScore found) limit)

/-- The function `matchImageToMovie`. -/
def matchImageToMovie (env : ImageEnv) (imageBuffer : Buffer) (options : MatchOptions) :
    MatchResult :=
  match topMatches env imageBuffer options with
  | .ok topMatches =>
    let identified : Bool := match topMatches with
      | top :: _ => decide (top.matchScore > 65)
      | [] => false
    { identified := identified,
      confidence :=
        if identified then
          (match topMatches with
            | top :: _ => if top.matchScore > 80 then Confidence.high else Confidence.medium
            | [] => Confidence.low)
        else Confidence.low,
      identifiedMovie := if identified then topMatches.head? else none,
      alternativeResults := if identified then topMatches.drop 1 else topMatches,
      matchingMethod := "computer_vision",
      error := none }
  | .error message =>
    { identified := false,
      confidence := Confidence.low,
      identifiedMovie := none,
      alternativeResults := [],
      matchingMethod := "computer_vision",
      error := some message }

/-! ## `server/services/tmdbKeywordSearch.js`: the text vibe engine -/

/-- The table `MOOD_TO_GENRES`. -/
def MOOD_TO_GENRES : List (String × List ℤ) :=
  [ ("happy", [35, 10751, 10749]), ("sad", [18, 10749]), ("scared", [27, 53]),
    ("excited", [28, 12, 878]), ("relaxed", [10751, 16, 35]), ("tense", [53, 80, 9648]),
    ("romantic", [10749, 35, 18]), ("nostalgic", [18, 36, 10751]),
    ("inspired", [18, 36, 10752]), ("adventurous", [12, 28, 14]),
    ("dark", [27, 53, 80]), ("light", [35, 10751, 16]), ("mysterious", [9648, 53, 878]),
    ("epic", [12, 14, 10752]), ("intense", [28, 53, 18]), ("funny", [35]),
    ("dramatic", [18]), ("thrilling", [53, 28, 80]), ("magical", [14, 16, 10751]),
    ("gritty", [80, 53, 18]),
    ("crime", [80, 53]), ("war", [10752, 36]), ("space", [878, 12]), ("fantasy", [14, 12]),
    ("horror", [27]), ("action", [28, 12]), ("family", [10751, 16, 35]),
    ("psychological", [53, 18, 9648]), ("superhero", [28, 12, 14]), ("western", [37]),
    ("historical", [36, 10752]), ("documentary", [99]), ("music", [10402]),
    ("animation", [16]) ]

/-- The table `KEYWORD_HINTS`. -/
def KEYWORD_HINTS : List (String × List ℤ) :=
  [ ("zombie", [27, 53]), ("vampire", [27, 14]), ("detective", [9648, 80, 53]),
    ("heist", [80, 53, 28]), ("spy", [28, 53, 12]), ("alien", [878, 27, 12]),
    ("robot", [878, 28]), ("time travel", [878, 12, 14]), ("dystopian", [878, 18, 53]),
    ("cyberpunk", [878, 28, 53]), ("medieval", [14, 12, 36]), ("pirate", [12, 28, 14]),
    ("monster", [27, 878, 28]), ("ghost", [27, 9648]), ("serial killer", [53, 80, 27]),
    ("apocalypse", [878, 28, 18]), ("survival", [28, 53, 18]), ("revenge", [28, 53, 18]),
    ("coming of age", [18, 35, 10749]), ("sports", [18]), ("martial arts", [28]),
    ("mafia", [80, 18]), ("prison", [18, 53, 80]), ("school", [18, 35, 10749]),
    ("college", [35, 18, 10749]) ]

/-- The function `extractKeywordsWithTFIDF`; `toLowerCase` is the method of
the engine and `listTerms` the term list of the `natural` library for the
single lowercased document, in its order. -/
def extractKeywordsWithTFIDF (toLowerCase : JsString → JsString)
    (listTerms : JsString → List JsString) (description : JsString) : List JsString :=
  ((listTerms (toLowerCase description)).filter fun term => decide (term.length > 2)).take 10

/-- One `for` loop of `mapDescriptionToGenres` over a trigger table. -/
def addTableGenres (lowerDesc : JsString) (genreIds : List ℤ)
    (table : List (String × List ℤ)) : List ℤ :=
  table.foldl (fun ids entry =>
    if includes lowerDesc entry.1.toList then entry.2.foldl setAdd ids else ids) genreIds

/-- The function `mapDescriptionToGenres`; `toLowerCase` is the method of the
engine. -/
def mapDescriptionToGenres (toLowerCase : JsString → JsString) (description : JsString) :
    List ℤ :=
  let lowerDesc := toLowerCase description
  addTableGenres lowerDesc (addTableGenres lowerDesc [] MOOD_TO_GENRES) KEYWORD_HINTS

/-- The class `\w` of regular expressions. -/
def isWordChar (c : Char) : Bool := c.isAlphanum || c == '_'

/-- The assertion `\b` in front of a word character, `prev` being the
character before the position. -/
def boundaryBefore (prev : Option Char) : Bool :=
  match prev with
  | none => true
  | some c => !isWordChar c

/-- The assertion `\b` behind a word character, `rest` being what follows. -/
def boundaryAfter (rest : JsString) : Bool :=
  match rest with
  | [] => true
  | c :: _ => !isWordChar c

/-- The value of an ASCII digit. -/
def digitValue (c : Char) : ℕ := c.toNat - '0'.toNat

/-- A match of `\b(19\d{2}|20\d{2})\b` starting at the head of `s`: the year. -/
def yearAt (prev : Option Char) (s : JsString) : Option ℕ :=
  match s with
  | a :: b :: c :: d :: rest =>
    if boundaryBefore prev && ((a == '1' && b == '9') || (a == '2' && b == '0'))
        && c.isDigit && d.isDigit && boundaryAfter rest
    then some (digitValue a * 1000 + digitValue b * 100 + digitValue c * 10 + digitValue d)
    else none
  | _ => none

/-- The leftmost match of `\b(19\d{2}|20\d{2})\b`. -/
def findYear : Option Char → JsString → Option ℕ
  | _, [] => none
  | prev, c :: rest =>
    match yearAt prev (c :: rest) with
    | some y => some y
    | none => findYear (some c) rest

/-- A case-insensitive match of `\bword\b` starting at the head of `s`, for a
lowercase `word` that starts and ends with a word character. -/
def wordAt (word : JsString) (prev : Option Char) (s : JsString) : Bool :=
  boundaryBefore prev && (asciiLowerCase (s.take word.length) == word)
    && boundaryAfter (s.drop word.length)

/-- Whether `\bword\b` matches somewhere, with the flag `i`. -/
def hasWord (word : JsString) : Option Char → JsString → Bool
  | prev, [] => wordAt word prev []
  | prev, c :: rest => wordAt word prev (c :: rest) || hasWord word (some c) rest

/-- Whether `\b(w1|w2|...)\b` matches the description, with the flag `i`. -/
def matchesWords (words : List String) (description : JsString) : Bool :=
  words.any fun w => hasWord w.toList none description

/-- The object returned by `extractYearRange`: the keys `year`,
`primary_release_date.gte` and `primary_release_date.lte`, each possibly absent. -/
structure YearFilters where
  year : Option ℕ
  gte : Option String
  lte : Option String
  deriving DecidableEq, Repr

/-- The function `extractYearRange`; `currentYear` is `new Date().getFullYear()`. -/
def extractYearRange (currentYear : ℕ) (description : JsString) : YearFilters :=
  match findYear none description with
  | some y => { year := some y, gte := none, lte := none }
  | none =>
    if matchesWords ["80s", "eighties"] description then
      { year := none, gte := some "1980-01-01", lte := some "1989-12-31" }
    else if matchesWords ["90s", "nineties"] description then
      { year := none, gte := some "1990-01-01", lte := some "1999-12-31" }
    else if matchesWords ["2000s"] description then
      { year := none, gte := some "2000-01-01", lte := some "2009-12-31" }
    else if matchesWords ["classic", "old", "vintage"] description then
      { year := none, gte := none, lte := some "1990-12-31" }
    else if matchesWords ["recent", "new", "latest", "modern"] description then
      { year := none, gte := some (toString (currentYear - 3) ++ "-01-01"), lte := none }
    else { year := none, gte := none, lte := none }

/-- A catalog request: the path after the base URL and the query parameters
that vary (`api_key` and `page: 1` are constant). -/
structure CatalogRequest where
  endpoint : String
  with_genres : Option (List ℤ)
  sort_by : Option String
  vote_count_gte : Option ℕ
  yearFilters : YearFilters
  query : Option JsString
  deriving DecidableEq, Repr

/-- What `searchByDescription` reaches outside itself, over a world state `σ`:
the method `String.prototype.toLowerCase` of the engine, the term extraction
of `natural`, the clock, one `axios.get` (an error message when it throws,
`response.data.results || []` otherwise) and one timer wait of the given
number of milliseconds. -/
structure SearchEnv (σ : Type) where
  toLowerCase : JsString → JsString
  listTerms : JsString → List JsString
  currentYear : ℕ
  get : CatalogRequest → σ → Except String (List CatalogMovie) × σ
  sleep : ℕ → σ → σ

/-- The loop of `retryRequest` from iteration `i` on, with `remaining`
iterations left; `none` is the `undefined` of a loop that ran out. -/
def retryFrom {σ α : Type} (sleep : ℕ → σ → σ) (fn : σ → Except String α × σ)
    (retries : ℕ) : ℕ → ℕ → σ → Except String (Option α) × σ
  | _, 0, s => (.ok none, s)
  | i, remaining + 1, s =>
    match fn s with
    | (.ok a, s1) => (.ok (some a), s1)
    | (.error e, s1) =>
      if i = retries - 1 then (.error e, s1)
      else retryFrom sleep fn retries (i + 1) remaining (sleep (min (1000 * 2 ^ i) 5000) s1)

/-- The function `retryRequest(fn, retries)`. -/
def retryRequest {σ α : Type} (sleep : ℕ → σ → σ) (fn : σ → Except String α × σ)
    (retries : ℕ) (s : σ) : Except String (Option α) × σ :=
  retryFrom sleep fn retries 0 retries s

/-- The expression `(await retryRequest(() => axios.get(...))).data.results || []`;
reading `.data` of `undefined` throws. -/
def fetchResults {σ : Type} (env : SearchEnv σ) (request : CatalogRequest) (s : σ) :
    Except String (List CatalogMovie) × σ :=
  match retryRequest env.sleep (env.get request) 3 s with
  | (.ok (some results), s1) => (.ok results, s1)
  | (.ok none, s1) => (.error "TypeError", s1)
  | (.error e, s1) => (.error e, s1)

/-- The argument `options` of `searchByDescription`. -/
structure SearchOptions where
  limit : Option ℤ
  type : Option String
  deriving DecidableEq, Repr

/-- The three strategies of `searchByDescription`: the list `allResults`, or
the error that leaves the `try` block. -/
def gatherPools {σ : Type} (env : SearchEnv σ) (type : String) (keywords : List JsString)
    (genreIds : List ℤ) (yearFilters : YearFilters) (s : σ) :
    Except String (List CatalogMovie) × σ :=
  let endpoint := discoverEndpoint type
  -- Strategy 1: genre-based discovery
  let first : Except String (List CatalogMovie) × σ :=
    if genreIds.length > 0 then
      fetchResults env
        { endpoint := endpoint, with_genres := some (genreIds.take 3),
          sort_by := some "popularity.desc", vote_count_gte := some 50,
          yearFilters := yearFilters, query := none } s
    else (.ok [], s)
  match first with
  | (.error e, s1) => (.error e, s1)
  | (.ok genreResults, s1) =>
    -- Strategy 2: keyword search
    let second : Except String (List CatalogMovie) × σ :=
      if keywords.length > 0 then
        fetchResults env
          { endpoint := if type = "tv" then "search/tv" else "search/movie",
            with_genres := none, sort_by := none, vote_count_gte := none,
            yearFilters := { year := none, gte := none, lte := none },
            query := some ((keywords.take 5).intersperse [' ']).flatten }
          (env.sleep 300 s1)
      else (.ok [], s1)
    match second with
    | (.error e, s2) => (.error e, s2)
    | (.ok searchResults, s2) =>
      let allResults := genreResults ++ searchResults
      -- Strategy 3: high-rated movies
      if allResults.length < 10 then
        match fetchResults env
          { endpoint := endpoint, with_genres := none,
            sort_by := some "vote_average.desc", vote_count_gte := some 1000,
            yearFilters := yearFilters, query := none } (env.sleep 300 s2) with
        | (.error e, s3) => (.error e, s3)
        | (.ok topRated, s3) => (.ok (allResults ++ topRated), s3)
      else (.ok allResults, s2)

/-- The duplicate removal of `searchByDescription`: the pair `(seenIds, uniqueMovies)`
after the loop. -/
def uniqueLoop (allResults : List CatalogMovie) : List ℤ × List CatalogMovie :=
  allResults.foldl (fun acc movie =>
    if !acc.1.contains movie.id && (movie.overview != none && movie.overview != some [])
    then (acc.1 ++ [movie.id], acc.2 ++ [movie]) else acc) ([], [])

/-- An element of `scoredResults`. -/
structure SearchResult where
  id : ℤ
  title : Option JsString
  poster : Option String
  backdrop : Option String
  overview : Option JsString
  rating : Option ℚ
  releaseDate : Option String
  type : String
  matchScore : ℚ
  genres : List ℤ
  deriving DecidableEq, Repr

/-- A value interpolated in a template literal. -/
def interpolate (x : Option JsString) : JsString := x.getD "undefined".toList

/-- The callback of `uniqueMovies.map`: the scoring of one candidate;
`toLowerCase` is the method of the engine. -/
def scoreCandidate (toLowerCase : JsString → JsString) (keywords : List JsString)
    (genreIds : List ℤ) (type : String) (movie : CatalogMovie) : SearchResult :=
  let movieText := toLowerCase
    (interpolate (strOr movie.title movie.name) ++ [' '] ++ interpolate movie.overview)
  -- Keyword matching score
  let score : ℚ := keywords.foldl (fun (score : ℚ) keyword =>
    if includes movieText keyword then score + 2 else score) 0
  -- Genre matching score
  let score : ℚ := match movie.genre_ids with
    | some ids => genreIds.foldl (fun (score : ℚ) genreId =>
        if ids.contains genreId then score + 3 else score) score
    | none => score
  -- Popularity boost
  let score := score + movie.popularity.getD 0 / 100
  -- Rating boost
  let score := score + movie.vote_average.getD 0 / 2
  { id := movie.id,
    title := strOr movie.title movie.name,
    poster := movie.poster_path,
    backdrop := movie.backdrop_path,
    overview := movie.overview,
    rating := movie.vote_average,
    releaseDate := pathOr movie.release_date movie.first_air_date,
    type := type,
    matchScore := score,
    genres := movie.genre_ids.getD [] }

/-- The tail of `searchByDescription`: from `allResults` to `finalResults`. -/
def rankResults (toLowerCase : JsString → JsString) (keywords : List JsString)
    (genreIds : List ℤ) (type : String) (limit : ℤ) (allResults : List CatalogMovie) :
    List SearchResult :=
  let uniqueMovies := (uniqueLoop allResults).2
  let scoredResults := uniqueMovies.map (scoreCandidate toLowerCase keywords genreIds type)
  slice0 (sortDesc SearchResult.matchScore scoredResults) limit

/-- The function `searchByDescription`: the returned list or the error thrown,
and the world after the call. -/
def searchByDescription {σ : Type} (env : SearchEnv σ) (description : JsString)
    (options : SearchOptions) (s : σ) : Except String (List SearchResult) × σ :=
  let limit := options.limit.getD 20
  let type := options.type.getD "movie"
  let keywords := extractKeywordsWithTFIDF env.toLowerCase env.listTerms description
  let genreIds := mapDescriptionToGenres env.toLowerCase description
  let yearFilters := extractYearRange env.currentYear description
  match gatherPools env type keywords genreIds yearFilters s with
  | (.ok allResults, s1) =>
    (.ok (rankResults env.toLowerCase keywords genreIds type limit allResults), s1)
  | (.error e, s1) => (.error e, s1)

/-- Every bit of a binary hash flipped. -/
def flipBits (h : JsString) : JsString := h.map fun c => if c = '0' then '1' else '0'

/-- The ranked list of `matchImageToMovie`: `topMatches`, empty when the
call failed. -/
def rankedList (env : ImageEnv) (imageBuffer : Buffer) (options : MatchOptions) :
    List ImageMatch :=
  match topMatches env imageBuffer options with
  | .ok l => l
  | .error _ => []

/-- A toy image library: the first byte of a buffer decides its dominant
colour and the left half of its 8 x 8 greyscale resize. -/
def demoLib : ImageLib :=
  { stats := fun buffer => some { r := buffer.headD 0, g := 30, b := 30 },
    resizeGray := fun buffer =>
      some (List.replicate 32 (buffer.headD 0) ++ List.replicate 32 255) }

/-- A catalog entry with a poster and the given id. -/
def posterEntry (id : ℤ) : CatalogMovie :=
  { id := id, title := some "Alpha".toList, name := none, poster_path := some "/poster.jpg",
    backdrop_path := none, overview := some "A film.".toList, vote_average := some 8,
    popularity := some 10, release_date := some "2020-01-01", first_air_date := none,
    genre_ids := some [28] }

/-- A catalog whose only popular entry is id 42; every poster has the bytes `[7]`. -/
def soloEnv : ImageEnv :=
  { lib := demoLib,
    discover := fun _ => .ok [posterEntry 42],
    downloadPoster := fun _ _ => some [7] }

/-- A catalog listing ids 41 and 42, in that order, with the same poster bytes `[7]`. -/
def tieEnv : ImageEnv :=
  { lib := demoLib,
    discover := fun _ => .ok [posterEntry 41, posterEntry 42],
    downloadPoster := fun _ _ => some [7] }

/-- A catalog listing id 41 without a poster, then id 42 with the poster bytes `[7]`. -/
def mixedEnv : ImageEnv :=
  { lib := demoLib,
    discover := fun _ => .ok [{ posterEntry 41 with poster_path := none }, posterEntry 42],
    downloadPoster := fun _ _ => some [7] }

/-- The hash the toy library gives an image with the bytes `[7]`. -/
def demoHash : JsString := (generatePerceptualHash demoLib [7]).getD []

/-- The colour the toy library gives an image with the bytes `[7]`. -/
def demoColor : ColorHistogram := { rgb := ⟨7, 30, 30⟩, hsv := rgbToHsv 7 30 30 }

/-- A toy catalog for the keyword search: every call succeeds, the world state
is the log of the waits. -/
def demoSearchEnv : SearchEnv (List ℕ) :=
  { toLowerCase := asciiLowerCase,
    listTerms := fun _ => ["dark".toList, "city".toList],
    currentYear := 2024,
    get := fun request s =>
      if request.query = none then (.ok [posterEntry 42, posterEntry 7], s)
      else (.ok [posterEntry 7, { posterEntry 9 with popularity := some 500 }], s),
    sleep := fun ms s => s ++ [ms] }

/-- An upcoming entry, ten days ahead of `today = 0`, with popularity 100. -/
def upcomingMild : TrendingMovie :=
  { id := 4, original_language := some "ta", release_date := some 864000000,
    popularity := 100, vote_count := 200, source := some "upcoming" }

/-- A fresh entry, ten days behind `today = 0`, with popularity 100 and more
than 1000 votes. -/
def freshVoted : TrendingMovie :=
  { id := 6, original_language := some "ta", release_date := some (-864000000),
    popularity := 100, vote_count := 5000, source := some "now_playing" }

/-- A catalog entry whose title and overview are in title case. -/
def darkCityEntry : CatalogMovie :=
  { posterEntry 5 with
    title := some "Dark City".toList, overview := some "A Rainy Film.".toList }

/-- A toy catalog for the keyword search whose every call returns the entry
"Dark City"; the engine lowercases ASCII text. -/
def titleCaseEnv : SearchEnv Unit :=
  { toLowerCase := asciiLowerCase,
    listTerms := fun _ => ["dark".toList, "city".toList],
    currentYear := 2024,
    get := fun _ s => (.ok [darkCityEntry], s),
    sleep := fun _ s => s }

/-- The record Alpha: genres `[Action]`, rating 8.0, no keywords, no cast. -/
def alpha : MovieRecord :=
  { genres := [.obj 28 "Action"], keywords := [], cast := [], rating := some 8 }

/-! ## Pools and requests of `searchByDescription` -/

/-- The request of strategy 1 of `searchByDescription` (genre discovery). -/
def genreRequest (type : String) (genreIds : List ℤ) (yearFilters : YearFilters) :
    CatalogRequest :=
  { endpoint := discoverEndpoint type, with_genres := some (genreIds.take 3),
    sort_by := some "popularity.desc", vote_count_gte := some 50,
    yearFilters := yearFilters, query := none }

/-- The request of strategy 2 of `searchByDescription` (keyword search). -/
def keywordRequest (type : String) (keywords : List JsString) : CatalogRequest :=
  { endpoint := if type = "tv" then "search/tv" else "search/movie",
    with_genres := none, sort_by := none, vote_count_gte := none,
    yearFilters := { year := none, gte := none, lte := none },
    query := some ((keywords.take 5).intersperse [' ']).flatten }

/-- The request of strategy 3 of `searchByDescription` (top-rated fallback). -/
def fallbackRequest (type : String) (yearFilters : YearFilters) : CatalogRequest :=
  { endpoint := discoverEndpoint type, with_genres := none,
    sort_by := some "vote_average.desc", vote_count_gte := some 1000,
    yearFilters := yearFilters, query := none }

/-- Strategy 1 of `searchByDescription`: the genre-discovery pool, empty when
no genre id was mapped. -/
def genrePool {σ : Type} (env : SearchEnv σ) (type : String) (genreIds : List ℤ)
    (yearFilters : YearFilters) (s : σ) : Except String (List CatalogMovie) × σ :=
  if genreIds.length > 0 then fetchResults env (genreRequest type genreIds yearFilters) s
  else (.ok [], s)

/-- Strategy 2 of `searchByDescription`: the keyword-search pool, empty when
no salient term was extracted. -/
def keywordPool {σ : Type} (env : SearchEnv σ) (type : String) (keywords : List JsString)
    (s : σ) : Except String (List CatalogMovie) × σ :=
  if keywords.length > 0 then fetchResults env (keywordRequest type keywords) (env.sleep 300 s)
  else (.ok [], s)

/-- Strategy 3 of `searchByDescription`: the top-rated fallback pool. -/
def fallbackPool {σ : Type} (env : SearchEnv σ) (type : String) (yearFilters : YearFilters)
    (s : σ) : Except String (List CatalogMovie) × σ :=
  fetchResults env (fallbackRequest type yearFilters) (env.sleep 300 s)

/-- An environment that also records, in order, every request handed to
`axios.get`. -/
def loggedEnv {τ : Type} (env : SearchEnv τ) : SearchEnv (List CatalogRequest × τ) :=
  { toLowerCase := env.toLowerCase,
    listTerms := env.listTerms,
    currentYear := env.currentYear,
    get := fun request s => ((env.get request s.2).1, (s.1 ++ [request], (env.get request s.2).2)),
    sleep := fun ms s => (s.1, env.sleep ms s.2) }

/-- The text a candidate is searched in: the template `title overview` (the
title falling back on the name) handed to the method `toLowerCase` of the
engine. -/
def movieTextOf (toLowerCase : JsString → JsString) (movie : CatalogMovie) : JsString :=
  toLowerCase (interpolate (strOr movie.title movie.name) ++ [' '] ++ interpolate movie.overview)

/-- Whether `movie.overview` is truthy: present and not empty. -/
def hasOverview (movie : CatalogMovie) : Bool :=
  movie.overview != none && movie.overview != some []

/-- The body of the duplicate-removal loop of `searchByDescription`. -/
def uniqueStep (acc : List ℤ × List CatalogMovie) (movie : CatalogMovie) :
    List ℤ × List CatalogMovie :=
  if !acc.1.contains movie.id && (movie.overview != none && movie.overview != some [])
  then (acc.1 ++ [movie.id], acc.2 ++ [movie]) else acc

/-- The invariant of the duplicate-removal loop after the entries `pfx`. -/
def UniqueInv (pfx : List CatalogMovie) (acc : List ℤ × List CatalogMovie) : Prop :=
  acc.1 = acc.2.map CatalogMovie.id ∧
  (acc.2.map CatalogMovie.id).Nodup ∧
  (∀ m ∈ acc.2, hasOverview m = true ∧
    ∃ pre post, pfx = pre ++ m :: post ∧ ∀ x ∈ pre, x.id = m.id → hasOverview x = false) ∧
  (∀ x ∈ pfx, hasOverview x = true → x.id ∈ acc.1)

/-! ## Patterns of `extractYearRange`, stated on the description -/

/-- The character in front of a position: the last one of `pre`, or `prev`
when `pre` is empty. -/
def lastOr (prev : Option Char) (pre : JsString) : Option Char :=
  match pre.getLast? with
  | some c => some c
  | none => prev

/-- A standalone 4-digit year `19dd` or `20dd` occurs in the description: it
has no word character right before or right after it. -/
def YearOccurs (description : JsString) (y : ℕ) : Prop :=
  ∃ pre a b c d post, description = pre ++ a :: b :: c :: d :: post ∧
    ((a = '1' ∧ b = '9') ∨ (a = '2' ∧ b = '0')) ∧ c.isDigit = true ∧ d.isDigit = true ∧
    boundaryBefore pre.getLast? = true ∧ boundaryAfter post = true ∧
    y = digitValue a * 1000 + digitValue b * 100 + digitValue c * 10 + digitValue d

/-- The lowercase `word` occurs in the description as a standalone word, in
any letter case. -/
def WordOccurs (word description : JsString) : Prop :=
  ∃ pre mid post, description = pre ++ mid ++ post ∧ asciiLowerCase mid = word ∧
    boundaryBefore pre.getLast? = true ∧ boundaryAfter post = true

/-- One of the words occurs in the description as a standalone word. -/
def AnyWordOccurs (words : List String) (description : JsString) : Prop :=
  ∃ w ∈ words, WordOccurs w.toList description

/-- What a match of the year pattern at some position of `s` is, `prev` being
the character in front of `s`. -/
def YearOccursFrom (prev : Option Char) (s : JsString) (y : ℕ) : Prop :=
  ∃ pre a b c d post, s = pre ++ a :: b :: c :: d :: post ∧
    ((a = '1' ∧ b = '9') ∨ (a = '2' ∧ b = '0')) ∧ c.isDigit = true ∧ d.isDigit = true ∧
    boundaryBefore (lastOr prev pre) = true ∧ boundaryAfter post = true ∧
    y = digitValue a * 1000 + digitValue b * 100 + digitValue c * 10 + digitValue d

/-- What a match of `\bword\b` at some position of `s` is, `prev` being the
character in front of `s`. -/
def WordOccursFrom (word : JsString) (prev : Option Char) (s : JsString) : Prop :=
  ∃ pre mid post, s = pre ++ mid ++ post ∧ asciiLowerCase mid = word ∧
    boundaryBefore (lastOr prev pre) = true ∧ boundaryAfter post = true

/-! ## `server/services/imageMatchingService.js`: the video aggregation -/

/-- A value of the map `movieScores`: `{ movie, totalScore, count }`. -/
structure ScoreEntry where
  movie : ImageMatch
  totalScore : ℚ
  count : ℕ
  deriving DecidableEq, Repr

/-- The map `movieScores`: its keys with their values, in insertion order. -/
abbrev ScoreMap := List (ℤ × ScoreEntry)

/-- The method `Map.prototype.set`: an existing key keeps its place. -/
def mapSet (movieScores : ScoreMap) (id : ℤ) (value : ScoreEntry) : ScoreMap :=
  if movieScores.any (fun kv => kv.1 == id) then
    movieScores.map fun kv => if kv.1 == id then (id, value) else kv
  else movieScores ++ [(id, value)]

/-- The four statements run for one appearance of `movie` in a frame result,
`contribution` being what is added to its total. -/
def accumulate (movieScores : ScoreMap) (movie : ImageMatch) (contribution : ℚ) : ScoreMap :=
  let id := movie.id
  let current := (movieScores.lookup id).getD { movie := movie, totalScore := 0, count := 0 }
  mapSet movieScores id
    { current with totalScore := current.totalScore + contribution, count := current.count + 1 }

/-- The callback of `frameResults.forEach`. -/
def frameStep (movieScores : ScoreMap) (result : MatchResult) : ScoreMap :=
  let afterIdentified := match result.identifiedMovie with
    | some identifiedMovie => accumulate movieScores identifiedMovie identifiedMovie.matchScore
    | none => movieScores
  result.alternativeResults.foldl
    (fun scores movie => accumulate scores movie (movie.matchScore * (5 / 10))) afterIdentified

/-- An element of `aggregatedResults`: `{ ...movie, matchScore, frameMatches }`. -/
structure VideoMatch extends ImageMatch where
  frameMatches : ℕ
  deriving DecidableEq, Repr

/-- The callback of `Array.from(movieScores.values()).map`. -/
def toVideoMatch (entry : ScoreEntry) : VideoMatch :=
  { entry.movie with
    matchScore := entry.totalScore / (entry.count : ℚ),
    frameMatches := entry.count }

/-- The list `aggregatedResults` of `matchVideoToMovie`. -/
def aggregatedResults (frameResults : List MatchResult) : List VideoMatch :=
  sortDesc (fun m => m.matchScore)
    (((frameResults.foldl frameStep []).map Prod.snd).map toVideoMatch)

/-- The object returned by `matchVideoToMovie`. -/
structure VideoResult where
  identified : Bool
  confidence : Confidence
  identifiedMovie : Option VideoMatch
  alternativeResults : List VideoMatch
  matchingMethod : String
  framesAnalyzed : ℕ
  deriving DecidableEq, Repr

/-- The part of `matchVideoToMovie` after the per-frame results are in. -/
def aggregateFrames (frameResults : List MatchResult) (framesAnalyzed : ℕ) : VideoResult :=
  let aggregated := aggregatedResults frameResults
  let identified : Bool := match aggregated with
    | top :: _ => decide (top.matchScore > 60)
    | [] => false
  { identified := identified,
    confidence :=
      if identified then
        (match aggregated with
          | top :: _ => if top.matchScore > 75 then Confidence.high else Confidence.medium
          | [] => Confidence.low)
      else Confidence.low,
    identifiedMovie := if identified then aggregated.head? else none,
    alternativeResults :=
      if identified then (aggregated.drop 1).take 10 else aggregated.take 10,
    matchingMethod := "computer_vision_video",
    framesAnalyzed := framesAnalyzed }

/-- The function `matchVideoToMovie`. -/
def matchVideoToMovie (env : ImageEnv) (frameBuffers : List Buffer) (options : MatchOptions) :
    VideoResult :=
  let frameResults := frameBuffers.map fun buffer => matchImageToMovie env buffer options
  aggregateFrames frameResults frameBuffers.length

/-- What the appearances of the catalog id `id` in the frame results
contribute: the full score where it is the `identifiedMovie`, half the score
where it is among the `alternativeResults`. -/
def contributionsOf (id : ℤ) (frameResults : List MatchResult) : List ℚ :=
  frameResults.flatMap fun result =>
    ((result.identifiedMovie.toList.filter fun m => m.id == id).map fun m => m.matchScore) ++
    ((result.alternativeResults.filter fun m => m.id == id).map fun m => m.matchScore / 2)

/-- The appearances of one frame result, in the order the loop visits them,
each with what it adds. -/
def frameContributions (result : MatchResult) : List (ImageMatch × ℚ) :=
  (result.identifiedMovie.toList.map fun m => (m, m.matchScore)) ++
  (result.alternativeResults.map fun m => (m, m.matchScore * (5 / 10)))

/-- The loop body of the aggregation on one appearance. -/
def accStep (scores : ScoreMap) (c : ImageMatch × ℚ) : ScoreMap := accumulate scores c.1 c.2

/-- The amounts the appearances `cs` add for the catalog id `k`. -/
def amountsFor (k : ℤ) (cs : List (ImageMatch × ℚ)) : List ℚ :=
  (cs.filter fun c => c.1.id == k).map Prod.snd

/-- The invariant of the aggregation loop after the appearances `cs`. -/
def AggInv (cs : List (ImageMatch × ℚ)) (scores : ScoreMap) : Prop :=
  (scores.map Prod.fst).Nodup ∧
  (∀ kv ∈ scores, kv.2.movie.id = kv.1 ∧ kv.2.totalScore = (amountsFor kv.1 cs).sum ∧
    kv.2.count = (amountsFor kv.1 cs).length ∧ 0 < kv.2.count) ∧
  (∀ c ∈ cs, c.1.id ∈ scores.map Prod.fst)

/-! ## Further example inputs -/

/-- A catalog whose genre discovery always fails while keyword search and the
top-rated listing answer; the world state is the log of the waits. -/
def genreDownEnv : SearchEnv (List ℕ) :=
  { toLowerCase := asciiLowerCase,
    listTerms := fun _ => ["dark".toList, "city".toList],
    currentYear := 2024,
    get := fun request s =>
      if request.with_genres ≠ none then (.error "genre discovery unavailable", s)
      else (.ok [posterEntry 42, posterEntry 7], s),
    sleep := fun ms s => s ++ [ms] }

/-- A catalog whose keyword search always fails while discovery answers. -/
def searchDownEnv : SearchEnv (List ℕ) :=
  { toLowerCase := asciiLowerCase,
    listTerms := fun _ => ["dark".toList, "city".toList],
    currentYear := 2024,
    get := fun request s =>
      if request.query ≠ none then (.error "search unavailable", s)
      else (.ok [posterEntry 42, posterEntry 7], s),
    sleep := fun ms s => s ++ [ms] }

/-- Five catalog entries with the ids 1 to 5. -/
def fiveEntries : List CatalogMovie :=
  [posterEntry 1, posterEntry 2, posterEntry 3, posterEntry 4, posterEntry 5]

/-- A catalog that answers every request with the same five entries. -/
def sameFiveEnv : SearchEnv Unit :=
  { toLowerCase := asciiLowerCase,
    listTerms := fun _ => ["dark".toList, "city".toList],
    currentYear := 2024,
    get := fun _ s => (.ok fiveEntries, s),
    sleep := fun _ s => s }

def fewEnv : SearchEnv Unit :=
  { toLowerCase := asciiLowerCase,
    listTerms := fun _ => ["dark".toList, "city".toList],
    currentYear := 2024,
    get := fun _ s => (.ok [posterEntry 1], s),
    sleep := fun _ s => s }

/-- A catalog answering every request with two entries of id 1: the first
without an overview, the second with one. -/
def sparseFirstEnv : SearchEnv Unit :=
  { toLowerCase := asciiLowerCase,
    listTerms := fun _ => ["dark".toList, "city".toList],
    currentYear := 2024,
    get := fun _ s =>
      (.ok [{ posterEntry 1 with title := some "First".toList, overview := none },
            { posterEntry 1 with title := some "Second".toList }], s),
    sleep := fun _ s => s }

/-- A frame entry with the given catalog id and score. -/
def frameEntry (id : ℤ) (score : ℚ) : ImageMatch :=
  { id := id, title := none, poster := none, backdrop := none, overview := none,
    rating := none, releaseDate := none, type := "movie", matchScore := score,
    hashSimilarity := score, colorSimilarity := score }

/-- A frame result with twelve entries: id 0 identified with score 90, ids 1
to 11 as alternatives with score 40. -/
def crowdedFrame : MatchResult :=
  { identified := true, confidence := Confidence.high,
    identifiedMovie := some (frameEntry 0 90),
    alternativeResults := (List.range 11).map fun i => frameEntry ((i : ℤ) + 1) 40,
    matchingMethod := "computer_vision", error := none }

/-- Pure red. -/
def redColor : ColorHistogram := { rgb := ⟨255, 0, 0⟩, hsv := ⟨0, 100, 100⟩ }

/-- Pure green. -/
def greenColor : ColorHistogram := { rgb := ⟨0, 255, 0⟩, hsv := ⟨120, 100, 100⟩ }

/-! ## Sub-scores of the similarity scorer -/

/-- The rating-closeness sub-score (`toneScore`) of
`calculateComprehensiveSimilarityScore`. -/
def toneScoreOf (primaryRating compareRating : Option ℚ) : ℚ :=
  let ratingDiff := |ratingOr6 primaryRating - ratingOr6 compareRating| / 10
  1 - ratingDiff

/-- The keys of `v1` that `v2` has too, in the order of `v1`. -/
def sharedKeys (v1 v2 : VibeVector) : List String :=
  (v1.map Prod.fst).filter fun k => (v2.lookup k).isSome

/-- The value `v[k]` of a key that is present. -/
def vibeValue (v : VibeVector) (k : String) : ℚ := (v.lookup k).getD 0

/-! ## Observing `retryRequest` -/

/-- What `retryRequest` does that can be observed: a call of `fn` or a timer
wait of the given number of milliseconds. -/
inductive RetryEvent where
  | call
  | wait (ms : ℕ)
  deriving DecidableEq, Repr

/-- The function `fn`, recording each of its calls. -/
def tracedFn {σ α : Type} (fn : σ → Except String α × σ) (s : List RetryEvent × σ) :
    Except String α × (List RetryEvent × σ) :=
  ((fn s.2).1, (s.1 ++ [RetryEvent.call], (fn s.2).2))

/-- The timer, recording each wait. -/
def tracedSleep {σ : Type} (sleep : ℕ → σ → σ) (ms : ℕ) (s : List RetryEvent × σ) :
    List RetryEvent × σ :=
  (s.1 ++ [RetryEvent.wait ms], sleep ms s.2)

/-! ## The trending score as specified -/

/-- The trending score and status as the specification words them, from the
day difference, the popularity, the vote count and the source pool. -/
def trendingFormula (daysDiff popularity voteCount : ℚ) (source : Option String) :
    ℚ × Status :=
  let bonus : ℚ := if voteCount > 1000 then 50 else 0
  if daysDiff > 0 then (1000 + popularity / 10 + bonus, Status.upcoming)
  else if daysDiff > -90 then
    (500 + popularity / 5 + 100 / (|daysDiff| + 1) + bonus, Status.fresh)
  else if source = some "trending" then (100 + popularity / 20 + bonus, Status.viral_old)
  else (0 + bonus, Status.dead)

/-- The language test of the "Indian content only" filter. -/
def isIndianLanguage (movie : TrendingMovie) : Bool :=
  match movie.original_language with
  | some l => decide (l ≠ "") && decide (l ∈ INDIAN_LANGUAGES)
  | none => false

/-! ## Failure paths of `matchImageToMovie` -/

/-- The object `matchImageToMovie` returns from its `catch` block. -/
def failureResult (message : String) : MatchResult :=
  { identified := false, confidence := Confidence.low, identifiedMovie := none,
    alternativeResults := [], matchingMethod := "computer_vision", error := some message }

/-- The environment `env` in which the download of the poster `posterPath` of
the catalog id `id` fails. -/
def failDownload (env : ImageEnv) (posterPath : String) (id : ℤ) : ImageEnv :=
  { env with
    downloadPoster := fun p i =>
      if p = posterPath ∧ i = id then none else env.downloadPoster p i }

/-! ## More example inputs -/

/-- A second record, sharing the genre of Alpha. -/
def beta : MovieRecord :=
  { genres := [.obj 28 "Action", .obj 18 "Drama"], keywords := [.str "Heist"],
    cast := [{ id := 7 }], rating := some 6 }

/-- An image library that fails to hash the poster bytes `[9]` and reports
the same dominant colour for every image. -/
def hashFailLib : ImageLib :=
  { stats := fun _ => some { r := 200, g := 30, b := 30 },
    resizeGray := fun buffer =>
      if buffer = [9] then none else some (List.replicate 32 0 ++ List.replicate 32 255) }

/-- A catalog whose only entry, id 42, has a poster that cannot be hashed. -/
def hashFailEnv : ImageEnv :=
  { lib := hashFailLib,
    discover := fun _ => .ok [posterEntry 42],
    downloadPoster := fun _ _ => some [9] }

/-! ## Lemmas: the similarity scorer -/

theorem foldl_setAdd_ne_nil {α : Type} [DecidableEq α] (xs acc : List α) (h : acc ≠ []) :
    xs.foldl setAdd acc ≠ [] := by
  induction xs generalizing acc with
  | nil => simpa using h
  | cons x t ih =>
    simp only [List.foldl_cons]
    apply ih
    unfold setAdd
    split
    · exact h
    · simp

theorem newSet_eq_nil_iff {α : Type} [DecidableEq α] (xs : List α) :
    newSet xs = [] ↔ xs = [] := by
  cases xs with
  | nil => simp [newSet]
  | cons x t =>
    simp only [newSet, List.foldl_cons, reduceCtorEq, iff_false]
    apply foldl_setAdd_ne_nil
    simp [setAdd]

theorem newSet_length_eq_zero_iff {α : Type} [DecidableEq α] (xs : List α) :
    (newSet xs).length = 0 ↔ xs = [] := by
  rw [List.length_eq_zero, newSet_eq_nil_iff]

/-- The overlap ratio of a set with itself. -/
theorem self_overlap {α : Type} (s : List α) [DecidablePred fun g => g ∈ s] :
    (((s.filter fun g => decide (g ∈ s)).length : ℚ) / ((orOne (max s.length s.length) : ℕ) : ℚ))
      = if s.length = 0 then 0 else 1 := by
  have hf : (s.filter fun g => decide (g ∈ s)) = s := by
    rw [List.filter_eq_self]; intro a ha; simpa using ha
  rw [hf, max_self]
  by_cases h : s.length = 0
  · simp [orOne, h]
  · simp only [orOne, h, if_false]
    have : (s.length : ℚ) ≠ 0 := by exact_mod_cast h
    field_simp

theorem lookup_of_mem_nodup (v : VibeVector) (hnd : (v.map Prod.fst).Nodup) (kv : String × ℚ)
    (h : kv ∈ v) : v.lookup kv.1 = some kv.2 := by
  induction v with
  | nil => simp at h
  | cons a t ih =>
    obtain ⟨k, x⟩ := a
    simp only [List.map_cons, List.nodup_cons] at hnd
    rcases List.mem_cons.mp h with rfl | hm
    · simp [List.lookup]
    · have hne : kv.1 ≠ k := by
        intro he; apply hnd.1; rw [← he]; exact List.mem_map_of_mem _ hm
      have : (kv.1 == k) = false := by simpa using hne
      simp [List.lookup, this, ih hnd.2 hm]

theorem vibeLoop_foldl_self (v l : VibeVector) (hnd : (v.map Prod.fst).Nodup)
    (hl : ∀ kv ∈ l, kv ∈ v) (acc : ℚ × ℕ) :
    l.foldl (vibeStep v) acc = (acc.1, acc.2 + l.length) := by
  induction l generalizing acc with
  | nil => simp
  | cons a t ih =>
    simp only [List.foldl_cons]
    rw [ih (fun kv h => hl kv (List.mem_cons_of_mem _ h))]
    simp only [vibeStep, lookup_of_mem_nodup v hnd a (hl a (List.mem_cons_self _ _)),
      sub_self, abs_zero, add_zero, List.length_cons]
    congr 1; omega

theorem vibeLoop_self (v : VibeVector) (hnd : (v.map Prod.fst).Nodup) :
    vibeLoop v v = (0, v.length) := by
  unfold vibeLoop
  rw [vibeLoop_foldl_self v v hnd (fun _ h => h)]
  simp

theorem extractVibes_keys {toLowerCase : JsString → JsString} (m : MovieRecord) :
    (extractVibes toLowerCase m).map Prod.fst = VIBE_KEYWORDS.map Prod.fst := by
  simp [extractVibes, List.map_map, Function.comp_def]

theorem VIBE_KEYWORDS_nodup : (VIBE_KEYWORDS.map Prod.fst).Nodup := by
  decide

theorem extractVibes_length {toLowerCase : JsString → JsString}
    (m : MovieRecord) : (extractVibes toLowerCase m).length = 14 := by
  simp [extractVibes, VIBE_KEYWORDS]

theorem vibeSimilarity_self {toLowerCase : JsString → JsString} (m : MovieRecord) :
    calculateVibeSimilarity (extractVibes toLowerCase m) (extractVibes toLowerCase m) = 1 := by
  unfold calculateVibeSimilarity
  rw [vibeLoop_self _ (by rw [extractVibes_keys]; exact VIBE_KEYWORDS_nodup)]
  simp [extractVibes_length]

theorem self_score_formula {toLowerCase : JsString → JsString} (A : MovieRecord) :
    calculateComprehensiveSimilarityScore toLowerCase A A (extractVibes toLowerCase A)
        (extractVibes toLowerCase A)
      = 35 / 100 + (if A.genres = [] then 0 else 25 / 100)
        + (if A.keywords = [] then 0 else 25 / 100)
        + (if A.cast = [] then 0 else 15 / 100) := by
  unfold calculateComprehensiveSimilarityScore
  simp only [self_overlap, vibeSimilarity_self, sub_self, abs_zero, zero_div, sub_zero,
    newSet_length_eq_zero_iff, List.map_eq_nil_iff]
  split_ifs <;> norm_num

theorem le_orOne (n : ℕ) : n ≤ orOne n ∧ 0 < orOne n := by
  unfold orOne; split <;> omega

theorem overlap_bounds {α : Type} (p c : List α) (f : α → Bool) :
    0 ≤ (((p.filter f).length : ℚ) / ((orOne (max p.length c.length) : ℕ) : ℚ)) ∧
    (((p.filter f).length : ℚ) / ((orOne (max p.length c.length) : ℕ) : ℚ)) ≤ 1 := by
  have h1 := le_orOne (max p.length c.length)
  have h2 : (p.filter f).length ≤ p.length := List.length_filter_le _ _
  have h3 : (p.filter f).length ≤ orOne (max p.length c.length) :=
    le_trans h2 (le_trans (le_max_left _ _) h1.1)
  have hpos : (0 : ℚ) < ((orOne (max p.length c.length) : ℕ) : ℚ) := by exact_mod_cast h1.2
  constructor
  · positivity
  · rw [div_le_one hpos]; exact_mod_cast h3

theorem ratingOr6_bounds (r : Option ℚ) (h : ∀ x, r = some x → 0 ≤ x ∧ x ≤ 10) :
    0 ≤ ratingOr6 r ∧ ratingOr6 r ≤ 10 := by
  cases r with
  | none => simp only [ratingOr6]; norm_num
  | some x =>
    have := h x rfl
    simp only [ratingOr6]
    split
    · norm_num
    · exact this

theorem phrase_count_bounds (p : String → Bool) (l : List String) (acc : ℚ) :
    acc ≤ l.foldl (fun (score : ℚ) phrase => if p phrase then score + 1 else score) acc ∧
    l.foldl (fun (score : ℚ) phrase => if p phrase then score + 1 else score) acc
      ≤ acc + l.length := by
  induction l generalizing acc with
  | nil => simp
  | cons a t ih =>
    simp only [List.foldl_cons, List.length_cons, Nat.cast_add, Nat.cast_one]
    by_cases h : p a
    · simp only [h, if_true]
      have := ih (acc + 1)
      constructor <;> linarith [this.1, this.2]
    · simp only [h]
      have := ih acc
      constructor
      · exact this.1
      · simp only [Bool.false_eq_true, if_false]; linarith [this.2]

theorem VIBE_KEYWORDS_five : ∀ e ∈ VIBE_KEYWORDS, e.2.length = 5 := by
  decide

theorem extractVibes_values {toLowerCase : JsString → JsString} (m : MovieRecord) :
    ∀ kv ∈ extractVibes toLowerCase m, 0 ≤ kv.2 ∧ kv.2 ≤ 5 := by
  intro kv hkv
  simp only [extractVibes, List.mem_map] at hkv
  obtain ⟨e, he, rfl⟩ := hkv
  have hb := phrase_count_bounds
    (fun phrase =>
      (m.keywords.map (Keyword.lower toLowerCase)).any
          (fun k => includes k (toLowerCase phrase.toList)) ||
        (m.genres.map (Genre.lowerName toLowerCase)).any
          (fun g => includes g (toLowerCase phrase.toList)))
    e.2 0
  have h5 := VIBE_KEYWORDS_five e he
  rw [h5] at hb
  constructor
  · exact hb.1
  · have h := hb.2
    have e5 : (0 : ℚ) + ((5 : ℕ) : ℚ) = 5 := by norm_num
    rw [e5] at h
    exact h

theorem lookup_mem (v : VibeVector) (k : String) (x : ℚ) (h : v.lookup k = some x) :
    (k, x) ∈ v := by
  induction v with
  | nil => simp at h
  | cons a t ih =>
    obtain ⟨k2, y⟩ := a
    simp only [List.lookup] at h
    split at h
    · rename_i heq
      have : k = k2 := by simpa using heq
      simp at h
      subst this; subst h; simp
    · exact List.mem_cons_of_mem _ (ih h)

theorem vibeLoop_bounds (v2 l : VibeVector)
    (h1 : ∀ kv ∈ l, 0 ≤ kv.2 ∧ kv.2 ≤ 5) (h2 : ∀ kv ∈ v2, 0 ≤ kv.2 ∧ kv.2 ≤ 5)
    (acc : ℚ × ℕ) (hacc : 0 ≤ acc.1 ∧ acc.1 ≤ 5 * (acc.2 : ℚ)) :
    0 ≤ (l.foldl (vibeStep v2) acc).1 ∧
    (l.foldl (vibeStep v2) acc).1 ≤ 5 * ((l.foldl (vibeStep v2) acc).2 : ℚ) := by
  induction l generalizing acc with
  | nil => simpa using hacc
  | cons a t ih =>
    simp only [List.foldl_cons]
    apply ih (fun kv h => h1 kv (List.mem_cons_of_mem _ h))
    unfold vibeStep
    cases hl : v2.lookup a.1 with
    | none => simpa using hacc
    | some x =>
      have hx := h2 _ (lookup_mem v2 a.1 x hl)
      have ha := h1 a (List.mem_cons_self _ _)
      simp only at hx ⊢
      have habs : |a.2 - x| ≤ 5 := by
        rw [abs_le]; constructor <;> linarith [hx.1, hx.2, ha.1, ha.2]
      have hnn : 0 ≤ |a.2 - x| := abs_nonneg _
      push_cast
      constructor <;> linarith [hacc.1, hacc.2]

theorem vibeSimilarity_bounds (v1 v2 : VibeVector)
    (h1 : ∀ kv ∈ v1, 0 ≤ kv.2 ∧ kv.2 ≤ 5) (h2 : ∀ kv ∈ v2, 0 ≤ kv.2 ∧ kv.2 ≤ 5) :
    0 ≤ calculateVibeSimilarity v1 v2 ∧ calculateVibeSimilarity v1 v2 ≤ 1 := by
  have hb := vibeLoop_bounds v2 v1 h1 h2 (0, 0) (by simp)
  unfold calculateVibeSimilarity
  simp only
  split
  · rename_i hpos
    have hc : (0 : ℚ) < ((vibeLoop v1 v2).2 : ℚ) * 5 := by
      have : (0 : ℚ) < ((vibeLoop v1 v2).2 : ℚ) := by exact_mod_cast hpos
      linarith
    have hq1 : 0 ≤ (vibeLoop v1 v2).1 / (((vibeLoop v1 v2).2 : ℚ) * 5) :=
      div_nonneg hb.1 hc.le
    have hq2 : (vibeLoop v1 v2).1 / (((vibeLoop v1 v2).2 : ℚ) * 5) ≤ 1 := by
      rw [div_le_one hc]; unfold vibeLoop; linarith [hb.2]
    constructor <;> linarith
  · norm_num

theorem score_bounds {toLowerCase : JsString → JsString}
    (A B : MovieRecord) (v1 v2 : VibeVector)
    (hA : ∀ r, A.rating = some r → 0 ≤ r ∧ r ≤ 10)
    (hB : ∀ r, B.rating = some r → 0 ≤ r ∧ r ≤ 10)
    (h1 : ∀ kv ∈ v1, 0 ≤ kv.2 ∧ kv.2 ≤ 5) (h2 : ∀ kv ∈ v2, 0 ≤ kv.2 ∧ kv.2 ≤ 5) :
    0 ≤ calculateComprehensiveSimilarityScore toLowerCase A B v1 v2 ∧
      calculateComprehensiveSimilarityScore toLowerCase A B v1 v2 ≤ 1 := by
  unfold calculateComprehensiveSimilarityScore
  simp only
  have g := overlap_bounds (newSet (A.genres.map Genre.key)) (newSet (B.genres.map Genre.key))
    (fun g => g ∈ newSet (B.genres.map Genre.key))
  have k := overlap_bounds (newSet (A.keywords.map (Keyword.lower toLowerCase)))
    (newSet (B.keywords.map (Keyword.lower toLowerCase)))
    (fun g => g ∈ newSet (B.keywords.map (Keyword.lower toLowerCase)))
  have c := overlap_bounds (newSet (A.cast.map CastMember.id)) (newSet (B.cast.map CastMember.id))
    (fun g => g ∈ newSet (B.cast.map CastMember.id))
  have ra := ratingOr6_bounds A.rating hA
  have rb := ratingOr6_bounds B.rating hB
  have v := vibeSimilarity_bounds v1 v2 h1 h2
  have habs : |ratingOr6 A.rating - ratingOr6 B.rating| ≤ 10 := by
    rw [abs_le]; constructor <;> linarith [ra.1, ra.2, rb.1, rb.2]
  have hnn : 0 ≤ |ratingOr6 A.rating - ratingOr6 B.rating| := abs_nonneg _
  constructor <;> linarith [g.1, g.2, k.1, k.2, c.1, c.2, v.1, v.2]

/-! ## Lemmas: the trending ranker -/

theorem scoreMovie_upcoming_vs_fresh (today : ℤ) (u f : TrendingMovie) (p : ℚ)
    (hu : daysDiffOf today u = 10) (hf : daysDiffOf today f = -10)
    (hpu : u.popularity = p) (hpf : f.popularity = p) :
    (scoreMovie today f).score < (scoreMovie today u).score ↔
      p / 10 + (if f.vote_count > 1000 then 50 else 0)
        < 500 - 100 / 11 + (if u.vote_count > 1000 then 50 else 0) := by
  simp only [scoreMovie, hu, hf, hpu, hpf]
  norm_num
  split_ifs <;> constructor <;> intro h <;> linarith

/-! ## Lemmas: sorting and slicing -/

theorem sortDesc_pairwise {α : Type} (key : α → ℚ) (xs : List α) :
    (sortDesc key xs).Pairwise fun a b => key b ≤ key a := by
  haveI : IsTotal α (fun a b => key b ≤ key a) := ⟨fun a b => le_total (key b) (key a)⟩
  haveI : IsTrans α (fun a b => key b ≤ key a) := ⟨fun a b c h1 h2 => le_trans h2 h1⟩
  exact List.sorted_insertionSort (fun a b => key b ≤ key a) xs

theorem slice0_sublist {α : Type} (xs : List α) (n : ℤ) : (slice0 xs n).Sublist xs := by
  unfold slice0; split <;> exact List.take_sublist _ _

theorem sortDesc_head {α : Type} (key : α → ℚ) (M : ℚ) (pre post : List α) (x : α)
    (hx : key x = M) (hall : ∀ y ∈ pre ++ x :: post, key y ≤ M)
    (hpre : ∀ y ∈ pre, key y ≠ M) :
    ∃ rest, sortDesc key (pre ++ x :: post) = x :: rest := by
  induction pre with
  | nil =>
    simp only [List.nil_append, sortDesc, List.insertionSort]
    cases hs : List.insertionSort (fun a b => key b ≤ key a) post with
    | nil => exact ⟨[], by simp⟩
    | cons b l =>
      have hb : b ∈ post := by
        have : b ∈ List.insertionSort (fun a b => key b ≤ key a) post := by rw [hs]; simp
        exact (List.mem_insertionSort _).mp this
      have hle : key b ≤ key x := by
        rw [hx]; exact hall b (by simp [hb])
      exact ⟨b :: l, by simp [List.orderedInsert, hle]⟩
  | cons a pre ih =>
    obtain ⟨rest, hrest⟩ := ih (fun y hy => hall y (by simp at hy ⊢; tauto))
      (fun y hy => hpre y (List.mem_cons_of_mem _ hy))
    have ha : key a < key x := by
      rw [hx]
      exact lt_of_le_of_ne (hall a (by simp)) (hpre a (List.mem_cons_self _ _))
    refine ⟨List.orderedInsert (fun a b => key b ≤ key a) a rest, ?_⟩
    simp only [sortDesc] at hrest
    show List.orderedInsert (fun a b => key b ≤ key a) a
        (List.insertionSort (fun a b => key b ≤ key a) (pre ++ x :: post)) = _
    rw [hrest]
    simp only [List.orderedInsert, not_le.mpr ha, if_false]

theorem slice0_cons {α : Type} (x : α) (rest : List α) (n : ℤ) (hn : 1 ≤ n) :
    ∃ rest2, slice0 (x :: rest) n = x :: rest2 := by
  unfold slice0
  rw [if_neg (by omega)]
  obtain ⟨k, hk⟩ : ∃ k, n.toNat = k + 1 := ⟨n.toNat - 1, by omega⟩
  rw [hk]
  exact ⟨rest.take k, rfl⟩

/-! ## Lemmas: the image match engine -/

theorem countP_zip_self (h : JsString) : ((h.zip h).countP fun p => p.1 != p.2) = 0 := by
  induction h with
  | nil => rfl
  | cons a t ih => simp [List.countP_cons, ih]

theorem countP_zip_flip (h : JsString) :
    ((h.zip (flipBits h)).countP fun p => p.1 != p.2) = h.length := by
  induction h with
  | nil => rfl
  | cons a t ih =>
    have ih2 : List.countP (fun p => p.1 != p.2) (t.zip (List.map (fun c => if c = '0' then '1' else '0') t)) = t.length := ih
    by_cases ha : a = '0'
    · subst ha
      simp [flipBits, List.countP_cons, ih2]
    · simp [flipBits, List.countP_cons, ih2, ha]

theorem hamming_self (h : JsString) (hne : h ≠ []) :
    hammingDistance (some h) (some h) = 0 := by
  simp [hammingDistance, hne, countP_zip_self]

theorem hamming_flip (h : JsString) (hne : h ≠ []) :
    hammingDistance (some h) (some (flipBits h)) = h.length := by
  have hf : flipBits h ≠ [] := by simpa [flipBits] using hne
  have hl : h.length = (flipBits h).length := by simp [flipBits]
  simp only [hammingDistance, hne, hf, false_or]
  rw [if_neg (by simpa using hl), countP_zip_flip]

theorem jsRem_small (x : ℚ) (h1 : -1 ≤ x) (h2 : x ≤ 1) : jsRem x 6 = x := by
  unfold jsRem
  by_cases h : 0 ≤ x / 6
  · rw [if_pos h]
    have : ⌊x / 6⌋ = 0 := by
      rw [Int.floor_eq_zero_iff]; constructor
      · exact h
      · rw [div_lt_one (by norm_num)]; linarith
    rw [this]; simp
  · rw [if_neg h]
    have : ⌈x / 6⌉ = 0 := by
      rw [Int.ceil_eq_zero_iff]; constructor
      · rw [lt_div_iff₀ (by norm_num)]; linarith
      · exact le_of_lt (not_le.mp h)
    rw [this]; simp

theorem rgbToHsv_hue (r g b : ℕ) : 0 ≤ (rgbToHsv r g b).h ∧ (rgbToHsv r g b).h < 360 := by
  unfold rgbToHsv
  simp only
  set R : ℚ := (r : ℚ) / 255 with hR
  set G : ℚ := (g : ℚ) / 255 with hG
  set B : ℚ := (b : ℚ) / 255 with hB
  set mx := max (max R G) B with hmx
  set mn := min (min R G) B with hmn
  have hxR : R ≤ mx := le_trans (le_max_left R G) (le_max_left _ B)
  have hxG : G ≤ mx := le_trans (le_max_right R G) (le_max_left _ B)
  have hxB : B ≤ mx := le_max_right _ B
  have hnR : mn ≤ R := le_trans (min_le_left _ B) (min_le_left R G)
  have hnG : mn ≤ G := le_trans (min_le_left _ B) (min_le_right R G)
  have hnB : mn ≤ B := min_le_right _ B
  by_cases hd : mx - mn ≠ 0
  · have hpos : 0 < mx - mn := lt_of_le_of_ne (by linarith) (Ne.symm hd)
    rw [if_pos hd]
    by_cases c1 : mx = R
    · rw [if_pos c1]
      have hx1 : -1 ≤ (G - B) / (mx - mn) := by
        rw [le_div_iff₀ hpos]; linarith
      have hx2 : (G - B) / (mx - mn) ≤ 1 := by
        rw [div_le_one hpos]; linarith
      rw [jsRem_small _ hx1 hx2]
      split <;> constructor <;> linarith
    · rw [if_neg c1]
      by_cases c2 : mx = G
      · rw [if_pos c2]
        have hx1 : -1 ≤ (B - R) / (mx - mn) := by
          rw [le_div_iff₀ hpos]; linarith
        have hx2 : (B - R) / (mx - mn) ≤ 1 := by
          rw [div_le_one hpos]; linarith
        split <;> constructor <;> linarith
      · rw [if_neg c2]
        have hx1 : -1 ≤ (R - G) / (mx - mn) := by
          rw [le_div_iff₀ hpos]; linarith
        have hx2 : (R - G) / (mx - mn) ≤ 1 := by
          rw [div_le_one hpos]; linarith
        split <;> constructor <;> linarith
  · rw [if_neg hd]; norm_num

theorem colorSimilarity_le (lib : ImageLib) (b1 b2 : Buffer) :
    calculateColorSimilarity (extractColorHistogram lib b1) (extractColorHistogram lib b2)
      ≤ 100 := by
  unfold extractColorHistogram
  cases lib.stats b1 with
  | none => simp [calculateColorSimilarity]
  | some d1 =>
    cases lib.stats b2 with
    | none => simp [calculateColorSimilarity]
    | some d2 =>
      simp only [calculateColorSimilarity]
      have h1 := rgbToHsv_hue d1.r d1.g d1.b
      have h2 := rgbToHsv_hue d2.r d2.g d2.b
      have hh : |(rgbToHsv d1.r d1.g d1.b).h - (rgbToHsv d2.r d2.g d2.b).h| ≤ 360 := by
        rw [abs_le]; constructor <;> linarith [h1.1, h1.2, h2.1, h2.2]
      have hh0 := abs_nonneg ((rgbToHsv d1.r d1.g d1.b).h - (rgbToHsv d2.r d2.g d2.b).h)
      have hs0 := abs_nonneg ((rgbToHsv d1.r d1.g d1.b).s - (rgbToHsv d2.r d2.g d2.b).s)
      have hv0 := abs_nonneg ((rgbToHsv d1.r d1.g d1.b).v - (rgbToHsv d2.r d2.g d2.b).v)
      have hmin : 0 ≤ min (|(rgbToHsv d1.r d1.g d1.b).h - (rgbToHsv d2.r d2.g d2.b).h|)
          (360 - |(rgbToHsv d1.r d1.g d1.b).h - (rgbToHsv d2.r d2.g d2.b).h|) :=
        le_min hh0 (by linarith)
      linarith

theorem colorSimilarity_self (c : ColorHistogram) :
    calculateColorSimilarity (some c) (some c) = 100 := by
  simp [calculateColorSimilarity]
  norm_num

theorem hashSimilarityOf_le (d : ℚ) (hd : 0 ≤ d) : hashSimilarityOf d ≤ 100 := by
  unfold hashSimilarityOf
  apply max_le <;> linarith

theorem hammingDistance_nonneg (h1 h2 : Option JsString) : 0 ≤ hammingDistance h1 h2 := by
  unfold hammingDistance
  split
  · split
    · norm_num
    · positivity
  · norm_num

theorem processCandidate_score_le (env : ImageEnv) (buf : Buffer) (type : String)
    (m : CatalogMovie) (e : ImageMatch)
    (h : processCandidate env (extractImageFeatures env.lib buf) type m = some e) :
    e.matchScore ≤ 100 := by
  unfold processCandidate at h
  split at h
  · cases h
  · split at h
    · cases h
    · split at h
      · cases h
      · simp only at h
        split at h
        · injection h with h
          rw [← h]
          simp only [extractImageFeatures]
          have a := hashSimilarityOf_le _ (hammingDistance_nonneg
            (generatePerceptualHash env.lib buf) (generatePerceptualHash env.lib ‹Buffer›))
          have b := colorSimilarity_le env.lib buf ‹Buffer›
          linarith
        · cases h

theorem processCandidate_identical (env : ImageEnv) (buf : Buffer) (type : String)
    (m : CatalogMovie) (p : String) (pb : Buffer) (col : ColorHistogram) (h : JsString)
    (hq : extractImageFeatures env.lib buf = ⟨some col, some h⟩) (hne : h ≠ [])
    (hpath : m.poster_path = some p) (hp : p ≠ "")
    (hdl : env.downloadPoster p m.id = some pb)
    (hposter : extractImageFeatures env.lib pb = ⟨some col, some h⟩) :
    ∃ e, processCandidate env (extractImageFeatures env.lib buf) type m = some e ∧
      e.id = m.id ∧ e.matchScore = 100 := by
  unfold processCandidate
  simp only [hpath, hp, if_false, hdl, hposter, hq, hamming_self h hne, colorSimilarity_self]
  have h100 : hashSimilarityOf 0 * (7 / 10) + (100 : ℚ) * (3 / 10) = 100 := by
    norm_num [hashSimilarityOf]
  rw [h100]
  refine ⟨_, if_pos (by norm_num), rfl, rfl⟩

/-- Head of the ranked list when a candidate with an identical poster is the
first one of the pool to score 100. -/
theorem identical_poster_first (env : ImageEnv) (buf : Buffer) (o : MatchOptions)
    (pre post : List CatalogMovie) (m : CatalogMovie) (p : String) (pb : Buffer)
    (col : ColorHistogram) (h : JsString)
    (hq : extractImageFeatures env.lib buf = ⟨some col, some h⟩) (hne : h ≠ [])
    (hdisc : env.discover (discoverEndpoint (o.type.getD "movie")) = .ok (pre ++ m :: post))
    (hlen : pre.length < 15)
    (hpath : m.poster_path = some p) (hp : p ≠ "")
    (hdl : env.downloadPoster p m.id = some pb)
    (hposter : extractImageFeatures env.lib pb = ⟨some col, some h⟩)
    (hfirst : ∀ x ∈ pre, ∀ e,
      processCandidate env (extractImageFeatures env.lib buf) (o.type.getD "movie") x = some e →
        e.matchScore ≠ 100)
    (hlimit : ∀ L, o.limit = some L → 1 ≤ L) :
    ∃ e rest, topMatches env buf o = .ok (e :: rest) ∧ e.id = m.id ∧ e.matchScore = 100 ∧
      processCandidate env (extractImageFeatures env.lib buf) (o.type.getD "movie") m
        = some e := by
  obtain ⟨e, he, hid, hscore⟩ := processCandidate_identical env buf (o.type.getD "movie") m p pb
    col h hq hne hpath hp hdl hposter
  have htake : (pre ++ m :: post).take 15 = pre ++ m :: post.take (15 - pre.length - 1) := by
    rw [List.take_append_eq_append_take]
    rw [List.take_of_length_le (by omega)]
    obtain ⟨k, hk⟩ : ∃ k, 15 - pre.length = k + 1 := ⟨15 - pre.length - 1, by omega⟩
    rw [hk]; simp
  have hfm : ((pre ++ m :: post).take 15).filterMap
      (processCandidate env (extractImageFeatures env.lib buf) (o.type.getD "movie"))
      = pre.filterMap (processCandidate env (extractImageFeatures env.lib buf) (o.type.getD "movie"))
        ++ e :: (post.take (15 - pre.length - 1)).filterMap
          (processCandidate env (extractImageFeatures env.lib buf) (o.type.getD "movie")) := by
    rw [htake, List.filterMap_append, List.filterMap_cons, he]
  obtain ⟨rest, hrest⟩ := sortDesc_head ImageMatch.matchScore 100
    (pre.filterMap (processCandidate env (extractImageFeatures env.lib buf) (o.type.getD "movie")))
    ((post.take (15 - pre.length - 1)).filterMap
          (processCandidate env (extractImageFeatures env.lib buf) (o.type.getD "movie")))
    e hscore
    (by
      intro y hy
      rw [← hfm, List.mem_filterMap] at hy
      obtain ⟨x, _, hx⟩ := hy
      exact processCandidate_score_le env buf _ x y hx)
    (by
      intro y hy
      rw [List.mem_filterMap] at hy
      obtain ⟨x, hxm, hx⟩ := hy
      exact hfirst x hxm y hx)
  have hL : 1 ≤ o.limit.getD 20 := by
    cases hl : o.limit with
    | none => simp
    | some L => simpa using hlimit L hl
  obtain ⟨rest2, hrest2⟩ := slice0_cons e rest (o.limit.getD 20) hL
  refine ⟨e, rest2, ?_, hid, hscore, he⟩
  unfold topMatches
  simp only [hq]
  rw [if_neg (by simp [hne])]
  rw [← hq]
  simp only [hdisc, hfm, hrest, hrest2]

theorem identified_of_top (env : ImageEnv) (buf : Buffer) (o : MatchOptions)
    (e : ImageMatch) (rest : List ImageMatch) (h : topMatches env buf o = .ok (e :: rest))
    (hs : e.matchScore = 100) :
    (matchImageToMovie env buf o).identified = true ∧
    (matchImageToMovie env buf o).confidence = Confidence.high ∧
    (matchImageToMovie env buf o).identifiedMovie = some e := by
  unfold matchImageToMovie
  simp only [h, hs]
  norm_num

theorem topMatches_pairwise (env : ImageEnv) (buf : Buffer) (o : MatchOptions)
    (l : List ImageMatch) (h : topMatches env buf o = .ok l) :
    l.Pairwise fun a b => b.matchScore ≤ a.matchScore := by
  unfold topMatches at h
  simp only at h
  split at h
  · cases h
  · split at h
    · cases h
    · injection h with h
      rw [← h]
      exact (sortDesc_pairwise _ _).sublist (slice0_sublist _ _)

theorem result_concat (env : ImageEnv) (buf : Buffer) (o : MatchOptions) :
    (matchImageToMovie env buf o).identifiedMovie.toList
        ++ (matchImageToMovie env buf o).alternativeResults
      = match topMatches env buf o with
        | .ok l => l
        | .error _ => [] := by
  unfold matchImageToMovie
  cases h : topMatches env buf o with
  | error e => simp
  | ok l =>
    cases l with
    | nil => simp
    | cons t r =>
      by_cases h65 : t.matchScore > 65 <;> simp [h65]

theorem hash_foldl_length (f : ℕ → Char) (l : List ℕ) (acc : JsString) :
    (l.foldl (fun hash px => hash ++ [f px]) acc).length = acc.length + l.length := by
  induction l generalizing acc with
  | nil => simp
  | cons a t ih => simp [List.foldl_cons, ih]; omega

theorem perceptualHash_length (lib : ImageLib) (buf : Buffer) (resized : List ℕ)
    (h : lib.resizeGray buf = some resized) :
    ∃ hash, generatePerceptualHash lib buf = some hash ∧ hash.length = resized.length := by
  unfold generatePerceptualHash
  rw [h]
  refine ⟨_, rfl, ?_⟩
  rw [hash_foldl_length]
  simp

theorem demo_features :
    extractImageFeatures demoLib [7] = ⟨some demoColor, some demoHash⟩ := rfl

theorem demoHash_length : demoHash.length = 64 := by
  obtain ⟨hash, h1, h2⟩ := perceptualHash_length demoLib [7]
    (List.replicate 32 7 ++ List.replicate 32 255) rfl
  unfold demoHash
  rw [h1]
  simpa using h2

theorem demoHash_ne : demoHash ≠ [] := by
  intro h
  have := demoHash_length
  rw [h] at this
  simp at this

/-! ## Lemmas: the text vibe engine -/

theorem rankResults_pairwise {toLowerCase : JsString → JsString}
    (keywords : List JsString) (genreIds : List ℤ) (type : String)
    (limit : ℤ) (allResults : List CatalogMovie) :
    (rankResults toLowerCase keywords genreIds type limit allResults).Pairwise
      fun a b => b.matchScore ≤ a.matchScore := by
  unfold rankResults
  exact (sortDesc_pairwise _ _).sublist (slice0_sublist _ _)


/-! ## Lemmas: entries of the image match result -/

theorem slice0_subset {α : Type} (xs : List α) (n : ℤ) (x : α) (h : x ∈ slice0 xs n) : x ∈ xs :=
  (slice0_sublist xs n).subset h

theorem mem_sortDesc {α : Type} (key : α → ℚ) (xs : List α) (x : α) :
    x ∈ sortDesc key xs ↔ x ∈ xs := by
  unfold sortDesc
  exact List.mem_insertionSort _

theorem topMatches_origin (env : ImageEnv) (buf : Buffer) (o : MatchOptions)
    (l : List ImageMatch) (h : topMatches env buf o = .ok l) (e : ImageMatch) (he : e ∈ l) :
    ∃ movies, env.discover (discoverEndpoint (o.type.getD "movie")) = .ok movies ∧
      ∃ movie ∈ movies.take 15,
        processCandidate env (extractImageFeatures env.lib buf) (o.type.getD "movie") movie
          = some e := by
  unfold topMatches at h
  simp only at h
  split at h
  · cases h
  · split at h
    · cases h
    · rename_i movies hd
      injection h with h
      rw [← h] at he
      have he2 := (mem_sortDesc _ _ _).mp (slice0_subset _ _ _ he)
      rw [List.mem_filterMap] at he2
      exact ⟨movies, hd, he2⟩

theorem processCandidate_score (env : ImageEnv) (feats : ImageFeatures) (type : String)
    (m : CatalogMovie) (e : ImageMatch) (h : processCandidate env feats type m = some e) :
    e.id = m.id ∧ e.matchScore = e.hashSimilarity * (7 / 10) + e.colorSimilarity * (3 / 10) ∧
      25 < e.matchScore := by
  unfold processCandidate at h
  split at h
  · cases h
  · split at h
    · cases h
    · split at h
      · cases h
      · simp only at h
        split at h
        · rename_i hgt
          injection h with h
          rw [← h]
          exact ⟨rfl, rfl, hgt⟩
        · cases h

/-! ## Lemmas: substrings and list lengths -/

theorem includes_iff_infix (hay needle : JsString) :
    includes hay needle = true ↔ needle <:+: hay := by
  unfold includes
  simp only [List.any_eq_true, List.mem_tails, List.isPrefixOf_iff_prefix]
  rw [List.infix_iff_prefix_suffix]
  constructor
  · rintro ⟨t, h1, h2⟩; exact ⟨t, h2, h1⟩
  · rintro ⟨t, h1, h2⟩; exact ⟨t, h2, h1⟩

theorem slice0_length {α : Type} (xs : List α) (n : ℤ) (hn : 0 ≤ n) :
    (slice0 xs n).length = min n.toNat xs.length := by
  unfold slice0
  rw [if_neg (by omega), List.length_take]

theorem rankResults_length {toLowerCase : JsString → JsString}
    (keywords : List JsString) (genreIds : List ℤ) (type : String)
    (limit : ℤ) (hl : 0 ≤ limit) (all : List CatalogMovie) :
    (rankResults toLowerCase keywords genreIds type limit all).length
      = min limit.toNat (uniqueLoop all).2.length := by
  unfold rankResults
  simp only
  rw [slice0_length _ _ hl]
  unfold sortDesc
  rw [List.length_insertionSort, List.length_map]

/-! ## Lemmas: the pools of the text vibe engine -/

theorem gatherPools_eq {σ : Type} (env : SearchEnv σ) (type : String) (keywords : List JsString)
    (genreIds : List ℤ) (yearFilters : YearFilters) (s : σ) :
    gatherPools env type keywords genreIds yearFilters s =
      match genrePool env type genreIds yearFilters s with
      | (.error e, s1) => (.error e, s1)
      | (.ok genreResults, s1) =>
        match keywordPool env type keywords s1 with
        | (.error e, s2) => (.error e, s2)
        | (.ok searchResults, s2) =>
          if (genreResults ++ searchResults).length < 10 then
            match fallbackPool env type yearFilters s2 with
            | (.error e, s3) => (.error e, s3)
            | (.ok topRated, s3) => (.ok (genreResults ++ searchResults ++ topRated), s3)
          else (.ok (genreResults ++ searchResults), s2) := by
  rfl

theorem gatherPools_genre_error {σ : Type} (env : SearchEnv σ) (type : String)
    (keywords : List JsString) (genreIds : List ℤ) (yearFilters : YearFilters) (s s1 : σ)
    (e : String) (h : genrePool env type genreIds yearFilters s = (.error e, s1)) :
    gatherPools env type keywords genreIds yearFilters s = (.error e, s1) := by
  rw [gatherPools_eq, h]

theorem gatherPools_keyword_error {σ : Type} (env : SearchEnv σ) (type : String)
    (keywords : List JsString) (genreIds : List ℤ) (yearFilters : YearFilters) (s s1 s2 : σ)
    (r1 : List CatalogMovie) (e : String)
    (h1 : genrePool env type genreIds yearFilters s = (.ok r1, s1))
    (h2 : keywordPool env type keywords s1 = (.error e, s2)) :
    gatherPools env type keywords genreIds yearFilters s = (.error e, s2) := by
  rw [gatherPools_eq, h1]; simp only; rw [h2]

theorem gatherPools_fallback_error {σ : Type} (env : SearchEnv σ) (type : String)
    (keywords : List JsString) (genreIds : List ℤ) (yearFilters : YearFilters) (s s1 s2 s3 : σ)
    (r1 r2 : List CatalogMovie) (e : String)
    (h1 : genrePool env type genreIds yearFilters s = (.ok r1, s1))
    (h2 : keywordPool env type keywords s1 = (.ok r2, s2))
    (hlt : (r1 ++ r2).length < 10)
    (h3 : fallbackPool env type yearFilters s2 = (.error e, s3)) :
    gatherPools env type keywords genreIds yearFilters s = (.error e, s3) := by
  rw [gatherPools_eq, h1]; simp only; rw [h2]; simp only; rw [if_pos hlt, h3]

theorem search_of_gather_error {σ : Type} (env : SearchEnv σ) (description : JsString)
    (options : SearchOptions) (s s1 : σ) (e : String)
    (h : gatherPools env (options.type.getD "movie")
      (extractKeywordsWithTFIDF env.toLowerCase env.listTerms description)
      (mapDescriptionToGenres env.toLowerCase description)
      (extractYearRange env.currentYear description) s = (.error e, s1)) :
    searchByDescription env description options s = (.error e, s1) := by
  unfold searchByDescription
  simp only [h]

theorem search_of_gather_ok {σ : Type} (env : SearchEnv σ) (description : JsString)
    (options : SearchOptions) (s s1 : σ) (all : List CatalogMovie)
    (h : gatherPools env (options.type.getD "movie")
      (extractKeywordsWithTFIDF env.toLowerCase env.listTerms description)
      (mapDescriptionToGenres env.toLowerCase description)
      (extractYearRange env.currentYear description) s = (.ok all, s1)) :
    searchByDescription env description options s =
      (.ok (rankResults env.toLowerCase
        (extractKeywordsWithTFIDF env.toLowerCase env.listTerms description)
        (mapDescriptionToGenres env.toLowerCase description) (options.type.getD "movie")
        (options.limit.getD 20) all), s1) := by
  unfold searchByDescription
  simp only [h]

theorem search_ok_inv {σ : Type} (env : SearchEnv σ) (description : JsString)
    (options : SearchOptions) (s s1 : σ) (l : List SearchResult)
    (h : searchByDescription env description options s = (.ok l, s1)) :
    ∃ all, gatherPools env (options.type.getD "movie")
      (extractKeywordsWithTFIDF env.toLowerCase env.listTerms description)
      (mapDescriptionToGenres env.toLowerCase description)
      (extractYearRange env.currentYear description) s = (.ok all, s1) ∧
      l = rankResults env.toLowerCase
        (extractKeywordsWithTFIDF env.toLowerCase env.listTerms description)
        (mapDescriptionToGenres env.toLowerCase description) (options.type.getD "movie")
        (options.limit.getD 20) all := by
  unfold searchByDescription at h
  simp only at h
  split at h
  · rename_i all s2 hg
    injection h with h1 h2
    injection h1 with h1
    subst h2
    exact ⟨all, hg, h1.symm⟩
  · injection h with h1 h2
    cases h1

/-! ## Lemmas: the request log -/

theorem retryFrom_log {τ α : Type} (sleep : ℕ → τ → τ)
    (fn : τ → Except String α × τ) (request : CatalogRequest) (retries : ℕ)
    (remaining i : ℕ) (st : List CatalogRequest × τ) :
    ∃ k, (retryFrom (fun ms (s : List CatalogRequest × τ) => (s.1, sleep ms s.2))
        (fun s => ((fn s.2).1, (s.1 ++ [request], (fn s.2).2))) retries i remaining st).2.1
        = st.1 ++ List.replicate k request ∧ (0 < remaining → 0 < k) := by
  induction remaining generalizing i st with
  | zero => exact ⟨0, by simp [retryFrom], by simp⟩
  | succ n ih =>
    unfold retryFrom
    cases hfn : (fn st.2).1 with
    | ok a => exact ⟨1, by simp [hfn], by simp⟩
    | error e =>
      simp only [hfn]
      by_cases hi : i = retries - 1
      · exact ⟨1, by simp [hi], by simp⟩
      · rw [if_neg hi]
        obtain ⟨k, hk, _⟩ := ih (i + 1)
          (st.1 ++ [request], sleep (min (1000 * 2 ^ i) 5000) (fn st.2).2)
        refine ⟨k + 1, ?_, by simp⟩
        rw [hk]
        simp [List.replicate_succ]

theorem fetchResults_log {τ : Type} (env : SearchEnv τ) (request : CatalogRequest)
    (st : List CatalogRequest × τ) :
    ∃ k, (fetchResults (loggedEnv env) request st).2.1 = st.1 ++ List.replicate k request ∧
      0 < k := by
  obtain ⟨k, hk, hpos⟩ := retryFrom_log env.sleep (env.get request) request 3 3 0 st
  refine ⟨k, ?_, hpos (by norm_num)⟩
  have hr : retryRequest (loggedEnv env).sleep ((loggedEnv env).get request) 3 st
      = retryFrom (fun ms (s : List CatalogRequest × τ) => (s.1, env.sleep ms s.2))
        (fun s => ((env.get request s.2).1, (s.1 ++ [request], (env.get request s.2).2)))
        3 0 3 st := rfl
  unfold fetchResults
  rw [hr]
  revert hk
  generalize retryFrom (fun ms (s : List CatalogRequest × τ) => (s.1, env.sleep ms s.2))
        (fun s => ((env.get request s.2).1, (s.1 ++ [request], (env.get request s.2).2)))
        3 0 3 st = r
  intro hk
  rcases r with ⟨_ | _ | _, s1⟩ <;> exact hk

theorem genrePool_log {τ : Type} (env : SearchEnv τ) (type : String) (genreIds : List ℤ)
    (yearFilters : YearFilters) (st : List CatalogRequest × τ) :
    ∃ k, (genrePool (loggedEnv env) type genreIds yearFilters st).2.1
      = st.1 ++ List.replicate k (genreRequest type genreIds yearFilters) := by
  unfold genrePool
  split
  · obtain ⟨k, hk, _⟩ := fetchResults_log env (genreRequest type genreIds yearFilters) st
    exact ⟨k, hk⟩
  · exact ⟨0, by simp⟩

theorem keywordPool_log {τ : Type} (env : SearchEnv τ) (type : String)
    (keywords : List JsString) (st : List CatalogRequest × τ) :
    ∃ k, (keywordPool (loggedEnv env) type keywords st).2.1
      = st.1 ++ List.replicate k (keywordRequest type keywords) := by
  unfold keywordPool
  split
  · obtain ⟨k, hk, _⟩ := fetchResults_log env (keywordRequest type keywords)
      ((loggedEnv env).sleep 300 st)
    exact ⟨k, hk⟩
  · exact ⟨0, by simp⟩

theorem fallbackPool_log {τ : Type} (env : SearchEnv τ) (type : String)
    (yearFilters : YearFilters) (st : List CatalogRequest × τ) :
    fallbackRequest type yearFilters ∈ (fallbackPool (loggedEnv env) type yearFilters st).2.1 := by
  unfold fallbackPool
  obtain ⟨k, hk, hpos⟩ := fetchResults_log env (fallbackRequest type yearFilters)
    ((loggedEnv env).sleep 300 st)
  rw [hk]
  obtain ⟨j, rfl⟩ : ∃ j, k = j + 1 := ⟨k - 1, by omega⟩
  simp [List.replicate_succ]

theorem fallback_ne_genre (type : String) (genreIds : List ℤ) (yearFilters : YearFilters) :
    fallbackRequest type yearFilters ≠ genreRequest type genreIds yearFilters := by
  intro h
  have := congrArg CatalogRequest.with_genres h
  simp [fallbackRequest, genreRequest] at this

theorem fallback_ne_keyword (type : String) (keywords : List JsString)
    (yearFilters : YearFilters) :
    fallbackRequest type yearFilters ≠ keywordRequest type keywords := by
  intro h
  have := congrArg CatalogRequest.query h
  simp [fallbackRequest, keywordRequest] at this

theorem gather_fallback_logged_iff {τ : Type} (env : SearchEnv τ) (type : String)
    (keywords : List JsString) (genreIds : List ℤ) (yearFilters : YearFilters) (s : τ)
    (r1 r2 : List CatalogMovie) (st1 st2 : List CatalogRequest × τ)
    (h1 : genrePool (loggedEnv env) type genreIds yearFilters ([], s) = (.ok r1, st1))
    (h2 : keywordPool (loggedEnv env) type keywords st1 = (.ok r2, st2)) :
    fallbackRequest type yearFilters ∈
        (gatherPools (loggedEnv env) type keywords genreIds yearFilters ([], s)).2.1 ↔
      (r1 ++ r2).length < 10 := by
  obtain ⟨k1, hk1⟩ := genrePool_log env type genreIds yearFilters ([], s)
  obtain ⟨k2, hk2⟩ := keywordPool_log env type keywords st1
  rw [h1] at hk1
  rw [h2] at hk2
  simp only [List.nil_append] at hk1
  rw [gatherPools_eq, h1]
  simp only
  rw [h2]
  simp only
  by_cases hlt : (r1 ++ r2).length < 10
  · rw [if_pos hlt]
    have hm := fallbackPool_log env type yearFilters st2
    constructor
    · intro _; exact hlt
    · intro _
      revert hm
      generalize fallbackPool (loggedEnv env) type yearFilters st2 = r
      intro hm
      rcases r with ⟨_ | _, s3⟩ <;> exact hm
  · rw [if_neg hlt]
    constructor
    · intro hmem
      exfalso
      simp only at hmem
      rw [hk2, hk1, List.mem_append] at hmem
      rcases hmem with hmem | hmem
      · exact fallback_ne_genre type genreIds yearFilters (List.eq_of_mem_replicate hmem)
      · exact fallback_ne_keyword type keywords yearFilters (List.eq_of_mem_replicate hmem)
    · intro h; exact absurd h hlt

theorem search_state {σ : Type} (env : SearchEnv σ) (description : JsString)
    (options : SearchOptions) (s : σ) :
    (searchByDescription env description options s).2 =
      (gatherPools env (options.type.getD "movie")
        (extractKeywordsWithTFIDF env.toLowerCase env.listTerms description)
        (mapDescriptionToGenres env.toLowerCase description)
        (extractYearRange env.currentYear description) s).2 := by
  unfold searchByDescription
  simp only
  split <;> rename_i h <;> rw [h]

/-! ## Lemmas: scoring and duplicate removal -/

theorem foldl_add_count {α : Type} (p : α → Bool) (c : ℚ) (l : List α) (acc : ℚ) :
    l.foldl (fun (score : ℚ) x => if p x then score + c else score) acc
      = acc + c * (l.countP p : ℚ) := by
  induction l generalizing acc with
  | nil => simp
  | cons a t ih =>
    simp only [List.foldl_cons, List.countP_cons]
    rw [ih]
    by_cases h : p a
    · simp only [h, if_true]; push_cast; ring
    · simp only [h]; simp

theorem scoreCandidate_matchScore {toLowerCase : JsString → JsString}
    (keywords : List JsString) (genreIds : List ℤ)
    (type : String) (movie : CatalogMovie) :
    (scoreCandidate toLowerCase keywords genreIds type movie).matchScore
      = 2 * ((keywords.countP fun k => includes (movieTextOf toLowerCase movie) k : ℕ) : ℚ)
        + 3 * ((genreIds.countP fun g => (movie.genre_ids.getD []).contains g : ℕ) : ℚ)
        + movie.popularity.getD 0 / 100 + movie.vote_average.getD 0 / 2 := by
  unfold scoreCandidate movieTextOf
  simp only
  cases hg : movie.genre_ids with
  | none =>
    simp only [Option.getD_none]
    rw [foldl_add_count]
    simp
  | some ids =>
    simp only [Option.getD_some]
    rw [foldl_add_count, foldl_add_count]
    ring

theorem uniqueLoop_step_subset (l : List CatalogMovie) (acc : List ℤ × List CatalogMovie) :
    ∀ m ∈ (l.foldl (fun acc movie =>
        if !acc.1.contains movie.id && (movie.overview != none && movie.overview != some [])
        then (acc.1 ++ [movie.id], acc.2 ++ [movie]) else acc) acc).2, m ∈ acc.2 ∨ m ∈ l := by
  induction l generalizing acc with
  | nil => intro m hm; exact Or.inl hm
  | cons a t ih =>
    intro m hm
    simp only [List.foldl_cons] at hm
    rcases ih _ m hm with h | h
    · split at h
      · simp only [List.mem_append, List.mem_singleton] at h
        rcases h with h | h
        · exact Or.inl h
        · exact Or.inr (by rw [h]; exact List.mem_cons_self _ _)
      · exact Or.inl h
    · exact Or.inr (List.mem_cons_of_mem _ h)

theorem uniqueLoop_subset (all : List CatalogMovie) :
    ∀ m ∈ (uniqueLoop all).2, m ∈ all := by
  intro m hm
  rcases uniqueLoop_step_subset all ([], []) m hm with h | h
  · simp at h
  · exact h

theorem rankResults_origin {toLowerCase : JsString → JsString}
    (keywords : List JsString) (genreIds : List ℤ) (type : String)
    (limit : ℤ) (all : List CatalogMovie) (r : SearchResult)
    (h : r ∈ rankResults toLowerCase keywords genreIds type limit all) :
    ∃ movie ∈ (uniqueLoop all).2, r = scoreCandidate toLowerCase keywords genreIds type movie := by
  unfold rankResults at h
  have h2 := (mem_sortDesc _ _ _).mp (slice0_subset _ _ _ h)
  rw [List.mem_map] at h2
  obtain ⟨m, hm, rfl⟩ := h2
  exact ⟨m, hm, rfl⟩

theorem uniqueLoop_snoc (pfx : List CatalogMovie) (a : CatalogMovie) :
    uniqueLoop (pfx ++ [a]) = uniqueStep (uniqueLoop pfx) a := by
  simp [uniqueLoop, uniqueStep, List.foldl_append]

theorem uniqueInv_step (pfx : List CatalogMovie) (acc : List ℤ × List CatalogMovie)
    (a : CatalogMovie) (h : UniqueInv pfx acc) : UniqueInv (pfx ++ [a]) (uniqueStep acc a) := by
  obtain ⟨h1, h2, h3, h4⟩ := h
  unfold uniqueStep
  by_cases hc : (!acc.1.contains a.id && (a.overview != none && a.overview != some [])) = true
  · rw [if_pos hc]
    simp only [Bool.and_eq_true, Bool.not_eq_true', List.contains_eq_any_beq, List.any_eq_false,
      beq_iff_eq] at hc
    obtain ⟨hnot, hov⟩ := hc
    have hnotmem : a.id ∉ acc.1 := by
      intro hm
      exact hnot a.id hm rfl
    have hova : hasOverview a = true := by
      simp only [hasOverview, Bool.and_eq_true]; exact hov
    refine ⟨?_, ?_, ?_, ?_⟩
    · simp [h1]
    · rw [List.map_append, List.nodup_append]
      refine ⟨h2, by simp, ?_⟩
      intro x hx1 hx2
      simp only [List.map_cons, List.map_nil, List.mem_singleton] at hx2
      subst hx2
      rw [← h1] at hx1
      exact hnotmem hx1
    · intro m hm
      rw [List.mem_append, List.mem_singleton] at hm
      rcases hm with hm | hm
      · obtain ⟨ho, pre, post, hp, hfirst⟩ := h3 m hm
        exact ⟨ho, pre, post ++ [a], by rw [hp]; simp, hfirst⟩
      · subst hm
        refine ⟨hova, pfx, [], rfl, ?_⟩
        intro x hx hid
        by_contra hne
        have hox : hasOverview x = true := by
          cases hh : hasOverview x
          · exact absurd hh hne
          · rfl
        have := h4 x hx hox
        rw [hid] at this
        exact hnotmem this
    · intro x hx hox
      rw [List.mem_append, List.mem_singleton] at hx
      rcases hx with hx | hx
      · exact List.mem_append_left _ (h4 x hx hox)
      · subst hx; simp
  · rw [if_neg hc]
    refine ⟨h1, h2, ?_, ?_⟩
    · intro m hm
      obtain ⟨ho, pre, post, hp, hfirst⟩ := h3 m hm
      exact ⟨ho, pre, post ++ [a], by rw [hp]; simp, hfirst⟩
    · intro x hx hox
      rw [List.mem_append, List.mem_singleton] at hx
      rcases hx with hx | hx
      · exact h4 x hx hox
      · subst hx
        by_contra hnm
        apply hc
        have hov : (x.overview != none && x.overview != some []) = true := hox
        rw [hov]
        simp only [Bool.and_true, Bool.not_eq_true', List.contains_eq_any_beq, List.any_eq_false,
          beq_iff_eq]
        intro y hy hxy
        exact hnm (by rw [hxy]; exact hy)

theorem uniqueLoop_inv (all : List CatalogMovie) : UniqueInv all (uniqueLoop all) := by
  induction all using List.reverseRecOn with
  | nil =>
    refine ⟨rfl, List.nodup_nil, ?_, ?_⟩
    · intro m hm; cases hm
    · intro x hx; cases hx
  | append_singleton pfx a ih =>
    rw [uniqueLoop_snoc]
    exact uniqueInv_step pfx _ a ih

theorem slice0_length_le {α : Type} (xs : List α) (n : ℤ) (hn : 0 ≤ n) :
    ((slice0 xs n).length : ℤ) ≤ n := by
  unfold slice0
  rw [if_neg (by omega)]
  have : (xs.take n.toNat).length ≤ n.toNat := List.length_take_le _ _
  omega

theorem rankResults_ids_nodup {toLowerCase : JsString → JsString}
    (keywords : List JsString) (genreIds : List ℤ) (type : String)
    (limit : ℤ) (all : List CatalogMovie) :
    ((rankResults toLowerCase keywords genreIds type limit all).map SearchResult.id).Nodup := by
  unfold rankResults
  have hs : ((slice0 (sortDesc SearchResult.matchScore
      ((uniqueLoop all).2.map (scoreCandidate toLowerCase keywords genreIds type))) limit).map
        SearchResult.id).Sublist
      ((sortDesc SearchResult.matchScore
        ((uniqueLoop all).2.map (scoreCandidate toLowerCase keywords genreIds type))).map SearchResult.id) :=
    (slice0_sublist _ _).map _
  refine hs.nodup ?_
  have hp : (sortDesc SearchResult.matchScore
      ((uniqueLoop all).2.map (scoreCandidate toLowerCase keywords genreIds type))).Perm
      ((uniqueLoop all).2.map (scoreCandidate toLowerCase keywords genreIds type)) :=
    List.perm_insertionSort _ _
  rw [(hp.map SearchResult.id).nodup_iff, List.map_map]
  exact (uniqueLoop_inv all).2.1

/-! ## Lemmas: the taxonomy mapper -/

theorem mem_foldl_setAdd {α : Type} [DecidableEq α] (l acc : List α) (x : α) :
    x ∈ l.foldl setAdd acc ↔ x ∈ acc ∨ x ∈ l := by
  induction l generalizing acc with
  | nil => simp
  | cons a t ih =>
    simp only [List.foldl_cons, ih, List.mem_cons]
    unfold setAdd
    split
    · rename_i ha
      constructor
      · rintro (h | h)
        · exact Or.inl h
        · exact Or.inr (Or.inr h)
      · rintro (h | h | h)
        · exact Or.inl h
        · subst h; exact Or.inl ha
        · exact Or.inr h
    · simp only [List.mem_append, List.mem_singleton]
      tauto

theorem nodup_foldl_setAdd {α : Type} [DecidableEq α] (l acc : List α) (h : acc.Nodup) :
    (l.foldl setAdd acc).Nodup := by
  induction l generalizing acc with
  | nil => simpa using h
  | cons a t ih =>
    simp only [List.foldl_cons]
    apply ih
    unfold setAdd
    split
    · exact h
    · rename_i ha
      rw [List.nodup_append]
      refine ⟨h, by simp, ?_⟩
      intro x hx1 hx2
      simp only [List.mem_singleton] at hx2
      subst hx2
      exact ha hx1

theorem mem_addTableGenres (lowerDesc : JsString) (table : List (String × List ℤ))
    (acc : List ℤ) (x : ℤ) :
    x ∈ addTableGenres lowerDesc acc table ↔
      x ∈ acc ∨ ∃ e ∈ table, includes lowerDesc e.1.toList = true ∧ x ∈ e.2 := by
  unfold addTableGenres
  induction table generalizing acc with
  | nil => simp
  | cons a t ih =>
    simp only [List.foldl_cons, ih, List.mem_cons, exists_eq_or_imp]
    by_cases hinc : includes lowerDesc a.1.toList = true
    · simp only [hinc, if_true, mem_foldl_setAdd, true_and]
      tauto
    · simp only [hinc, false_and, false_or]
      simp

theorem nodup_addTableGenres (lowerDesc : JsString) (table : List (String × List ℤ))
    (acc : List ℤ) (h : acc.Nodup) : (addTableGenres lowerDesc acc table).Nodup := by
  unfold addTableGenres
  induction table generalizing acc with
  | nil => simpa using h
  | cons a t ih =>
    simp only [List.foldl_cons]
    apply ih
    split
    · exact nodup_foldl_setAdd _ _ h
    · exact h

/-! ## Lemmas: the date patterns -/

theorem lastOr_cons (prev : Option Char) (c : Char) (pre : JsString) :
    lastOr prev (c :: pre) = lastOr (some c) pre := by
  cases pre with
  | nil => rfl
  | cons a t =>
    unfold lastOr
    rw [List.getLast?_cons_cons]
    cases h : (a :: t).getLast? with
    | none => simp at h
    | some x => rfl

theorem lastOr_none (pre : JsString) : lastOr none pre = pre.getLast? := by
  unfold lastOr
  cases pre.getLast? <;> rfl

theorem yearAt_eq_some (prev : Option Char) (s : JsString) (y : ℕ) :
    yearAt prev s = some y ↔
      ∃ a b c d post, s = a :: b :: c :: d :: post ∧
        ((a = '1' ∧ b = '9') ∨ (a = '2' ∧ b = '0')) ∧ c.isDigit = true ∧ d.isDigit = true ∧
        boundaryBefore prev = true ∧ boundaryAfter post = true ∧
        y = digitValue a * 1000 + digitValue b * 100 + digitValue c * 10 + digitValue d := by
  constructor
  · intro h
    match s, h with
    | a :: b :: c :: d :: post, h =>
      simp only [yearAt] at h
      split at h
      · rename_i hc
        simp only [Bool.and_eq_true, Bool.or_eq_true, beq_iff_eq] at hc
        injection h with h
        exact ⟨a, b, c, d, post, rfl, hc.1.1.1.2, hc.1.1.2, hc.1.2, hc.1.1.1.1, hc.2, h.symm⟩
      · cases h
    | [], h => simp [yearAt] at h
    | [_], h => simp [yearAt] at h
    | [_, _], h => simp [yearAt] at h
    | [_, _, _], h => simp [yearAt] at h
  · rintro ⟨a, b, c, d, post, rfl, h1, h2, h3, h4, h5, rfl⟩
    simp only [yearAt]
    rw [if_pos]
    simp only [Bool.and_eq_true, Bool.or_eq_true, beq_iff_eq]
    exact ⟨⟨⟨⟨h4, h1⟩, h2⟩, h3⟩, h5⟩

theorem yearOccursFrom_cons (prev : Option Char) (ch : Char) (rest : JsString) (y : ℕ) :
    YearOccursFrom prev (ch :: rest) y ↔
      yearAt prev (ch :: rest) = some y ∨ YearOccursFrom (some ch) rest y := by
  constructor
  · rintro ⟨pre, a, b, c, d, post, hs, h1, h2, h3, h4, h5, hy⟩
    cases pre with
    | nil =>
      left
      rw [yearAt_eq_some]
      exact ⟨a, b, c, d, post, hs, h1, h2, h3, h4, h5, hy⟩
    | cons p pre =>
      right
      simp only [List.cons_append, List.cons.injEq] at hs
      obtain ⟨hp, hs⟩ := hs
      subst hp
      rw [lastOr_cons] at h4
      exact ⟨pre, a, b, c, d, post, hs, h1, h2, h3, h4, h5, hy⟩
  · rintro (h | ⟨pre, a, b, c, d, post, hs, h1, h2, h3, h4, h5, hy⟩)
    · rw [yearAt_eq_some] at h
      obtain ⟨a, b, c, d, post, hs, h1, h2, h3, h4, h5, hy⟩ := h
      exact ⟨[], a, b, c, d, post, hs, h1, h2, h3, h4, h5, hy⟩
    · refine ⟨ch :: pre, a, b, c, d, post, by rw [hs]; rfl, h1, h2, h3, ?_, h5, hy⟩
      rw [lastOr_cons]; exact h4

theorem yearOccursFrom_nil (prev : Option Char) (y : ℕ) : ¬ YearOccursFrom prev [] y := by
  rintro ⟨pre, a, b, c, d, post, hs, _⟩
  cases pre <;> simp at hs

theorem findYear_some (prev : Option Char) (s : JsString) (y : ℕ)
    (h : findYear prev s = some y) : YearOccursFrom prev s y := by
  induction s generalizing prev with
  | nil => simp [findYear] at h
  | cons ch rest ih =>
    rw [yearOccursFrom_cons]
    simp only [findYear] at h
    cases hy : yearAt prev (ch :: rest) with
    | some y2 =>
      rw [hy] at h
      simp only at h
      left; rw [h]
    | none =>
      rw [hy] at h
      simp only at h
      right; exact ih (some ch) h

theorem findYear_none (prev : Option Char) (s : JsString)
    (h : findYear prev s = none) : ∀ y, ¬ YearOccursFrom prev s y := by
  induction s generalizing prev with
  | nil => intro y; exact yearOccursFrom_nil prev y
  | cons ch rest ih =>
    intro y
    rw [yearOccursFrom_cons]
    simp only [findYear] at h
    cases hy : yearAt prev (ch :: rest) with
    | some y2 =>
      rw [hy] at h
      simp at h
    | none =>
      rw [hy] at h
      simp only at h
      rintro (h2 | h2)
      · cases h2
      · exact ih (some ch) h y h2

theorem yearOccurs_iff (description : JsString) (y : ℕ) :
    YearOccurs description y ↔ YearOccursFrom none description y := by
  unfold YearOccurs YearOccursFrom
  simp only [lastOr_none]

theorem wordAt_iff (word : JsString) (prev : Option Char) (s : JsString) :
    wordAt word prev s = true ↔
      ∃ mid post, s = mid ++ post ∧ asciiLowerCase mid = word ∧
        boundaryBefore prev = true ∧ boundaryAfter post = true := by
  unfold wordAt
  simp only [Bool.and_eq_true, beq_iff_eq]
  constructor
  · rintro ⟨⟨h1, h2⟩, h3⟩
    exact ⟨s.take word.length, s.drop word.length, (List.take_append_drop _ _).symm, h2, h1, h3⟩
  · rintro ⟨mid, post, rfl, h2, h1, h3⟩
    have hl : word.length = mid.length := by rw [← h2]; simp [asciiLowerCase]
    rw [hl, List.take_left, List.drop_left]
    exact ⟨⟨h1, h2⟩, h3⟩

theorem hasWord_iff (word : JsString) (prev : Option Char) (s : JsString) :
    hasWord word prev s = true ↔ WordOccursFrom word prev s := by
  induction s generalizing prev with
  | nil =>
    simp only [hasWord, wordAt_iff]
    constructor
    · rintro ⟨mid, post, hs, h2, h1, h3⟩
      exact ⟨[], mid, post, by simpa using hs, h2, h1, h3⟩
    · rintro ⟨pre, mid, post, hs, h2, h1, h3⟩
      have hpre : pre = [] := by
        cases pre with
        | nil => rfl
        | cons p t => simp at hs
      subst hpre
      exact ⟨mid, post, by simpa using hs, h2, h1, h3⟩
  | cons ch rest ih =>
    simp only [hasWord, Bool.or_eq_true, wordAt_iff, ih]
    constructor
    · rintro (⟨mid, post, hs, h2, h1, h3⟩ | ⟨pre, mid, post, hs, h2, h1, h3⟩)
      · exact ⟨[], mid, post, by simpa using hs, h2, h1, h3⟩
      · exact ⟨ch :: pre, mid, post, by rw [hs]; simp, h2, by rw [lastOr_cons]; exact h1, h3⟩
    · rintro ⟨pre, mid, post, hs, h2, h1, h3⟩
      cases pre with
      | nil => exact Or.inl ⟨mid, post, by simpa using hs, h2, h1, h3⟩
      | cons p pre =>
        right
        simp only [List.cons_append, List.cons.injEq] at hs
        obtain ⟨hp, hs⟩ := hs
        subst hp
        rw [lastOr_cons] at h1
        exact ⟨pre, mid, post, hs, h2, h1, h3⟩

theorem matchesWords_iff (words : List String) (description : JsString) :
    matchesWords words description = true ↔ AnyWordOccurs words description := by
  unfold matchesWords AnyWordOccurs WordOccurs
  simp only [List.any_eq_true, hasWord_iff, WordOccursFrom, lastOr_none]

theorem digitValue_lt (c : Char) (h : c.isDigit = true) : digitValue c ≤ 9 := by
  unfold digitValue
  simp only [Char.isDigit, Bool.and_eq_true, decide_eq_true_eq] at h
  have h2 : c.val.toNat ≤ 57 := h.2
  have h3 : c.toNat = c.val.toNat := rfl
  have h4 : '0'.toNat = 48 := rfl
  omega

theorem yearOccurs_range (description : JsString) (y : ℕ) (h : YearOccurs description y) :
    1900 ≤ y ∧ y ≤ 2099 := by
  obtain ⟨pre, a, b, c, d, post, _, h1, h2, h3, _, _, hy⟩ := h
  have hc := digitValue_lt c h2
  have hd := digitValue_lt d h3
  rcases h1 with ⟨ha, hb⟩ | ⟨ha, hb⟩
  · subst ha; subst hb
    have e1 : digitValue '1' = 1 := rfl
    have e9 : digitValue '9' = 9 := rfl
    rw [e1, e9] at hy
    omega
  · subst ha; subst hb
    have e2 : digitValue '2' = 2 := rfl
    have e0 : digitValue '0' = 0 := rfl
    rw [e2, e0] at hy
    omega

/-! ## Lemmas: the video aggregation -/

theorem frameStep_eq (scores : ScoreMap) (result : MatchResult) :
    frameStep scores result = (frameContributions result).foldl accStep scores := by
  unfold frameStep frameContributions
  rw [List.foldl_append, List.foldl_map]
  cases result.identifiedMovie with
  | none => rfl
  | some m => rfl

theorem foldl_frameStep_eq (frameResults : List MatchResult) (scores : ScoreMap) :
    frameResults.foldl frameStep scores
      = (frameResults.flatMap frameContributions).foldl accStep scores := by
  induction frameResults generalizing scores with
  | nil => rfl
  | cons r t ih =>
    simp only [List.foldl_cons, List.flatMap_cons, List.foldl_append]
    rw [frameStep_eq, ih]

theorem amountsFor_append (k : ℤ) (a b : List (ImageMatch × ℚ)) :
    amountsFor k (a ++ b) = amountsFor k a ++ amountsFor k b := by
  simp [amountsFor]

theorem amountsFor_frame (k : ℤ) (result : MatchResult) :
    amountsFor k (frameContributions result)
      = ((result.identifiedMovie.toList.filter fun m => m.id == k).map fun m => m.matchScore) ++
        ((result.alternativeResults.filter fun m => m.id == k).map fun m => m.matchScore / 2) := by
  unfold frameContributions
  rw [amountsFor_append]
  congr 1
  · simp [amountsFor, List.filter_map, Function.comp_def]
  · simp only [amountsFor, List.filter_map, List.map_map, Function.comp_def]
    apply List.map_congr_left
    intro m _
    ring

theorem amountsFor_frames (k : ℤ) (frameResults : List MatchResult) :
    amountsFor k (frameResults.flatMap frameContributions) = contributionsOf k frameResults := by
  induction frameResults with
  | nil => rfl
  | cons r t ih =>
    simp only [List.flatMap_cons, amountsFor_append, ih, amountsFor_frame, contributionsOf]

theorem lookup_none_of_not_mem (scores : ScoreMap) (id : ℤ)
    (h : id ∉ scores.map Prod.fst) : scores.lookup id = none := by
  induction scores with
  | nil => rfl
  | cons a t ih =>
    obtain ⟨k, v⟩ := a
    simp only [List.map_cons, List.mem_cons, not_or] at h
    have hne : (id == k) = false := by simpa using h.1
    simp only [List.lookup, hne]
    exact ih h.2

theorem lookup_some_of_mem (scores : ScoreMap) (hnd : (scores.map Prod.fst).Nodup)
    (kv : ℤ × ScoreEntry) (h : kv ∈ scores) : scores.lookup kv.1 = some kv.2 := by
  induction scores with
  | nil => cases h
  | cons a t ih =>
    obtain ⟨k, v⟩ := a
    simp only [List.map_cons, List.nodup_cons] at hnd
    rcases List.mem_cons.mp h with rfl | hm
    · simp [List.lookup]
    · have hne : kv.1 ≠ k := by
        intro he; apply hnd.1; rw [← he]; exact List.mem_map_of_mem _ hm
      have : (kv.1 == k) = false := by simpa using hne
      simp only [List.lookup, this]
      exact ih hnd.2 hm

theorem any_key_iff (scores : ScoreMap) (id : ℤ) :
    scores.any (fun kv => kv.1 == id) = true ↔ id ∈ scores.map Prod.fst := by
  simp only [List.any_eq_true, beq_iff_eq, List.mem_map]

theorem mapSet_keys_of_mem (scores : ScoreMap) (id : ℤ) (value : ScoreEntry)
    (h : id ∈ scores.map Prod.fst) :
    (mapSet scores id value).map Prod.fst = scores.map Prod.fst := by
  unfold mapSet
  rw [if_pos ((any_key_iff scores id).mpr h), List.map_map]
  apply List.map_congr_left
  intro kv _
  simp only [Function.comp]
  by_cases hk : kv.1 = id
  · simp [hk]
  · have : (kv.1 == id) = false := by simpa using hk
    simp [this]

theorem aggInv_step (cs : List (ImageMatch × ℚ)) (scores : ScoreMap) (c : ImageMatch × ℚ)
    (h : AggInv cs scores) : AggInv (cs ++ [c]) (accStep scores c) := by
  obtain ⟨hnd, hval, hcov⟩ := h
  obtain ⟨m, x⟩ := c
  have hnew : amountsFor m.id [(m, x)] = [x] := by simp [amountsFor]
  have hother : ∀ k, k ≠ m.id → amountsFor k [(m, x)] = [] := by
    intro k hk
    have : (m.id == k) = false := by simpa using (Ne.symm hk)
    simp [amountsFor, this]
  unfold accStep accumulate
  simp only
  by_cases hmem : m.id ∈ scores.map Prod.fst
  · -- the id is already a key
    have hkeys := mapSet_keys_of_mem scores m.id
      { (scores.lookup m.id).getD { movie := m, totalScore := 0, count := 0 } with
        totalScore := ((scores.lookup m.id).getD
          { movie := m, totalScore := 0, count := 0 }).totalScore + x,
        count := ((scores.lookup m.id).getD
          { movie := m, totalScore := 0, count := 0 }).count + 1 } hmem
    refine ⟨by rw [hkeys]; exact hnd, ?_, ?_⟩
    · intro kv hkv
      unfold mapSet at hkv
      rw [if_pos ((any_key_iff scores m.id).mpr hmem), List.mem_map] at hkv
      obtain ⟨old, hold, hkv⟩ := hkv
      by_cases hk : old.1 = m.id
      · have hb : (old.1 == m.id) = true := by simpa using hk
        rw [if_pos hb] at hkv
        have hl := lookup_some_of_mem scores hnd old hold
        rw [hk] at hl
        rw [hl] at hkv
        simp only [Option.getD_some] at hkv
        obtain ⟨h1, h2, h3, h4⟩ := hval old hold
        rw [← hkv]
        simp only
        rw [amountsFor_append, hnew, List.sum_append, List.length_append, ← hk]
        refine ⟨h1, ?_, ?_, by omega⟩
        · rw [h2]; simp
        · rw [h3]; simp
      · have hb : (old.1 == m.id) = false := by simpa using hk
        rw [hb] at hkv
        simp only [Bool.false_eq_true, if_false] at hkv
        subst hkv
        obtain ⟨h1, h2, h3, h4⟩ := hval old hold
        rw [amountsFor_append, hother old.1 hk, List.append_nil]
        exact ⟨h1, h2, h3, h4⟩
    · intro c hc
      rw [hkeys]
      rw [List.mem_append, List.mem_singleton] at hc
      rcases hc with hc | hc
      · exact hcov c hc
      · rw [hc]; exact hmem
  · -- a new key
    have hl := lookup_none_of_not_mem scores m.id hmem
    have hany : ¬ (scores.any (fun kv => kv.1 == m.id) = true) := by
      rw [any_key_iff]; exact hmem
    have hempty : amountsFor m.id cs = [] := by
      unfold amountsFor
      rw [List.map_eq_nil_iff, List.filter_eq_nil_iff]
      intro c hc hb
      have : c.1.id = m.id := by simpa using hb
      exact hmem (by rw [← this]; exact hcov c hc)
    unfold mapSet
    rw [if_neg hany, hl]
    simp only [Option.getD_none]
    refine ⟨?_, ?_, ?_⟩
    · rw [List.map_append, List.nodup_append]
      refine ⟨hnd, by simp, ?_⟩
      intro k hk1 hk2
      simp only [List.map_cons, List.map_nil, List.mem_singleton] at hk2
      subst hk2
      exact hmem hk1
    · intro kv hkv
      rw [List.mem_append, List.mem_singleton] at hkv
      rcases hkv with hkv | hkv
      · obtain ⟨h1, h2, h3, h4⟩ := hval kv hkv
        have hk : kv.1 ≠ m.id := by
          intro he; apply hmem; rw [← he]; exact List.mem_map_of_mem _ hkv
        rw [amountsFor_append, hother kv.1 hk, List.append_nil]
        exact ⟨h1, h2, h3, h4⟩
      · subst hkv
        simp only
        rw [amountsFor_append, hempty, hnew]
        simp
    · intro c hc
      rw [List.map_append, List.mem_append]
      rw [List.mem_append, List.mem_singleton] at hc
      rcases hc with hc | hc
      · exact Or.inl (hcov c hc)
      · right; rw [hc]; simp

theorem aggInv_foldl (l cs : List (ImageMatch × ℚ)) (scores : ScoreMap)
    (h : AggInv cs scores) : AggInv (cs ++ l) (l.foldl accStep scores) := by
  induction l generalizing cs scores with
  | nil => simpa using h
  | cons c t ih =>
    simp only [List.foldl_cons]
    have := ih (cs ++ [c]) (accStep scores c) (aggInv_step cs scores c h)
    simpa using this

theorem aggInv_frames (frameResults : List MatchResult) :
    AggInv (frameResults.flatMap frameContributions) (frameResults.foldl frameStep []) := by
  rw [foldl_frameStep_eq]
  have h0 : AggInv [] [] := by
    refine ⟨List.nodup_nil, ?_, ?_⟩
    · intro kv h; cases h
    · intro c h; cases h
  have := aggInv_foldl (frameResults.flatMap frameContributions) [] [] h0
  simpa using this

theorem aggregated_entry (frameResults : List MatchResult) (e : VideoMatch)
    (he : e ∈ aggregatedResults frameResults) :
    e.frameMatches = (contributionsOf e.id frameResults).length ∧
    e.matchScore = (contributionsOf e.id frameResults).sum / (e.frameMatches : ℚ) ∧
    0 < e.frameMatches := by
  unfold aggregatedResults at he
  rw [mem_sortDesc, List.mem_map] at he
  obtain ⟨entry, hentry, rfl⟩ := he
  rw [List.mem_map] at hentry
  obtain ⟨kv, hkv, rfl⟩ := hentry
  obtain ⟨h1, h2, h3, h4⟩ := (aggInv_frames frameResults).2.1 kv hkv
  rw [amountsFor_frames] at h2 h3
  simp only [toVideoMatch]
  rw [h1]
  exact ⟨h3, by rw [h2], h4⟩

theorem video_output_subset (frameResults : List MatchResult) (n : ℕ) (e : VideoMatch)
    (he : e ∈ (aggregateFrames frameResults n).identifiedMovie.toList
        ++ (aggregateFrames frameResults n).alternativeResults) :
    e ∈ aggregatedResults frameResults := by
  unfold aggregateFrames at he
  simp only at he
  rw [List.mem_append] at he
  rcases he with he | he
  · split at he
    · rw [Option.mem_toList] at he
      exact List.mem_of_mem_head? he
    · simp at he
  · split at he
    · exact List.mem_of_mem_drop (List.mem_of_mem_take he)
    · exact List.mem_of_mem_take he

theorem sortDesc_head_max {α : Type} (key : α → ℚ) (l : List α) (top : α) (rest : List α)
    (h : sortDesc key l = top :: rest) : ∀ e ∈ l, key e ≤ key top := by
  intro e he
  have hp := sortDesc_pairwise key l
  rw [h] at hp
  have hm : e ∈ top :: rest := by rw [← h, mem_sortDesc]; exact he
  rcases List.mem_cons.mp hm with rfl | hm
  · exact le_refl _
  · exact (List.pairwise_cons.mp hp).1 e hm

theorem aggregated_pairwise (frameResults : List MatchResult) :
    (aggregatedResults frameResults).Pairwise fun a b => b.matchScore ≤ a.matchScore := by
  unfold aggregatedResults
  exact sortDesc_pairwise _ _

theorem video_identified_iff_exists (frameResults : List MatchResult) (n : ℕ) :
    (aggregateFrames frameResults n).identified = true ↔
      ∃ e ∈ aggregatedResults frameResults, 60 < e.matchScore := by
  unfold aggregateFrames
  simp only
  cases h : aggregatedResults frameResults with
  | nil => simp
  | cons top rest =>
    simp only [decide_eq_true_eq, gt_iff_lt]
    constructor
    · intro h60; exact ⟨top, List.mem_cons_self _ _, h60⟩
    · rintro ⟨e, he, h60⟩
      have hp := aggregated_pairwise frameResults
      rw [h] at hp
      rcases List.mem_cons.mp he with rfl | hm
      · exact h60
      · exact lt_of_lt_of_le h60 ((List.pairwise_cons.mp hp).1 e hm)

theorem video_identification_core (frameResults : List MatchResult) (n : ℕ) :
    ((aggregateFrames frameResults n).identified = true ↔
      ∃ top rest, aggregatedResults frameResults = top :: rest ∧ 60 < top.matchScore) ∧
    (∀ top rest, aggregatedResults frameResults = top :: rest → 60 < top.matchScore →
      (aggregateFrames frameResults n).identifiedMovie = some top ∧
      (aggregateFrames frameResults n).confidence
        = (if 75 < top.matchScore then Confidence.high else Confidence.medium) ∧
      (aggregateFrames frameResults n).alternativeResults = rest.take 10 ∧
      (∀ e ∈ aggregatedResults frameResults, e.matchScore ≤ top.matchScore) ∧
      (rest.take 10).Pairwise fun a b => b.matchScore ≤ a.matchScore) ∧
    ((∀ top rest, aggregatedResults frameResults = top :: rest → top.matchScore ≤ 60) →
      (aggregateFrames frameResults n).identified = false ∧
      (aggregateFrames frameResults n).confidence = Confidence.low ∧
      (aggregateFrames frameResults n).identifiedMovie = none) := by
  have hp := aggregated_pairwise frameResults
  unfold aggregateFrames
  simp only
  cases h : aggregatedResults frameResults with
  | nil => simp
  | cons t r =>
    rw [h] at hp
    have hpc := List.pairwise_cons.mp hp
    by_cases h60 : 60 < t.matchScore
    · have hd : decide (t.matchScore > 60) = true := by simpa using h60
      simp only [hd, if_true, List.head?_cons, List.drop_one, List.tail_cons]
      refine ⟨?_, ?_, ?_⟩
      · constructor
        · intro _; exact ⟨t, r, rfl, h60⟩
        · intro _; trivial
      · intro top rest ht _
        injection ht with ht hr
        subst ht; subst hr
        refine ⟨rfl, rfl, rfl, ?_, ?_⟩
        · intro e he
          rcases List.mem_cons.mp he with rfl | hm
          · exact le_refl _
          · exact hpc.1 e hm
        · exact hpc.2.sublist (List.take_sublist _ _)
      · intro hle
        exact absurd h60 (not_lt.mpr (hle t r rfl))
    · have hd : decide (t.matchScore > 60) = false := by simpa using h60
      simp only [hd, Bool.false_eq_true, if_false]
      refine ⟨?_, ?_, ?_⟩
      · constructor
        · intro hf; cases hf
        · rintro ⟨top, rest, ht, hgt⟩
          injection ht with ht hr
          subst ht
          exact absurd hgt h60
      · intro top rest ht hgt
        injection ht with ht hr
        subst ht
        exact absurd hgt h60
      · intro _
        exact ⟨trivial, trivial, trivial⟩

theorem crowded_has_top :
    toVideoMatch { movie := frameEntry 0 90, totalScore := 0 + 90, count := 0 + 1 }
      ∈ aggregatedResults [crowdedFrame] := by
  unfold aggregatedResults
  rw [mem_sortDesc]
  refine List.mem_map.mpr ⟨_, List.mem_map.mpr ⟨(0, _), ?_, rfl⟩, rfl⟩
  exact List.mem_of_mem_head? (by rfl)

theorem crowded_length : (aggregatedResults [crowdedFrame]).length = 12 := by
  unfold aggregatedResults sortDesc
  rw [List.length_insertionSort, List.length_map, List.length_map]
  rfl

/-! ## Lemmas: colour similarity -/

theorem colorSimilarity_value (c1 c2 : ColorHistogram) :
    calculateColorSimilarity (some c1) (some c2)
      = 100 * (5 / 10 * (1 - min |c1.hsv.h - c2.hsv.h| (360 - |c1.hsv.h - c2.hsv.h|) / 180)
          + 3 / 10 * (1 - |c1.hsv.s - c2.hsv.s| / 100)
          + 2 / 10 * (1 - |c1.hsv.v - c2.hsv.v| / 100)) := by
  simp only [calculateColorSimilarity]
  ring

/-! ## Lemmas: rating closeness -/

theorem score_tone_part {toLowerCase : JsString → JsString}
    (A B : MovieRecord) (VA VB : VibeVector) :
    calculateComprehensiveSimilarityScore toLowerCase A B VA VB
      = calculateComprehensiveSimilarityScore toLowerCase { A with rating := none }
          { B with rating := none }
          VA VB
        + (toneScoreOf A.rating B.rating - 1) * (15 / 100) := by
  unfold calculateComprehensiveSimilarityScore toneScoreOf
  simp only [ratingOr6, sub_self, abs_zero]
  ring

theorem toneScore_nonzero (a b : ℚ) (ha : a ≠ 0) (hb : b ≠ 0) :
    toneScoreOf (some a) (some b) = 1 - |a - b| / 10 := by
  simp [toneScoreOf, ratingOr6, ha, hb]

theorem ratingOr6_eq (r : Option ℚ) :
    ratingOr6 r = if r = none ∨ r = some 0 then 6 else r.getD 0 := by
  cases r with
  | none => simp [ratingOr6]
  | some a =>
    by_cases ha : a = 0
    · simp [ratingOr6, ha]
    · simp [ratingOr6, ha]

theorem toneScore_eq (ra rb : Option ℚ) :
    toneScoreOf ra rb
      = 1 - |(if ra = none ∨ ra = some 0 then 6 else ra.getD 0)
            - (if rb = none ∨ rb = some 0 then 6 else rb.getD 0)| / 10 := by
  unfold toneScoreOf
  rw [ratingOr6_eq, ratingOr6_eq]

/-! ## Lemmas: vibe similarity as a sum over shared keys -/

theorem vibeLoop_foldl (v2 l : VibeVector) (acc : ℚ × ℕ) :
    l.foldl (vibeStep v2) acc
      = (acc.1 + (((l.filter fun kv => (v2.lookup kv.1).isSome).map
            fun kv => |kv.2 - vibeValue v2 kv.1|).sum),
         acc.2 + (l.filter fun kv => (v2.lookup kv.1).isSome).length) := by
  induction l generalizing acc with
  | nil => simp
  | cons a t ih =>
    simp only [List.foldl_cons]
    rw [ih]
    unfold vibeStep
    cases h : v2.lookup a.1 with
    | none => simp [List.filter_cons, h]
    | some x =>
      simp only [List.filter_cons, h, Option.isSome_some, if_true, List.map_cons, List.sum_cons,
        List.length_cons, vibeValue, Option.getD_some]
      refine Prod.ext ?_ ?_
      · simp only; ring
      · simp only; omega

theorem shared_entries_keys (v1 v2 : VibeVector) :
    (v1.filter fun kv => (v2.lookup kv.1).isSome).map Prod.fst = sharedKeys v1 v2 := by
  unfold sharedKeys
  rw [List.filter_map]
  rfl

theorem shared_entries_diffs (v1 v2 : VibeVector) (hnd : (v1.map Prod.fst).Nodup) :
    ((v1.filter fun kv => (v2.lookup kv.1).isSome).map fun kv => |kv.2 - vibeValue v2 kv.1|)
      = (sharedKeys v1 v2).map fun k => |vibeValue v1 k - vibeValue v2 k| := by
  rw [← shared_entries_keys, List.map_map]
  apply List.map_congr_left
  intro kv hkv
  have hm : kv ∈ v1 := List.mem_of_mem_filter hkv
  simp only [Function.comp, vibeValue, lookup_of_mem_nodup v1 hnd kv hm, Option.getD_some]

theorem vibeLoop_eq (v1 v2 : VibeVector) (hnd : (v1.map Prod.fst).Nodup) :
    vibeLoop v1 v2
      = (((sharedKeys v1 v2).map fun k => |vibeValue v1 k - vibeValue v2 k|).sum,
         (sharedKeys v1 v2).length) := by
  unfold vibeLoop
  rw [vibeLoop_foldl, shared_entries_diffs v1 v2 hnd, ← shared_entries_keys v1 v2]
  simp

theorem vibeSimilarity_eq (v1 v2 : VibeVector) (hnd : (v1.map Prod.fst).Nodup) :
    calculateVibeSimilarity v1 v2
      = if sharedKeys v1 v2 = [] then 1 / 2
        else 1 - ((sharedKeys v1 v2).map fun k => |vibeValue v1 k - vibeValue v2 k|).sum
              / (5 * ((sharedKeys v1 v2).length : ℚ)) := by
  unfold calculateVibeSimilarity
  simp only [vibeLoop_eq v1 v2 hnd]
  by_cases h : sharedKeys v1 v2 = []
  · simp [h]
  · have hpos : 0 < (sharedKeys v1 v2).length := List.length_pos.mpr h
    rw [if_pos hpos, if_neg h, mul_comm]

theorem extractVibes_nodup {toLowerCase : JsString → JsString}
    (m : MovieRecord) : ((extractVibes toLowerCase m).map Prod.fst).Nodup := by
  rw [extractVibes_keys]; exact VIBE_KEYWORDS_nodup

theorem extractVibes_value_nat {toLowerCase : JsString → JsString} (m : MovieRecord) :
    ∀ kv ∈ extractVibes toLowerCase m, ∃ n : ℕ, kv.2 = (n : ℚ) ∧ n ≤ 5 := by
  intro kv hkv
  simp only [extractVibes, List.mem_map] at hkv
  obtain ⟨e, he, rfl⟩ := hkv
  have h5 := VIBE_KEYWORDS_five e he
  refine ⟨e.2.countP (fun phrase =>
      (m.keywords.map (Keyword.lower toLowerCase)).any
          (fun k => includes k (toLowerCase phrase.toList)) ||
        (m.genres.map (Genre.lowerName toLowerCase)).any
          (fun g => includes g (toLowerCase phrase.toList))), ?_, ?_⟩
  · have h := foldl_add_count (fun phrase : String =>
      (m.keywords.map (Keyword.lower toLowerCase)).any
          (fun k => includes k (toLowerCase phrase.toList)) ||
        (m.genres.map (Genre.lowerName toLowerCase)).any
          (fun g => includes g (toLowerCase phrase.toList)))
      1 e.2 0
    simp only [zero_add, one_mul] at h
    exact h
  · rw [← h5]; exact List.countP_le_length _

/-! ## Lemmas: the retry loop -/

theorem retry_three_trace {σ α : Type} (sleep : ℕ → σ → σ) (fn : σ → Except String α × σ)
    (s : σ) :
    retryRequest (tracedSleep sleep) (tracedFn fn) 3 ([], s) =
      match fn s with
      | (.ok a, s1) => (.ok (some a), ([RetryEvent.call], s1))
      | (.error _, s1) =>
        match fn (sleep 1000 s1) with
        | (.ok a, s2) =>
          (.ok (some a), ([RetryEvent.call, RetryEvent.wait 1000, RetryEvent.call], s2))
        | (.error _, s2) =>
          match fn (sleep 2000 s2) with
          | (.ok a, s3) =>
            (.ok (some a), ([RetryEvent.call, RetryEvent.wait 1000, RetryEvent.call,
              RetryEvent.wait 2000, RetryEvent.call], s3))
          | (.error e, s3) =>
            (.error e, ([RetryEvent.call, RetryEvent.wait 1000, RetryEvent.call,
              RetryEvent.wait 2000, RetryEvent.call], s3)) := by
  unfold retryRequest
  simp only [retryFrom, tracedFn, tracedSleep]
  rcases h1 : fn s with ⟨r1, s1⟩
  cases r1 with
  | ok a => simp
  | error e1 =>
    simp only [List.nil_append]
    norm_num
    rcases h2 : fn (sleep 1000 s1) with ⟨r2, s2⟩
    cases r2 with
    | ok a => simp
    | error e2 =>
      simp only
      rcases h3 : fn (sleep 2000 s2) with ⟨r3, s3⟩
      cases r3 with
      | ok a => simp
      | error e3 => simp

theorem retryFrom_waits_capped {σ α : Type} (sleep : ℕ → σ → σ)
    (fn : σ → Except String α × σ) (retries remaining i : ℕ) (st : List RetryEvent × σ)
    (h : ∀ ms, RetryEvent.wait ms ∈ st.1 → ms ≤ 5000) :
    ∀ ms, RetryEvent.wait ms ∈
        (retryFrom (tracedSleep sleep) (tracedFn fn) retries i remaining st).2.1 →
      ms ≤ 5000 := by
  induction remaining generalizing i st with
  | zero => simpa [retryFrom] using h
  | succ n ih =>
    have hcall : ∀ ms, RetryEvent.wait ms ∈ st.1 ++ [RetryEvent.call] → ms ≤ 5000 := by
      intro ms hm
      rw [List.mem_append, List.mem_singleton] at hm
      rcases hm with hm | hm
      · exact h ms hm
      · cases hm
    unfold retryFrom
    cases hfn : (tracedFn fn st).1 with
    | ok a =>
      have : tracedFn fn st = (.ok a, (tracedFn fn st).2) := by rw [← hfn]
      rw [this]
      exact hcall
    | error e =>
      have : tracedFn fn st = (.error e, (tracedFn fn st).2) := by rw [← hfn]
      rw [this]
      simp only
      split
      · exact hcall
      · apply ih
        intro ms hm
        simp only [tracedSleep, tracedFn] at hm
        rw [List.mem_append, List.mem_singleton] at hm
        rcases hm with hm | hm
        · exact hcall ms hm
        · injection hm with hm
          rw [hm]
          exact min_le_right _ _

/-! ## Lemmas: the trending score -/

theorem scoreMovie_formula (today : ℤ) (movie : TrendingMovie) :
    ((scoreMovie today movie).score, (scoreMovie today movie).status)
      = trendingFormula (daysDiffOf today movie) movie.popularity movie.vote_count
          movie.source := by
  unfold scoreMovie trendingFormula
  simp only
  by_cases h1 : daysDiffOf today movie > 0
  · simp only [h1, if_true]
    split <;> simp
  · simp only [h1, if_false]
    by_cases h2 : daysDiffOf today movie > -90
    · simp only [h2, if_true]
      split <;> simp
    · simp only [h2, if_false]
      by_cases h3 : movie.source = some "trending"
      · simp only [h3, if_true]
        split <;> simp
      · simp only [h3, if_false]
        split <;> simp

theorem talkOfTheTown_eq (today : ℤ) (allMovies : List TrendingMovie) :
    talkOfTheTown today allMovies
      = (sortDesc ScoredMovie.score
          (((allMovies.filter isIndianLanguage).map (scoreMovie today)).filter
            fun m => decide (m.score > 0))).take 20 := by
  have hs : talkOfTheTown today allMovies =
      if (allMovies.filter isIndianLanguage).length = 0 then []
      else slice0 (sortDesc ScoredMovie.score
        (((allMovies.filter isIndianLanguage).map (scoreMovie today)).filter
          fun m => decide (m.score > 0))) 20 := rfl
  rw [hs]
  split
  · rename_i h0
    rw [List.length_eq_zero] at h0
    rw [h0]
    rfl
  · unfold slice0
    rfl

/-! ## Lemmas: symmetry of the similarity scorer -/

theorem newSet_nodup {α : Type} [DecidableEq α] (xs : List α) : (newSet xs).Nodup :=
  nodup_foldl_setAdd xs [] List.nodup_nil

theorem inter_count_comm {α : Type} [DecidableEq α] (l1 l2 : List α)
    [DecidablePred fun g => g ∈ l2] [DecidablePred fun g => g ∈ l1]
    (h1 : l1.Nodup) (h2 : l2.Nodup) :
    (l1.filter fun g => decide (g ∈ l2)).length = (l2.filter fun g => decide (g ∈ l1)).length := by
  rw [← List.toFinset_card_of_nodup (h1.filter _), ← List.toFinset_card_of_nodup (h2.filter _)]
  congr 1
  ext x
  simp only [List.mem_toFinset, List.mem_filter, decide_eq_true_eq]
  tauto

theorem overlap_comm {α : Type} [DecidableEq α] (xs ys : List α)
    [DecidablePred fun g => g ∈ newSet ys] [DecidablePred fun g => g ∈ newSet xs] :
    (((newSet xs).filter fun g => decide (g ∈ newSet ys)).length : ℚ)
        / ((orOne (max (newSet xs).length (newSet ys).length) : ℕ) : ℚ)
      = (((newSet ys).filter fun g => decide (g ∈ newSet xs)).length : ℚ)
        / ((orOne (max (newSet ys).length (newSet xs).length) : ℕ) : ℚ) := by
  rw [inter_count_comm _ _ (newSet_nodup xs) (newSet_nodup ys), max_comm]

theorem lookup_isSome_iff (v : VibeVector) (k : String) :
    (v.lookup k).isSome = true ↔ k ∈ v.map Prod.fst := by
  induction v with
  | nil => simp
  | cons a t ih =>
    obtain ⟨k2, x⟩ := a
    by_cases h : k = k2
    · subst h; simp [List.lookup]
    · have hb : (k == k2) = false := by simpa using h
      simp only [List.lookup, hb, ih, List.map_cons, List.mem_cons, h, false_or]

theorem sharedKeys_nodup (v1 v2 : VibeVector) (hnd : (v1.map Prod.fst).Nodup) :
    (sharedKeys v1 v2).Nodup := hnd.filter _

theorem sharedKeys_toFinset_comm (v1 v2 : VibeVector) :
    (sharedKeys v1 v2).toFinset = (sharedKeys v2 v1).toFinset := by
  ext k
  simp only [sharedKeys, List.mem_toFinset, List.mem_filter, lookup_isSome_iff]
  tauto

theorem vibeLoop_comm (v1 v2 : VibeVector) (h1 : (v1.map Prod.fst).Nodup)
    (h2 : (v2.map Prod.fst).Nodup) : vibeLoop v1 v2 = vibeLoop v2 v1 := by
  rw [vibeLoop_eq v1 v2 h1, vibeLoop_eq v2 v1 h2]
  refine Prod.ext ?_ ?_
  · simp only
    rw [← List.sum_toFinset _ (sharedKeys_nodup v1 v2 h1),
      ← List.sum_toFinset _ (sharedKeys_nodup v2 v1 h2), sharedKeys_toFinset_comm v1 v2]
    apply Finset.sum_congr rfl
    intro k _
    exact abs_sub_comm _ _
  · simp only
    rw [← List.toFinset_card_of_nodup (sharedKeys_nodup v1 v2 h1),
      ← List.toFinset_card_of_nodup (sharedKeys_nodup v2 v1 h2), sharedKeys_toFinset_comm v1 v2]

theorem vibeSimilarity_comm (v1 v2 : VibeVector) (h1 : (v1.map Prod.fst).Nodup)
    (h2 : (v2.map Prod.fst).Nodup) :
    calculateVibeSimilarity v1 v2 = calculateVibeSimilarity v2 v1 := by
  unfold calculateVibeSimilarity
  rw [vibeLoop_comm v1 v2 h1 h2]

/-! ## Lemmas: entries that are only alternatives -/

theorem image_entry_le_100 (env : ImageEnv) (buf : Buffer) (o : MatchOptions) (e : ImageMatch)
    (he : e ∈ (matchImageToMovie env buf o).identifiedMovie.toList
        ++ (matchImageToMovie env buf o).alternativeResults) : e.matchScore ≤ 100 := by
  rw [result_concat] at he
  cases h : topMatches env buf o with
  | error msg => rw [h] at he; simp at he
  | ok l =>
    rw [h] at he
    obtain ⟨movies, _, movie, _, hp⟩ := topMatches_origin env buf o l h e he
    exact processCandidate_score_le env buf _ movie e hp

theorem sum_le_of_forall_le (l : List ℚ) (c : ℚ) (h : ∀ x ∈ l, x ≤ c) :
    l.sum ≤ c * (l.length : ℚ) := by
  induction l with
  | nil => simp
  | cons a t ih =>
    simp only [List.sum_cons, List.length_cons, Nat.cast_add, Nat.cast_one]
    have h1 := h a (List.mem_cons_self _ _)
    have h2 := ih (fun x hx => h x (List.mem_cons_of_mem _ hx))
    linarith

theorem contributions_alt_only (id : ℤ) (frameResults : List MatchResult)
    (hbound : ∀ r ∈ frameResults, ∀ m ∈ r.identifiedMovie.toList ++ r.alternativeResults,
      m.matchScore ≤ 100)
    (hnever : ∀ r ∈ frameResults, ∀ m, r.identifiedMovie = some m → m.id ≠ id) :
    ∀ x ∈ contributionsOf id frameResults, x ≤ 50 := by
  intro x hx
  unfold contributionsOf at hx
  rw [List.mem_flatMap] at hx
  obtain ⟨r, hr, hx⟩ := hx
  rw [List.mem_append] at hx
  rcases hx with hx | hx
  · rw [List.mem_map] at hx
    obtain ⟨m, hm, _⟩ := hx
    rw [List.mem_filter] at hm
    have hid : m.id = id := by simpa using hm.2
    have hsome : r.identifiedMovie = some m := by
      have := hm.1
      rw [Option.mem_toList] at this
      exact this
    exact absurd hid (hnever r hr m hsome)
  · rw [List.mem_map] at hx
    obtain ⟨m, hm, rfl⟩ := hx
    have hmem : m ∈ r.identifiedMovie.toList ++ r.alternativeResults :=
      List.mem_append_right _ (List.mem_of_mem_filter hm)
    have := hbound r hr m hmem
    linarith

theorem alt_only_le_50 (frameResults : List MatchResult)
    (hbound : ∀ r ∈ frameResults, ∀ m ∈ r.identifiedMovie.toList ++ r.alternativeResults,
      m.matchScore ≤ 100)
    (e : VideoMatch) (he : e ∈ aggregatedResults frameResults)
    (hnever : ∀ r ∈ frameResults, ∀ m, r.identifiedMovie = some m → m.id ≠ e.id) :
    e.matchScore ≤ 50 := by
  obtain ⟨h1, h2, h3⟩ := aggregated_entry frameResults e he
  have hs := sum_le_of_forall_le _ 50
    (contributions_alt_only e.id frameResults hbound hnever)
  have hpos : (0 : ℚ) < (e.frameMatches : ℚ) := by exact_mod_cast h3
  rw [h2, div_le_iff₀ hpos, h1]
  exact hs

theorem identified_was_identified (frameResults : List MatchResult) (n : ℕ)
    (hbound : ∀ r ∈ frameResults, ∀ m ∈ r.identifiedMovie.toList ++ r.alternativeResults,
      m.matchScore ≤ 100)
    (hid : (aggregateFrames frameResults n).identified = true) :
    ∃ top, (aggregateFrames frameResults n).identifiedMovie = some top ∧
      ∃ r ∈ frameResults, ∃ m, r.identifiedMovie = some m ∧ m.id = top.id := by
  obtain ⟨top, rest, hagg, h60⟩ := (video_identification_core frameResults n).1.mp hid
  have him := ((video_identification_core frameResults n).2.1 top rest hagg h60).1
  refine ⟨top, him, ?_⟩
  by_contra hno
  have hnever : ∀ r ∈ frameResults, ∀ m, r.identifiedMovie = some m → m.id ≠ top.id := by
    intro r hr m hm hidm
    exact hno ⟨r, hr, m, hm, hidm⟩
  have htop : top ∈ aggregatedResults frameResults := by rw [hagg]; exact List.mem_cons_self _ _
  have := alt_only_le_50 frameResults hbound top htop hnever
  linarith

/-! ## Lemmas: failure paths of the image matcher -/

theorem match_of_topMatches_error (env : ImageEnv) (buf : Buffer) (o : MatchOptions)
    (message : String) (h : topMatches env buf o = .error message) :
    matchImageToMovie env buf o = failureResult message := by
  unfold matchImageToMovie failureResult
  rw [h]

theorem match_of_no_hash (env : ImageEnv) (buf : Buffer) (o : MatchOptions)
    (h : (extractImageFeatures env.lib buf).perceptualHash = none ∨
      (extractImageFeatures env.lib buf).perceptualHash = some []) :
    matchImageToMovie env buf o = failureResult "Failed to extract image features" := by
  apply match_of_topMatches_error
  unfold topMatches
  simp only
  rw [if_pos h]

theorem match_of_discover_error (env : ImageEnv) (buf : Buffer) (o : MatchOptions)
    (message : String)
    (hhash : ¬ ((extractImageFeatures env.lib buf).perceptualHash = none ∨
      (extractImageFeatures env.lib buf).perceptualHash = some []))
    (h : env.discover (discoverEndpoint (o.type.getD "movie")) = .error message) :
    matchImageToMovie env buf o = failureResult message := by
  apply match_of_topMatches_error
  unfold topMatches
  simp only
  rw [if_neg hhash, h]

theorem processCandidate_failDownload (env : ImageEnv) (posterPath : String) (id : ℤ)
    (feats : ImageFeatures) (type : String) (movie : CatalogMovie) :
    processCandidate (failDownload env posterPath id) feats type movie
      = if movie.poster_path = some posterPath ∧ movie.id = id then none
        else processCandidate env feats type movie := by
  unfold processCandidate failDownload
  cases hp : movie.poster_path with
  | none => simp
  | some p =>
    simp only [Option.some.injEq]
    by_cases he : p = ""
    · simp [he]
    · simp only [he, if_false]
      by_cases hc : p = posterPath ∧ movie.id = id
      · simp [hc]
      · simp only [hc, if_false]

theorem found_failDownload (env : ImageEnv) (posterPath : String) (id : ℤ)
    (feats : ImageFeatures) (type : String) (pool : List CatalogMovie) :
    pool.filterMap (processCandidate (failDownload env posterPath id) feats type)
      = (pool.filter fun movie => !decide (movie.poster_path = some posterPath ∧ movie.id = id)
          ).filterMap (processCandidate env feats type) := by
  induction pool with
  | nil => rfl
  | cons a t ih =>
    rw [List.filterMap_cons, processCandidate_failDownload, List.filter_cons]
    by_cases hc : a.poster_path = some posterPath ∧ a.id = id
    · simp only [hc, and_self, if_true, decide_True, Bool.not_true, Bool.false_eq_true,
        if_false]
      exact ih
    · simp only [hc, if_false, decide_False, Bool.not_false, if_true, List.filterMap_cons]
      rw [ih]

theorem processCandidate_unhashable (env : ImageEnv) (feats : ImageFeatures)
    (type : String) (movie : CatalogMovie) (p : String) (pb : Buffer)
    (hpath : movie.poster_path = some p) (hne : p ≠ "")
    (hdl : env.downloadPoster p movie.id = some pb)
    (hfail : (extractImageFeatures env.lib pb).perceptualHash = none) :
    processCandidate env feats type movie
      = if 3 / 10 * calculateColorSimilarity feats.colorHistogram
            (extractImageFeatures env.lib pb).colorHistogram > 25 then
          some { id := movie.id,
                 title := strOr movie.title movie.name,
                 poster := movie.poster_path,
                 backdrop := movie.backdrop_path,
                 overview := movie.overview,
                 rating := movie.vote_average,
                 releaseDate := pathOr movie.release_date movie.first_air_date,
                 type := type,
                 matchScore := 3 / 10 * calculateColorSimilarity feats.colorHistogram
                   (extractImageFeatures env.lib pb).colorHistogram,
                 hashSimilarity := 0,
                 colorSimilarity := calculateColorSimilarity feats.colorHistogram
                   (extractImageFeatures env.lib pb).colorHistogram }
        else none := by
  have hd : hammingDistance feats.perceptualHash
      (extractImageFeatures env.lib pb).perceptualHash = 100 := by
    rw [hfail]
    unfold hammingDistance
    cases feats.perceptualHash <;> rfl
  have h0 : hashSimilarityOf 100 = 0 := by norm_num [hashSimilarityOf]
  have hsum : ∀ c : ℚ, (0 : ℚ) * (7 / 10) + c * (3 / 10) = 3 / 10 * c := by intro c; ring
  unfold processCandidate
  rw [hpath]
  simp only [hne, if_false, hdl, hd, h0, hsum]

theorem processCandidate_unreadable (env : ImageEnv) (feats : ImageFeatures)
    (type : String) (movie : CatalogMovie) (p : String) (pb : Buffer)
    (hpath : movie.poster_path = some p)
    (hdl : env.downloadPoster p movie.id = some pb)
    (hfail : (extractImageFeatures env.lib pb).perceptualHash = none)
    (hcol : (extractImageFeatures env.lib pb).colorHistogram = none) :
    processCandidate env feats type movie = none := by
  by_cases hne : p = ""
  · unfold processCandidate
    rw [hpath]
    simp only [hne, if_true]
  · rw [processCandidate_unhashable env feats type movie p pb hpath hne hdl hfail, hcol]
    have hc : calculateColorSimilarity feats.colorHistogram none = 0 := by
      unfold calculateColorSimilarity
      cases feats.colorHistogram <;> rfl
    rw [hc, if_neg (by norm_num)]

theorem hashFail_query :
    ∃ h, extractImageFeatures hashFailLib [7]
        = ⟨some { rgb := ⟨200, 30, 30⟩, hsv := rgbToHsv 200 30 30 }, some h⟩ ∧ h ≠ [] := by
  obtain ⟨hash, h1, h2⟩ := perceptualHash_length hashFailLib [7]
    (List.replicate 32 0 ++ List.replicate 32 255) rfl
  refine ⟨hash, ?_, ?_⟩
  · unfold extractImageFeatures
    rw [h1]
    rfl
  · intro he
    rw [he] at h2
    simp at h2

theorem hashFail_candidate :
    ∃ e, processCandidate hashFailEnv (extractImageFeatures hashFailLib [7]) "movie"
        (posterEntry 42) = some e ∧ e.id = 42 ∧ e.hashSimilarity = 0 ∧ e.matchScore = 30 := by
  obtain ⟨h, hq, hne⟩ := hashFail_query
  have hposter : extractImageFeatures hashFailLib [9]
      = ⟨some { rgb := ⟨200, 30, 30⟩, hsv := rgbToHsv 200 30 30 }, none⟩ := rfl
  have hpc : processCandidate hashFailEnv (extractImageFeatures hashFailLib [7]) "movie"
      (posterEntry 42)
      = some { id := 42, title := strOr (posterEntry 42).title (posterEntry 42).name,
               poster := (posterEntry 42).poster_path,
               backdrop := (posterEntry 42).backdrop_path,
               overview := (posterEntry 42).overview,
               rating := (posterEntry 42).vote_average,
               releaseDate := pathOr (posterEntry 42).release_date
                 (posterEntry 42).first_air_date,
               type := "movie", matchScore := 30, hashSimilarity := 0,
               colorSimilarity := 100 } := by
    have hpath : (posterEntry 42).poster_path = some "/poster.jpg" := rfl
    have hne2 : ("/poster.jpg" : String) ≠ "" := by decide
    have hdl : hashFailEnv.downloadPoster "/poster.jpg" (posterEntry 42).id = some [9] := rfl
    have hlib : hashFailEnv.lib = hashFailLib := rfl
    unfold processCandidate
    simp only [hpath, hne2, if_false, hdl, hlib, hposter, hq, colorSimilarity_self]
    have hd : hammingDistance (some h) none = 100 := rfl
    rw [hd]
    have h0 : hashSimilarityOf 100 = 0 := by norm_num [hashSimilarityOf]
    rw [h0]
    have h30 : (0 : ℚ) * (7 / 10) + 100 * (3 / 10) = 30 := by norm_num
    rw [h30, if_pos (by norm_num)]
    rfl
  exact ⟨_, hpc, rfl, rfl, rfl⟩

/-! ## Lemmas: ranges of the HSV conversion -/

theorem rgbToHsv_sat_val (r g b : ℕ) (hr : r ≤ 255) (hg : g ≤ 255) (hb : b ≤ 255) :
    0 ≤ (rgbToHsv r g b).s ∧ (rgbToHsv r g b).s ≤ 100 ∧
    0 ≤ (rgbToHsv r g b).v ∧ (rgbToHsv r g b).v ≤ 100 := by
  unfold rgbToHsv
  simp only
  set R : ℚ := (r : ℚ) / 255 with hR
  set G : ℚ := (g : ℚ) / 255 with hG
  set B : ℚ := (b : ℚ) / 255 with hB
  have hR0 : 0 ≤ R := by positivity
  have hG0 : 0 ≤ G := by positivity
  have hB0 : 0 ≤ B := by positivity
  have hR1 : R ≤ 1 := by
    rw [hR, div_le_one (by norm_num)]; exact_mod_cast hr
  have hG1 : G ≤ 1 := by
    rw [hG, div_le_one (by norm_num)]; exact_mod_cast hg
  have hB1 : B ≤ 1 := by
    rw [hB, div_le_one (by norm_num)]; exact_mod_cast hb
  set mx := max (max R G) B with hmx
  set mn := min (min R G) B with hmn
  have hx0 : 0 ≤ mx := le_trans hB0 (le_max_right _ B)
  have hx1 : mx ≤ 1 := max_le (max_le hR1 hG1) hB1
  have hn0 : 0 ≤ mn := le_min (le_min hR0 hG0) hB0
  have hnx : mn ≤ mx := le_trans (min_le_right _ B) (le_max_right _ B)
  refine ⟨?_, ?_, by linarith, by linarith⟩
  · split
    · exact le_refl _
    · exact mul_nonneg (div_nonneg (by linarith) hx0) (by norm_num)
  · split
    · norm_num
    · rename_i hne
      have hpos : 0 < mx := lt_of_le_of_ne hx0 (Ne.symm hne)
      have : (mx - mn) / mx ≤ 1 := by
        rw [div_le_one hpos]; linarith
      linarith

theorem rgbToHsv_grey (n : ℕ) : (rgbToHsv n n n).h = 0 ∧ (rgbToHsv n n n).s = 0 := by
  unfold rgbToHsv
  simp

/-! ## The claims -/

/-- Claim C1, as stated, fails on the record Alpha: compared with itself it
scores below 1.0, because its empty keyword set and its empty cast set each
overlap by 0 and so lose their weights. -/
theorem alpha_self_score_is_not_one :
    calculateComprehensiveSimilarityScore asciiLowerCase alpha alpha
        (extractVibes asciiLowerCase alpha) (extractVibes asciiLowerCase alpha) ≠ 1 ∧
      calculateComprehensiveSimilarityScore asciiLowerCase alpha alpha
        (extractVibes asciiLowerCase alpha) (extractVibes asciiLowerCase alpha) < 1 := by
  have h := @self_score_formula asciiLowerCase alpha
  have hg : alpha.genres ≠ [] := by simp [alpha]
  have hk : alpha.keywords = [] := rfl
  have hc : alpha.cast = [] := rfl
  rw [if_neg hg, if_pos hk, if_pos hc] at h
  rw [h]
  constructor <;> norm_num

/-- Claim C1 (amended): for every movie record `A` with `V = extractVibes A`,
`calculateComprehensiveSimilarityScore A A V V` is exactly 1 if and only if `A`
has at least one genre, at least one keyword and at least one cast member,
whatever the case mapping of the engine. -/
theorem self_score_eq_one_iff (toLowerCase : JsString → JsString) (A : MovieRecord) :
    calculateComprehensiveSimilarityScore toLowerCase A A
        (extractVibes toLowerCase A) (extractVibes toLowerCase A) = 1 ↔
      A.genres ≠ [] ∧ A.keywords ≠ [] ∧ A.cast ≠ [] := by
  rw [self_score_formula]
  by_cases hg : A.genres = [] <;> by_cases hk : A.keywords = [] <;>
    by_cases hc : A.cast = [] <;> simp [hg, hk, hc] <;> norm_num

/-- Claim C2 fails on the code: an entry of the pool with `daysDiff < -90` and
a source other than `trending` gets status `dead`, yet with more than 1000
votes its score is 50 and it is listed in the output. -/
theorem dead_entry_with_votes_is_listed :
    daysDiffOf 1730000000000 oldPopularMovie < -90 ∧
    oldPopularMovie.source ≠ some "trending" ∧
    (talkOfTheTown 1730000000000 [oldPopularMovie]).map
        (fun m => (m.movie.id, m.status, m.score)) = [(1, Status.dead, 50)] := by
  refine ⟨?_, by decide, ?_⟩
  · norm_num [daysDiffOf, oldPopularMovie]
  · simp [talkOfTheTown, oldPopularMovie, INDIAN_LANGUAGES, scoreMovie, daysDiffOf, sortDesc,
      slice0]
    norm_num

/-- Claim C3, as stated, fails at popularity 5000: the entry ten days ahead
scores 1500 and the entry ten days behind scores more. -/
theorem upcoming_not_above_fresh_at_5000 :
    daysDiffOf 0 upcomingHot = 10 ∧ daysDiffOf 0 freshHot = -10 ∧
    upcomingHot.popularity = freshHot.popularity ∧
    ¬ ((scoreMovie 0 freshHot).score < (scoreMovie 0 upcomingHot).score) := by
  refine ⟨by norm_num [daysDiffOf, upcomingHot], by norm_num [daysDiffOf, freshHot], rfl, ?_⟩
  norm_num [scoreMovie, daysDiffOf, upcomingHot, freshHot]

/-- Claim C3 (amended): for two entries with the same popularity `p`, whatever
their vote counts, the entry with `daysDiff = 10` scores strictly higher than
the entry with `daysDiff = -10` exactly when
`p / 10 + bonus fresh < 500 - 100 / 11 + bonus upcoming`, the bonus of an entry
being 50 above 1000 votes and 0 otherwise. Hence it does so whenever
`p < 48500 / 11`; when both entries or neither have more than 1000 votes,
exactly when `p < 54000 / 11`; and when only the fresh entry has more than 1000
votes, exactly when `p < 48500 / 11`. -/
theorem upcoming_above_fresh_iff (today : ℤ) (u f : TrendingMovie) (p : ℚ)
    (hu : daysDiffOf today u = 10) (hf : daysDiffOf today f = -10)
    (hpu : u.popularity = p) (hpf : f.popularity = p) :
    ((scoreMovie today f).score < (scoreMovie today u).score ↔
      p / 10 + (if f.vote_count > 1000 then 50 else 0)
        < 500 - 100 / 11 + (if u.vote_count > 1000 then 50 else 0)) ∧
    (p < 48500 / 11 → (scoreMovie today f).score < (scoreMovie today u).score) ∧
    ((u.vote_count > 1000 ↔ f.vote_count > 1000) →
      ((scoreMovie today f).score < (scoreMovie today u).score ↔ p < 54000 / 11)) ∧
    (f.vote_count > 1000 → ¬ u.vote_count > 1000 →
      ((scoreMovie today f).score < (scoreMovie today u).score ↔ p < 48500 / 11)) := by
  have key := scoreMovie_upcoming_vs_fresh today u f p hu hf hpu hpf
  refine ⟨key, ?_, ?_, ?_⟩
  · intro hp
    rw [key]
    split_ifs <;> linarith
  · intro hv
    rw [key]
    by_cases h1 : u.vote_count > 1000
    · rw [if_pos h1, if_pos (hv.mp h1)]
      constructor <;> intro h <;> linarith
    · rw [if_neg h1, if_neg (fun h2 => h1 (hv.mpr h2))]
      constructor <;> intro h <;> linarith
  · intro h1 h2
    rw [key, if_pos h1, if_neg h2]
    constructor <;> intro h <;> linarith

/-- Witness of claim C3 (amended): at popularity 100 the upcoming entry with 200
votes scores above the fresh entry with 5000 votes. -/
theorem upcoming_above_fresh_iff_witness :
    (scoreMovie 0 freshVoted).score < (scoreMovie 0 upcomingMild).score :=
  (upcoming_above_fresh_iff 0 upcomingMild freshVoted 100
    (by norm_num [daysDiffOf, upcomingMild]) (by norm_num [daysDiffOf, freshVoted])
    rfl rfl).2.1 (by norm_num)

/-- Claim C4: for every pair of records whose ratings lie in `0..10`, with the
vibe vectors that `extractVibes` produces for them,
`calculateComprehensiveSimilarityScore` lies in the closed interval `[0, 1]`. -/
theorem similarity_score_in_unit_interval (toLowerCase : JsString → JsString) (A B : MovieRecord)
    (hA : ∀ r, A.rating = some r → 0 ≤ r ∧ r ≤ 10)
    (hB : ∀ r, B.rating = some r → 0 ≤ r ∧ r ≤ 10) :
    0 ≤ calculateComprehensiveSimilarityScore toLowerCase A B
        (extractVibes toLowerCase A) (extractVibes toLowerCase B) ∧
      calculateComprehensiveSimilarityScore toLowerCase A B
        (extractVibes toLowerCase A) (extractVibes toLowerCase B) ≤ 1 :=
  score_bounds A B _ _ hA hB (extractVibes_values A) (extractVibes_values B)

/-- Witness of claim C4: the record Alpha against itself. -/
theorem similarity_score_in_unit_interval_witness :
    0 ≤ calculateComprehensiveSimilarityScore asciiLowerCase alpha alpha
        (extractVibes asciiLowerCase alpha) (extractVibes asciiLowerCase alpha) ∧
      calculateComprehensiveSimilarityScore asciiLowerCase alpha alpha
        (extractVibes asciiLowerCase alpha) (extractVibes asciiLowerCase alpha) ≤ 1 :=
  similarity_score_in_unit_interval asciiLowerCase alpha alpha
    (by intro r h; simp only [alpha, Option.some.injEq] at h; subst h; norm_num)
    (by intro r h; simp only [alpha, Option.some.injEq] at h; subst h; norm_num)

/-- Claim C5 fails on the code: `matchImageToMovie` reads only `type` and
`limit` from its options, so with `excludeId = 42` it still returns catalog
id 42 as `identifiedMovie`. -/
theorem excluded_id_is_returned :
    ((matchImageToMovie soloEnv [7] { type := none, limit := none, excludeId := some 42 }
        ).identifiedMovie.map ImageMatch.id) = some 42 := by
  obtain ⟨e, rest, ht, hid, hs, _⟩ := identical_poster_first soloEnv [7]
    { type := none, limit := none, excludeId := some 42 } [] [] (posterEntry 42)
    "/poster.jpg" [7] demoColor demoHash demo_features demoHash_ne rfl (by decide) rfl
    (by decide) rfl demo_features (by simp) (by simp)
  rw [(identified_of_top _ _ _ e rest ht hs).2.2]
  simpa using hid

/-- Claim C6: for every 64-character binary hash `h`, the hash similarity
`max(0, 100 - hammingDistance * 1.5625)` of `h` with itself is exactly 100 and
that of `h` with all its bits flipped is exactly 0. -/
theorem hash_similarity_extremes (h : JsString) (hlen : h.length = 64)
    (_hbits : ∀ c ∈ h, c = '0' ∨ c = '1') :
    hashSimilarityOf (hammingDistance (some h) (some h)) = 100 ∧
    hashSimilarityOf (hammingDistance (some h) (some (flipBits h))) = 0 := by
  have hne : h ≠ [] := by
    intro he; rw [he] at hlen; simp at hlen
  rw [hamming_self h hne, hamming_flip h hne, hlen]
  constructor <;> norm_num [hashSimilarityOf]

/-- Witness of claim C6: the hash of 64 zero bits. -/
theorem hash_similarity_extremes_witness :
    hashSimilarityOf (hammingDistance (some (List.replicate 64 '0'))
        (some (List.replicate 64 '0'))) = 100 ∧
    hashSimilarityOf (hammingDistance (some (List.replicate 64 '0'))
        (some (flipBits (List.replicate 64 '0')))) = 0 :=
  hash_similarity_extremes (List.replicate 64 '0') (by simp)
    (by intro c hc; left; exact List.eq_of_mem_replicate hc)

/-- Claim C7, as stated, fails when two pool entries share the poster: ids 41
and 42 both have the fingerprint of the query, and the earlier one, 41, is
the `identifiedMovie`, not 42. -/
theorem identical_poster_not_first_on_tie :
    (posterEntry 42 ∈ ([posterEntry 41, posterEntry 42] : List CatalogMovie).take 15) ∧
    (∃ p pb, (posterEntry 42).poster_path = some p ∧
      tieEnv.downloadPoster p (posterEntry 42).id = some pb ∧
      extractImageFeatures tieEnv.lib pb = extractImageFeatures tieEnv.lib [7]) ∧
    ((matchImageToMovie tieEnv [7] { type := none, limit := some 20, excludeId := none }
        ).identifiedMovie.map ImageMatch.id) = some 41 := by
  refine ⟨by simp, ⟨"/poster.jpg", [7], rfl, rfl, rfl⟩, ?_⟩
  obtain ⟨e, rest, ht, hid, hs, _⟩ := identical_poster_first tieEnv [7]
    { type := none, limit := some 20, excludeId := none } [] [posterEntry 42] (posterEntry 41)
    "/poster.jpg" [7] demoColor demoHash demo_features demoHash_ne rfl (by decide) rfl
    (by decide) rfl demo_features (by simp) (by simp)
  rw [(identified_of_top _ _ _ e rest ht hs).2.2]
  simpa using hid

/-- Claim C7 (amended): if a candidate `m` among the first 15 pool entries has
a poster whose fingerprint (a non-empty hash and a dominant colour) equals
that of the query image, no earlier pool entry reaches the combined score 100,
and `limit >= 1`, then the combined score of `m` is 100, `m` is the
`identifiedMovie`, `identified = true` and `confidence = high`. -/
theorem identical_poster_is_identified (env : ImageEnv) (buf : Buffer) (o : MatchOptions)
    (pre post : List CatalogMovie) (m : CatalogMovie) (p : String) (pb : Buffer)
    (col : ColorHistogram) (h : JsString)
    (hq : extractImageFeatures env.lib buf = ⟨some col, some h⟩) (hne : h ≠ [])
    (hdisc : env.discover (discoverEndpoint (o.type.getD "movie")) = .ok (pre ++ m :: post))
    (hlen : pre.length < 15)
    (hpath : m.poster_path = some p) (hp : p ≠ "")
    (hdl : env.downloadPoster p m.id = some pb)
    (hposter : extractImageFeatures env.lib pb = ⟨some col, some h⟩)
    (hfirst : ∀ x ∈ pre, ∀ e,
      processCandidate env (extractImageFeatures env.lib buf) (o.type.getD "movie") x = some e →
        e.matchScore ≠ 100)
    (hlimit : ∀ L, o.limit = some L → 1 ≤ L) :
    ∃ e, processCandidate env (extractImageFeatures env.lib buf) (o.type.getD "movie") m
          = some e ∧
      e.id = m.id ∧ e.matchScore = 100 ∧
      (matchImageToMovie env buf o).identifiedMovie = some e ∧
      (matchImageToMovie env buf o).identified = true ∧
      (matchImageToMovie env buf o).confidence = Confidence.high := by
  obtain ⟨e, rest, ht, hid, hs, hpc⟩ := identical_poster_first env buf o pre post m p pb col h
    hq hne hdisc hlen hpath hp hdl hposter hfirst hlimit
  have hr := identified_of_top env buf o e rest ht hs
  exact ⟨e, hpc, hid, hs, hr.2.2, hr.1, hr.2.1⟩

/-- Witness of claim C7 (amended): catalog id 42, listed after an entry
without a poster. -/
theorem identical_poster_is_identified_witness :
    ∃ e, processCandidate mixedEnv (extractImageFeatures mixedEnv.lib [7]) "movie"
          (posterEntry 42) = some e ∧
      e.id = 42 ∧ e.matchScore = 100 ∧
      (matchImageToMovie mixedEnv [7] { type := none, limit := some 1, excludeId := none }
        ).identifiedMovie = some e ∧
      (matchImageToMovie mixedEnv [7] { type := none, limit := some 1, excludeId := none }
        ).identified = true ∧
      (matchImageToMovie mixedEnv [7] { type := none, limit := some 1, excludeId := none }
        ).confidence = Confidence.high :=
  identical_poster_is_identified mixedEnv [7]
    { type := none, limit := some 1, excludeId := none }
    [{ posterEntry 41 with poster_path := none }] [] (posterEntry 42)
    "/poster.jpg" [7] demoColor demoHash demo_features demoHash_ne rfl (by decide) rfl
    (by decide) rfl demo_features
    (by
      intro x hx e he
      rw [List.mem_singleton] at hx
      subst hx
      simp [processCandidate] at he)
    (by intro L hL; simp only [Option.some.injEq] at hL; omega)

/-- Claim C8: `matchImageToMovie` sets `identified = true` exactly when the
ranked list is non-empty and its top `matchScore` exceeds 65; then
`identifiedMovie` is the top entry, `confidence` is `high` if that score
exceeds 80 and `medium` otherwise, and `alternativeResults` is the rest; when
the list is empty or its top score is at most 65, `identified = false`,
`confidence = low`, `identifiedMovie` is null and `alternativeResults` is the
whole ranked list. -/
theorem identification_threshold (env : ImageEnv) (buf : Buffer) (o : MatchOptions) :
    ((matchImageToMovie env buf o).identified = true ↔
      ∃ top rest, rankedList env buf o = top :: rest ∧ 65 < top.matchScore) ∧
    (∀ top rest, rankedList env buf o = top :: rest → 65 < top.matchScore →
      (matchImageToMovie env buf o).identifiedMovie = some top ∧
      (matchImageToMovie env buf o).confidence
        = (if 80 < top.matchScore then Confidence.high else Confidence.medium) ∧
      (matchImageToMovie env buf o).alternativeResults = rest) ∧
    ((∀ top rest, rankedList env buf o = top :: rest → top.matchScore ≤ 65) →
      (matchImageToMovie env buf o).identified = false ∧
      (matchImageToMovie env buf o).confidence = Confidence.low ∧
      (matchImageToMovie env buf o).identifiedMovie = none ∧
      (matchImageToMovie env buf o).alternativeResults = rankedList env buf o) := by
  unfold matchImageToMovie rankedList
  cases h : topMatches env buf o with
  | error msg => simp
  | ok l =>
    cases l with
    | nil => simp
    | cons t r =>
      by_cases h65 : 65 < t.matchScore
      · simp [h65]
      · simp [h65, not_lt.mp h65]

/-- Claim C9: whenever `searchByDescription` returns a list, whatever the
catalog answers and the description, the list is sorted non-increasing by
`matchScore`. -/
theorem search_results_sorted {σ : Type} (env : SearchEnv σ) (description : JsString)
    (options : SearchOptions) (s s1 : σ) (l : List SearchResult)
    (h : searchByDescription env description options s = (.ok l, s1)) :
    l.Pairwise fun a b => b.matchScore ≤ a.matchScore := by
  unfold searchByDescription at h
  simp only at h
  split at h
  · injection h with h1 h2
    injection h1 with h1
    rw [← h1]
    exact rankResults_pairwise _ _ _ _ _
  · injection h with h1 h2
    cases h1

/-- Witness of claim C9: the toy catalog answers every call, the search for
"dark city" returns a list after two waits of 300 ms, and that list is
sorted. -/
theorem search_results_sorted_witness :
    ∃ l, searchByDescription demoSearchEnv "dark city".toList
          { limit := none, type := none } [] = (.ok l, [300, 300]) ∧
      l.Pairwise fun a b => b.matchScore ≤ a.matchScore :=
  ⟨_, rfl, search_results_sorted demoSearchEnv "dark city".toList
    { limit := none, type := none } [] [300, 300] _ rfl⟩

/-- Claim C10: for every query image and candidate pool, `identifiedMovie`
(when present) followed by `alternativeResults` is sorted non-increasing by
`matchScore`. -/
theorem image_results_sorted (env : ImageEnv) (buf : Buffer) (o : MatchOptions) :
    ((matchImageToMovie env buf o).identifiedMovie.toList
        ++ (matchImageToMovie env buf o).alternativeResults).Pairwise
      fun a b => b.matchScore ≤ a.matchScore := by
  rw [result_concat]
  cases h : topMatches env buf o with
  | error e => simp
  | ok l => exact topMatches_pairwise env buf o l h

/-- Claim C11, as stated, fails: on a catalog whose genre discovery always
fails while keyword search and the top-rated listing answer, the search for
"dark city" raises the genre error after the waits of 1000 and 2000 ms and
returns no results. -/
theorem genre_failure_fails_search :
    (∀ s, (keywordPool genreDownEnv "movie" ["dark".toList, "city".toList] s).1
        = .ok [posterEntry 42, posterEntry 7]) ∧
    (∀ s, (fallbackPool genreDownEnv "movie" ⟨none, none, none⟩ s).1
        = .ok [posterEntry 42, posterEntry 7]) ∧
    searchByDescription genreDownEnv "dark city".toList { limit := none, type := none } []
      = (.error "genre discovery unavailable", [1000, 2000]) := by
  refine ⟨fun s => rfl, fun s => rfl, rfl⟩

/-- Claim C11 (amended): `searchByDescription` raises the error of the first
pool whose catalog call fails after its retries, whatever the other pools
would answer: the genre pool; else the keyword pool; else, when the first two
lists hold fewer than 10 entries, the top-rated fallback. It returns results
only when every pool it attempts succeeds. -/
theorem pool_failure_propagates {σ : Type} (env : SearchEnv σ) (description : JsString)
    (options : SearchOptions) (s : σ) :
    (∀ e s1,
      genrePool env (options.type.getD "movie") (mapDescriptionToGenres env.toLowerCase description)
        (extractYearRange env.currentYear description) s = (.error e, s1) →
      searchByDescription env description options s = (.error e, s1)) ∧
    (∀ r1 s1 e s2,
      genrePool env (options.type.getD "movie") (mapDescriptionToGenres env.toLowerCase description)
        (extractYearRange env.currentYear description) s = (.ok r1, s1) →
      keywordPool env (options.type.getD "movie")
        (extractKeywordsWithTFIDF env.toLowerCase env.listTerms description) s1 = (.error e, s2) →
      searchByDescription env description options s = (.error e, s2)) ∧
    (∀ r1 s1 r2 s2 e s3,
      genrePool env (options.type.getD "movie") (mapDescriptionToGenres env.toLowerCase description)
        (extractYearRange env.currentYear description) s = (.ok r1, s1) →
      keywordPool env (options.type.getD "movie")
        (extractKeywordsWithTFIDF env.toLowerCase env.listTerms description) s1 = (.ok r2, s2) →
      (r1 ++ r2).length < 10 →
      fallbackPool env (options.type.getD "movie")
        (extractYearRange env.currentYear description) s2 = (.error e, s3) →
      searchByDescription env description options s = (.error e, s3)) := by
  refine ⟨?_, ?_, ?_⟩
  · intro e s1 h
    exact search_of_gather_error env description options s s1 e
      (gatherPools_genre_error env _ _ _ _ s s1 e h)
  · intro r1 s1 e s2 h1 h2
    exact search_of_gather_error env description options s s2 e
      (gatherPools_keyword_error env _ _ _ _ s s1 s2 r1 e h1 h2)
  · intro r1 s1 r2 s2 e s3 h1 h2 hlt h3
    exact search_of_gather_error env description options s s3 e
      (gatherPools_fallback_error env _ _ _ _ s s1 s2 s3 r1 r2 e h1 h2 hlt h3)

/-- Witness of claim C11 (amended): the keyword search fails after the genre
discovery succeeded, and the search raises its error. -/
theorem pool_failure_propagates_witness :
    searchByDescription searchDownEnv "dark city".toList { limit := none, type := none } []
      = (.error "search unavailable", [300, 1000, 2000]) :=
  (pool_failure_propagates searchDownEnv "dark city".toList { limit := none, type := none } []).2.1
    [posterEntry 42, posterEntry 7] [] "search unavailable" [300, 1000, 2000] rfl rfl

/-- Claim C12, as stated, fails: the genre and keyword pools return the same
five entries, ten in all with five distinct ids, and the top-rated fallback
is not queried. -/
theorem fallback_skipped_with_five_distinct_ids :
    (genrePool (loggedEnv sameFiveEnv) "movie"
      (mapDescriptionToGenres asciiLowerCase "dark city".toList)
        (extractYearRange 2024 "dark city".toList) ([], ())).1 = .ok fiveEntries ∧
    (∀ st, (keywordPool (loggedEnv sameFiveEnv) "movie"
        ["dark".toList, "city".toList] st).1 = .ok fiveEntries) ∧
    (((fiveEntries ++ fiveEntries).map CatalogMovie.id).eraseDups.length = 5) ∧
    fallbackRequest "movie" (extractYearRange 2024 "dark city".toList) ∉
      (searchByDescription (loggedEnv sameFiveEnv) "dark city".toList
        { limit := none, type := none } ([], ())).2.1 := by
  refine ⟨rfl, fun st => rfl, by decide, by decide⟩

/-- Claim C12 (amended): when the genre-discovery and keyword-search pools
succeed, `searchByDescription` queries the top-rated fallback exactly when
their two result lists together hold fewer than 10 entries, an entry listed
twice counting twice; the fallback request carries the derived date
constraint. -/
theorem fallback_queried_iff_raw_count_below_ten {τ : Type} (env : SearchEnv τ) (description : JsString)
    (options : SearchOptions) (s : τ)
    (r1 r2 : List CatalogMovie) (st1 st2 : List CatalogRequest × τ)
    (h1 : genrePool (loggedEnv env) (options.type.getD "movie")
      (mapDescriptionToGenres env.toLowerCase description) (extractYearRange env.currentYear description)
      ([], s) = (.ok r1, st1))
    (h2 : keywordPool (loggedEnv env) (options.type.getD "movie")
      (extractKeywordsWithTFIDF env.toLowerCase env.listTerms description) st1 = (.ok r2, st2)) :
    (fallbackRequest (options.type.getD "movie") (extractYearRange env.currentYear description)
        ∈ (searchByDescription (loggedEnv env) description options ([], s)).2.1 ↔
      (r1 ++ r2).length < 10) ∧
    (fallbackRequest (options.type.getD "movie")
      (extractYearRange env.currentYear description)).yearFilters
        = extractYearRange env.currentYear description := by
  refine ⟨?_, rfl⟩
  rw [search_state]
  exact gather_fallback_logged_iff env _ _ _ _ s r1 r2 st1 st2 h1 h2

/-- Witness of claim C12 (amended): two pools of one entry each, and the
fallback is queried. -/
theorem fallback_queried_iff_raw_count_below_ten_witness :
    fallbackRequest "movie" (extractYearRange 2024 "dark city".toList)
        ∈ (searchByDescription (loggedEnv fewEnv) "dark city".toList
            { limit := none, type := none } ([], ())).2.1 :=
  ((fallback_queried_iff_raw_count_below_ten fewEnv "dark city".toList { limit := none, type := none } ()
    [posterEntry 1] [posterEntry 1] _ _ rfl rfl).1).mpr (by decide)

/-- Claim C13: every entry `r` of the list `searchByDescription` returns comes
from a candidate `movie` of the pool, and its `matchScore` is 2 for each
extracted term that is a substring of the text `title overview` (the title
falling back on the name) as the engine lowercases it, plus 3 for each mapped
genre id among the `genre_ids` of the candidate, plus `popularity / 100` plus
`vote_average / 2`, a missing popularity or rating counting as 0. -/
theorem match_score_formula {σ : Type} (env : SearchEnv σ) (description : JsString)
    (options : SearchOptions) (s s1 : σ) (l : List SearchResult) (r : SearchResult)
    (h : searchByDescription env description options s = (.ok l, s1)) (hr : r ∈ l) :
    ∃ all movie,
      gatherPools env (options.type.getD "movie")
        (extractKeywordsWithTFIDF env.toLowerCase env.listTerms description)
        (mapDescriptionToGenres env.toLowerCase description)
        (extractYearRange env.currentYear description) s = (.ok all, s1) ∧
      movie ∈ all ∧ r.id = movie.id ∧
      r.matchScore
        = 2 * (((extractKeywordsWithTFIDF env.toLowerCase env.listTerms description).countP
              fun k => includes
                (env.toLowerCase (interpolate (strOr movie.title movie.name) ++ [' '] ++
                  interpolate movie.overview)) k : ℕ) : ℚ)
          + 3 * (((mapDescriptionToGenres env.toLowerCase description).countP
              fun g => (movie.genre_ids.getD []).contains g : ℕ) : ℚ)
          + movie.popularity.getD 0 / 100 + movie.vote_average.getD 0 / 2 := by
  obtain ⟨all, hg, hl⟩ := search_ok_inv env description options s s1 l h
  rw [hl] at hr
  obtain ⟨movie, hm, rfl⟩ := rankResults_origin _ _ _ _ all r hr
  exact ⟨all, movie, hg, uniqueLoop_subset all movie hm, rfl, scoreCandidate_matchScore _ _ _ movie⟩

/-- Witness of claim C13: the search for "Dark City" on a catalog whose only
title is "Dark City" returns one entry; both extracted terms, `dark` and
`city`, are found in the lowercased text, so its score is
`2 * 2 + 3 * 0 + 10 / 100 + 8 / 2`. -/
theorem match_score_formula_witness :
    ∃ l r, searchByDescription titleCaseEnv "Dark City".toList
        { limit := none, type := none } () = (.ok l, ()) ∧ r ∈ l ∧
      r.title = some "Dark City".toList ∧
      r.matchScore = 2 * 2 + 3 * 0 + 10 / 100 + 8 / 2 := by
  have hsearch : ∃ l, searchByDescription titleCaseEnv "Dark City".toList
      { limit := none, type := none } () = (.ok l, ()) := ⟨_, rfl⟩
  obtain ⟨l, hl⟩ := hsearch
  have hids : l.map SearchResult.title = [some "Dark City".toList] := by
    have h2 : (searchByDescription titleCaseEnv "Dark City".toList
        { limit := none, type := none } ()).1.toOption.map (List.map SearchResult.title)
        = some [some "Dark City".toList] := by decide
    rw [hl] at h2
    simpa [Except.toOption] using h2
  obtain ⟨r, hr, htitle⟩ : ∃ r ∈ l, r.title = some "Dark City".toList := by
    cases l with
    | nil => simp at hids
    | cons r t =>
      simp only [List.map_cons, List.cons.injEq] at hids
      exact ⟨r, List.mem_cons_self _ _, hids.1⟩
  obtain ⟨all, movie, hg, hm, _, hs⟩ :=
    match_score_formula titleCaseEnv "Dark City".toList { limit := none, type := none } () ()
      l r hl hr
  have hall : all = [darkCityEntry, darkCityEntry, darkCityEntry] := by
    have h3 : gatherPools titleCaseEnv "movie"
        (extractKeywordsWithTFIDF asciiLowerCase titleCaseEnv.listTerms "Dark City".toList)
        (mapDescriptionToGenres asciiLowerCase "Dark City".toList)
        (extractYearRange 2024 "Dark City".toList) ()
        = (.ok [darkCityEntry, darkCityEntry, darkCityEntry], ()) := rfl
    have h4 := hg.symm.trans h3
    injection h4 with h5 _
    injection h5
  rw [hall] at hm
  have hmovie : movie = darkCityEntry := by
    simp only [List.mem_cons, List.mem_singleton, List.not_mem_nil, or_false, or_self] at hm
    exact hm
  subst hmovie
  refine ⟨l, r, hl, hr, htitle, ?_⟩
  rw [hs]
  have hk : (extractKeywordsWithTFIDF titleCaseEnv.toLowerCase titleCaseEnv.listTerms
      "Dark City".toList).countP (fun k => includes
        (titleCaseEnv.toLowerCase (interpolate (strOr darkCityEntry.title darkCityEntry.name)
          ++ [' '] ++ interpolate darkCityEntry.overview)) k) = 2 := by decide
  have hgc : (mapDescriptionToGenres titleCaseEnv.toLowerCase "Dark City".toList).countP
      (fun g => (darkCityEntry.genre_ids.getD []).contains g) = 0 := by decide
  rw [hk, hgc]
  have hp : darkCityEntry.popularity.getD 0 = 10 := rfl
  have hv : darkCityEntry.vote_average.getD 0 = 8 := rfl
  rw [hp, hv]
  norm_num

/-- Claim C14, as stated, fails: when the first pool entry with id 1 has no
overview and the second one has, the entry kept for id 1 is the second
occurrence. -/
theorem first_occurrence_without_overview_dropped :
    ∃ l, searchByDescription sparseFirstEnv "dark city".toList
        { limit := some 20, type := none } () = (.ok l, ()) ∧
      l.map (fun r => (r.id, r.title)) = [(1, some "Second".toList)] := by
  refine ⟨_, rfl, ?_⟩
  decide

/-- Claim C14 (amended): for every non-negative integer `limit`, the list
`searchByDescription` returns has at most `limit` entries, no two of them
share a catalog id, none has an empty or missing overview, and each comes
from the first pool entry of its id that has an overview. -/
theorem search_results_limit_unique_overview {σ : Type} (env : SearchEnv σ) (description : JsString) (limit : ℤ)
    (type : Option String) (s s1 : σ) (l : List SearchResult) (hlimit : 0 ≤ limit)
    (h : searchByDescription env description { limit := some limit, type := type } s
      = (.ok l, s1)) :
    (l.length : ℤ) ≤ limit ∧
    (l.map SearchResult.id).Nodup ∧
    (∀ r ∈ l, r.overview ≠ none ∧ r.overview ≠ some []) ∧
    ∃ all, gatherPools env (type.getD "movie")
        (extractKeywordsWithTFIDF env.toLowerCase env.listTerms description)
        (mapDescriptionToGenres env.toLowerCase description)
        (extractYearRange env.currentYear description) s = (.ok all, s1) ∧
      ∀ r ∈ l, ∃ pre movie post, all = pre ++ movie :: post ∧
        r = scoreCandidate env.toLowerCase
          (extractKeywordsWithTFIDF env.toLowerCase env.listTerms description)
          (mapDescriptionToGenres env.toLowerCase description) (type.getD "movie") movie ∧
        ∀ x ∈ pre, x.id = movie.id → hasOverview x = false := by
  obtain ⟨all, hg, hl⟩ := search_ok_inv env description _ s s1 l h
  simp only [Option.getD_some] at hl hg
  have hinv := uniqueLoop_inv all
  have horigin : ∀ r ∈ l, ∃ movie ∈ (uniqueLoop all).2,
      r = scoreCandidate env.toLowerCase
          (extractKeywordsWithTFIDF env.toLowerCase env.listTerms description)
          (mapDescriptionToGenres env.toLowerCase description) (type.getD "movie") movie := by
    intro r hr
    rw [hl] at hr
    exact rankResults_origin _ _ _ _ all r hr
  refine ⟨?_, ?_, ?_, all, hg, ?_⟩
  · rw [hl]; unfold rankResults; exact slice0_length_le _ _ hlimit
  · rw [hl]; exact rankResults_ids_nodup _ _ _ _ all
  · intro r hr
    obtain ⟨movie, hm, rfl⟩ := horigin r hr
    have ho := (hinv.2.2.1 movie hm).1
    simp only [hasOverview, Bool.and_eq_true, bne_iff_ne, ne_eq] at ho
    exact ho
  · intro r hr
    obtain ⟨movie, hm, rfl⟩ := horigin r hr
    obtain ⟨_, pre, post, hp, hfirst⟩ := hinv.2.2.1 movie hm
    exact ⟨pre, movie, post, hp, rfl, hfirst⟩

/-- Witness of claim C14 (amended): the search for "dark city" with limit 2
on the toy catalog. -/
theorem search_results_limit_unique_overview_witness :
    ∃ l, searchByDescription demoSearchEnv "dark city".toList
        { limit := some 2, type := none } [] = (.ok l, [300, 300]) ∧
      (l.length : ℤ) ≤ 2 ∧ (l.map SearchResult.id).Nodup :=
  ⟨_, rfl,
    (search_results_limit_unique_overview demoSearchEnv "dark city".toList 2 none [] [300, 300] _ (by norm_num) rfl).1,
    (search_results_limit_unique_overview demoSearchEnv "dark city".toList 2 none [] [300, 300] _ (by norm_num) rfl).2.1⟩

/-- Claim C15: for every description, whatever the case mapping of the
engine, `mapDescriptionToGenres` returns, without duplicates, exactly the genre
ids listed by the entries of `MOOD_TO_GENRES` and `KEYWORD_HINTS` whose trigger
phrase is a substring of the description as the engine lowercases it, and
nothing when no trigger phrase is one. A description that the engine
lowercases to "dark rainy cyberpunk city" yields the ids of `dark` (27, 53,
80) and of `cyberpunk` (878, 28, 53), and one that it lowercases to "dark"
yields 27, 53, 80; on ASCII text, "dark rainy cyberpunk city" and "Dark Rainy
CYBERPUNK City" both yield 27, 53, 80, 878, 28, and "DARK" yields what "dark"
does, while a mapper that did not lowercase would find nothing in "DARK". -/
theorem genre_mapping_is_union (toLowerCase : JsString → JsString) :
    (∀ description : JsString,
      (mapDescriptionToGenres toLowerCase description).Nodup ∧
      (∀ g, g ∈ mapDescriptionToGenres toLowerCase description ↔
        ∃ e ∈ MOOD_TO_GENRES ++ KEYWORD_HINTS,
          e.1.toList <:+: toLowerCase description ∧ g ∈ e.2) ∧
      ((∀ e ∈ MOOD_TO_GENRES ++ KEYWORD_HINTS, ¬ e.1.toList <:+: toLowerCase description) →
        mapDescriptionToGenres toLowerCase description = [])) ∧
    (∀ description : JsString,
      toLowerCase description = "dark rainy cyberpunk city".toList →
      mapDescriptionToGenres toLowerCase description = [27, 53, 80, 878, 28] ∧
      (∀ g ∈ ([27, 53, 80] : List ℤ), g ∈ mapDescriptionToGenres toLowerCase description) ∧
      (∀ g ∈ ([878, 28, 53] : List ℤ), g ∈ mapDescriptionToGenres toLowerCase description)) ∧
    (∀ description : JsString, toLowerCase description = "dark".toList →
      mapDescriptionToGenres toLowerCase description = [27, 53, 80]) ∧
    mapDescriptionToGenres asciiLowerCase "dark rainy cyberpunk city".toList
      = [27, 53, 80, 878, 28] ∧
    mapDescriptionToGenres asciiLowerCase "Dark Rainy CYBERPUNK City".toList
      = [27, 53, 80, 878, 28] ∧
    mapDescriptionToGenres asciiLowerCase "DARK".toList = [27, 53, 80] ∧
    mapDescriptionToGenres id "DARK".toList = [] := by
  refine ⟨?_, ?_, ?_, by decide, by decide, by decide, by decide⟩
  · intro description
    have hmem : ∀ g, g ∈ mapDescriptionToGenres toLowerCase description ↔
        ∃ e ∈ MOOD_TO_GENRES ++ KEYWORD_HINTS,
          e.1.toList <:+: toLowerCase description ∧ g ∈ e.2 := by
      intro g
      unfold mapDescriptionToGenres
      simp only [mem_addTableGenres, List.not_mem_nil, false_or, List.mem_append,
        includes_iff_infix]
      constructor
      · rintro (⟨e, he, h⟩ | ⟨e, he, h⟩)
        · exact ⟨e, Or.inl he, h⟩
        · exact ⟨e, Or.inr he, h⟩
      · rintro ⟨e, he | he, h⟩
        · exact Or.inl ⟨e, he, h⟩
        · exact Or.inr ⟨e, he, h⟩
    refine ⟨nodup_addTableGenres _ _ _ (nodup_addTableGenres _ _ _ List.nodup_nil), hmem, ?_⟩
    intro hnone
    apply List.eq_nil_iff_forall_not_mem.mpr
    intro g hg
    obtain ⟨e, he, hinf, _⟩ := (hmem g).mp hg
    exact hnone e he hinf
  · intro description h
    have hval : mapDescriptionToGenres toLowerCase description = [27, 53, 80, 878, 28] := by
      unfold mapDescriptionToGenres
      simp only [h]
      decide
    rw [hval]
    exact ⟨rfl, by decide, by decide⟩
  · intro description h
    unfold mapDescriptionToGenres
    simp only [h]
    decide

/-- Claim C16: `extractYearRange` derives one date constraint, by the first
pattern that matches in the order: a standalone year 1900-2099 (exact year),
80s/eighties, 90s/nineties, 2000s (the decade range), classic/old/vintage
(upper bound 1990-12-31), recent/new/latest/modern (lower bound January 1 of
the current year minus 3); a standalone year wins over every word, and a
description matching no pattern gives the empty constraint. -/
theorem year_range_priority (currentYear : ℕ) (description : JsString) :
    ((∃ y, YearOccurs description y) →
      ∃ y, YearOccurs description y ∧ 1900 ≤ y ∧ y ≤ 2099 ∧
        extractYearRange currentYear description = ⟨some y, none, none⟩) ∧
    ((¬ ∃ y, YearOccurs description y) →
      (AnyWordOccurs ["80s", "eighties"] description →
        extractYearRange currentYear description
          = ⟨none, some "1980-01-01", some "1989-12-31"⟩) ∧
      (¬ AnyWordOccurs ["80s", "eighties"] description →
        (AnyWordOccurs ["90s", "nineties"] description →
          extractYearRange currentYear description
            = ⟨none, some "1990-01-01", some "1999-12-31"⟩) ∧
        (¬ AnyWordOccurs ["90s", "nineties"] description →
          (AnyWordOccurs ["2000s"] description →
            extractYearRange currentYear description
              = ⟨none, some "2000-01-01", some "2009-12-31"⟩) ∧
          (¬ AnyWordOccurs ["2000s"] description →
            (AnyWordOccurs ["classic", "old", "vintage"] description →
              extractYearRange currentYear description = ⟨none, none, some "1990-12-31"⟩) ∧
            (¬ AnyWordOccurs ["classic", "old", "vintage"] description →
              (AnyWordOccurs ["recent", "new", "latest", "modern"] description →
                extractYearRange currentYear description
                  = ⟨none, some (toString (currentYear - 3) ++ "-01-01"), none⟩) ∧
              (¬ AnyWordOccurs ["recent", "new", "latest", "modern"] description →
                extractYearRange currentYear description = ⟨none, none, none⟩)))))) := by
  constructor
  · rintro ⟨y, hy⟩
    cases hf : findYear none description with
    | none =>
      exact absurd ((yearOccurs_iff description y).mp hy) (findYear_none none description hf y)
    | some y2 =>
      have hocc := (yearOccurs_iff description y2).mpr (findYear_some none description y2 hf)
      have hr := yearOccurs_range description y2 hocc
      refine ⟨y2, hocc, hr.1, hr.2, ?_⟩
      unfold extractYearRange
      rw [hf]
  · intro hno
    have hf : findYear none description = none := by
      cases hf : findYear none description with
      | none => rfl
      | some y2 =>
        exact absurd ⟨y2, (yearOccurs_iff description y2).mpr
          (findYear_some none description y2 hf)⟩ hno
    unfold extractYearRange
    rw [hf]
    simp only [← matchesWords_iff]
    refine ⟨fun h => by simp [h], fun h80 => ⟨fun h => by simp [h80, h], fun h90 =>
      ⟨fun h => by simp [h80, h90, h], fun h00 => ⟨fun h => by simp [h80, h90, h00, h],
        fun hcl => ⟨fun h => by simp [h80, h90, h00, hcl, h],
          fun hre => by simp [h80, h90, h00, hcl, hre]⟩⟩⟩⟩⟩

/-- Claim C17: every entry of the output of `matchVideoToMovie` has
`frameMatches` equal to the number of its appearances in the frame results
and `matchScore` equal to the sum of its full score where it is the
`identifiedMovie` and of half its score where it is among the
`alternativeResults`, divided by that number. -/
theorem video_score_is_mean (frameResults : List MatchResult) (n : ℕ) (e : VideoMatch)
    (he : e ∈ (aggregateFrames frameResults n).identifiedMovie.toList
        ++ (aggregateFrames frameResults n).alternativeResults) :
    e.frameMatches = (contributionsOf e.id frameResults).length ∧
    e.matchScore = (contributionsOf e.id frameResults).sum / (e.frameMatches : ℚ) ∧
    0 < e.frameMatches :=
  aggregated_entry frameResults e (video_output_subset frameResults n e he)

/-- Witness of claim C17: the identified entry of a single frame result. -/
theorem video_score_is_mean_witness :
    ∃ e, e ∈ (aggregateFrames [crowdedFrame] 1).identifiedMovie.toList
          ++ (aggregateFrames [crowdedFrame] 1).alternativeResults ∧
      e.frameMatches = (contributionsOf e.id [crowdedFrame]).length ∧
      e.matchScore = (contributionsOf e.id [crowdedFrame]).sum / (e.frameMatches : ℚ) ∧
      0 < e.frameMatches := by
  have hid : (aggregateFrames [crowdedFrame] 1).identified = true := by
    rw [video_identified_iff_exists]
    refine ⟨_, crowded_has_top, ?_⟩
    norm_num [toVideoMatch]
  obtain ⟨top, rest, hagg, h60⟩ := (video_identification_core [crowdedFrame] 1).1.mp hid
  have him := ((video_identification_core [crowdedFrame] 1).2.1 top rest hagg h60).1
  have hmem : top ∈ (aggregateFrames [crowdedFrame] 1).identifiedMovie.toList
          ++ (aggregateFrames [crowdedFrame] 1).alternativeResults := by
    rw [him]; simp
  exact ⟨top, hmem, video_score_is_mean [crowdedFrame] 1 top hmem⟩

/-- Claim C18, as stated, fails: with twelve aggregated entries and the top
one identified, eleven entries follow the top one but `alternativeResults`
holds ten. -/
theorem video_alternatives_capped_at_ten :
    (aggregateFrames [crowdedFrame] 1).identified = true ∧
    ((aggregatedResults [crowdedFrame]).drop 1).length = 11 ∧
    (aggregateFrames [crowdedFrame] 1).alternativeResults.length = 10 := by
  have hid : (aggregateFrames [crowdedFrame] 1).identified = true := by
    rw [video_identified_iff_exists]
    refine ⟨_, crowded_has_top, ?_⟩
    norm_num [toVideoMatch]
  refine ⟨hid, by rw [List.length_drop, crowded_length], ?_⟩
  obtain ⟨top, rest, hagg, h60⟩ := (video_identification_core [crowdedFrame] 1).1.mp hid
  rw [((video_identification_core [crowdedFrame] 1).2.1 top rest hagg h60).2.2.1]
  have hl := crowded_length
  rw [hagg] at hl
  simp only [List.length_cons] at hl
  rw [List.length_take]
  omega

/-- Claim C18 (amended): `matchVideoToMovie` sets `identified = true` exactly
when some entry was aggregated and the highest aggregate score exceeds 60;
then `identifiedMovie` is that highest-scoring entry, `confidence` is `high`
if its score exceeds 75 and `medium` otherwise, and `alternativeResults` is
the next ten entries at most, in non-increasing score order; otherwise
`identified = false`, `confidence = low` and `identifiedMovie` is null. -/
theorem video_identification_threshold (frameResults : List MatchResult) (n : ℕ) :
    ((aggregateFrames frameResults n).identified = true ↔
      ∃ top rest, aggregatedResults frameResults = top :: rest ∧ 60 < top.matchScore) ∧
    (∀ top rest, aggregatedResults frameResults = top :: rest → 60 < top.matchScore →
      (aggregateFrames frameResults n).identifiedMovie = some top ∧
      (aggregateFrames frameResults n).confidence
        = (if 75 < top.matchScore then Confidence.high else Confidence.medium) ∧
      (aggregateFrames frameResults n).alternativeResults = rest.take 10 ∧
      (∀ e ∈ aggregatedResults frameResults, e.matchScore ≤ top.matchScore) ∧
      (rest.take 10).Pairwise fun a b => b.matchScore ≤ a.matchScore) ∧
    ((∀ top rest, aggregatedResults frameResults = top :: rest → top.matchScore ≤ 60) →
      (aggregateFrames frameResults n).identified = false ∧
      (aggregateFrames frameResults n).confidence = Confidence.low ∧
      (aggregateFrames frameResults n).identifiedMovie = none) :=
  video_identification_core frameResults n

/-- Claim C19: for two colours with hue in `[0, 360)` and saturation and value
in `[0, 100]`, `calculateColorSimilarity` is
`100 * (0.5 * (1 - min(dh, 360 - dh) / 180) + 0.3 * (1 - ds / 100) + 0.2 * (1 - dv / 100))`,
lies in `[0, 100]` and is 100 exactly when the two HSV triples are equal. -/
theorem color_similarity_formula (c1 c2 : ColorHistogram)
    (hh1 : 0 ≤ c1.hsv.h ∧ c1.hsv.h < 360) (hh2 : 0 ≤ c2.hsv.h ∧ c2.hsv.h < 360)
    (hs1 : 0 ≤ c1.hsv.s ∧ c1.hsv.s ≤ 100) (hs2 : 0 ≤ c2.hsv.s ∧ c2.hsv.s ≤ 100)
    (hv1 : 0 ≤ c1.hsv.v ∧ c1.hsv.v ≤ 100) (hv2 : 0 ≤ c2.hsv.v ∧ c2.hsv.v ≤ 100) :
    calculateColorSimilarity (some c1) (some c2)
      = 100 * (5 / 10 * (1 - min |c1.hsv.h - c2.hsv.h| (360 - |c1.hsv.h - c2.hsv.h|) / 180)
          + 3 / 10 * (1 - |c1.hsv.s - c2.hsv.s| / 100)
          + 2 / 10 * (1 - |c1.hsv.v - c2.hsv.v| / 100)) ∧
    0 ≤ calculateColorSimilarity (some c1) (some c2) ∧
    calculateColorSimilarity (some c1) (some c2) ≤ 100 ∧
    (calculateColorSimilarity (some c1) (some c2) = 100 ↔ c1.hsv = c2.hsv) := by
  have hval := colorSimilarity_value c1 c2
  have dh0 := abs_nonneg (c1.hsv.h - c2.hsv.h)
  have ds0 := abs_nonneg (c1.hsv.s - c2.hsv.s)
  have dv0 := abs_nonneg (c1.hsv.v - c2.hsv.v)
  have dh360 : |c1.hsv.h - c2.hsv.h| < 360 := by
    rw [abs_lt]; constructor <;> linarith [hh1.1, hh1.2, hh2.1, hh2.2]
  have ds100 : |c1.hsv.s - c2.hsv.s| ≤ 100 := by
    rw [abs_le]; constructor <;> linarith [hs1.1, hs1.2, hs2.1, hs2.2]
  have dv100 : |c1.hsv.v - c2.hsv.v| ≤ 100 := by
    rw [abs_le]; constructor <;> linarith [hv1.1, hv1.2, hv2.1, hv2.2]
  have hm0 : 0 ≤ min |c1.hsv.h - c2.hsv.h| (360 - |c1.hsv.h - c2.hsv.h|) :=
    le_min dh0 (by linarith)
  have hm180 : min |c1.hsv.h - c2.hsv.h| (360 - |c1.hsv.h - c2.hsv.h|) ≤ 180 := by
    rcases le_total |c1.hsv.h - c2.hsv.h| 180 with h | h
    · exact le_trans (min_le_left _ _) h
    · exact le_trans (min_le_right _ _) (by linarith)
  refine ⟨hval, ?_, ?_, ?_⟩
  · rw [hval]; linarith
  · rw [hval]; linarith
  · rw [hval]
    constructor
    · intro h
      have hm : min |c1.hsv.h - c2.hsv.h| (360 - |c1.hsv.h - c2.hsv.h|) = 0 := by linarith
      have hs : |c1.hsv.s - c2.hsv.s| = 0 := by linarith
      have hv : |c1.hsv.v - c2.hsv.v| = 0 := by linarith
      have hh : |c1.hsv.h - c2.hsv.h| = 0 := by
        rcases min_choice |c1.hsv.h - c2.hsv.h| (360 - |c1.hsv.h - c2.hsv.h|) with hc | hc
        · rw [hc] at hm; exact hm
        · rw [hc] at hm; linarith
      have e1 : c1.hsv.h = c2.hsv.h := sub_eq_zero.mp (abs_eq_zero.mp hh)
      have e2 : c1.hsv.s = c2.hsv.s := sub_eq_zero.mp (abs_eq_zero.mp hs)
      have e3 : c1.hsv.v = c2.hsv.v := sub_eq_zero.mp (abs_eq_zero.mp hv)
      cases hc1 : c1.hsv
      cases hc2 : c2.hsv
      rw [hc1, hc2] at e1 e2 e3
      simp only at e1 e2 e3
      rw [e1, e2, e3]
    · intro h
      rw [h]
      simp
      norm_num

/-- Witness of claim C19: pure red against pure green. -/
theorem color_similarity_formula_witness :
    calculateColorSimilarity (some redColor) (some greenColor)
      = 100 * (5 / 10 * (1 - min |redColor.hsv.h - greenColor.hsv.h|
            (360 - |redColor.hsv.h - greenColor.hsv.h|) / 180)
          + 3 / 10 * (1 - |redColor.hsv.s - greenColor.hsv.s| / 100)
          + 2 / 10 * (1 - |redColor.hsv.v - greenColor.hsv.v| / 100)) ∧
    0 ≤ calculateColorSimilarity (some redColor) (some greenColor) ∧
    calculateColorSimilarity (some redColor) (some greenColor) ≤ 100 ∧
    (calculateColorSimilarity (some redColor) (some greenColor) = 100 ↔
      redColor.hsv = greenColor.hsv) :=
  color_similarity_formula redColor greenColor
    (by norm_num [redColor]) (by norm_num [greenColor])
    (by norm_num [redColor]) (by norm_num [greenColor])
    (by norm_num [redColor]) (by norm_num [greenColor])

/-- Claim C20: every entry `matchImageToMovie` returns has
`matchScore = 0.7 * hashSimilarity + 0.3 * colorSimilarity` with
`25 < matchScore <= 100`, and it is the entry of one of the first 15 pool
candidates, so a candidate whose combined score is at most 25 is not in the
output. -/
theorem image_match_score_range (env : ImageEnv) (buf : Buffer) (o : MatchOptions)
    (e : ImageMatch)
    (he : e ∈ (matchImageToMovie env buf o).identifiedMovie.toList
        ++ (matchImageToMovie env buf o).alternativeResults) :
    e.matchScore = 7 / 10 * e.hashSimilarity + 3 / 10 * e.colorSimilarity ∧
    25 < e.matchScore ∧ e.matchScore ≤ 100 ∧
    ∃ movies, env.discover (discoverEndpoint (o.type.getD "movie")) = .ok movies ∧
      ∃ movie ∈ movies.take 15, movie.id = e.id ∧
        processCandidate env (extractImageFeatures env.lib buf) (o.type.getD "movie") movie
          = some e := by
  rw [result_concat] at he
  cases h : topMatches env buf o with
  | error msg => rw [h] at he; simp at he
  | ok l =>
    rw [h] at he
    obtain ⟨movies, hd, movie, hm, hp⟩ := topMatches_origin env buf o l h e he
    have hs := processCandidate_score env _ _ movie e hp
    have hle := processCandidate_score_le env buf _ movie e hp
    refine ⟨?_, hs.2.2, hle, movies, hd, movie, hm, hs.1.symm, hp⟩
    rw [hs.2.1]; ring

/-- Witness of claim C20: the identified entry for the single-poster catalog. -/
theorem image_match_score_range_witness :
    ∃ e, e ∈ (matchImageToMovie soloEnv [7] { type := none, limit := none, excludeId := none }
            ).identifiedMovie.toList
          ++ (matchImageToMovie soloEnv [7] { type := none, limit := none, excludeId := none }
            ).alternativeResults ∧
      e.matchScore = 7 / 10 * e.hashSimilarity + 3 / 10 * e.colorSimilarity ∧
      25 < e.matchScore ∧ e.matchScore ≤ 100 := by
  obtain ⟨e, rest, ht, _, hs, _⟩ := identical_poster_first soloEnv [7]
    { type := none, limit := none, excludeId := none } [] [] (posterEntry 42)
    "/poster.jpg" [7] demoColor demoHash demo_features demoHash_ne rfl (by decide) rfl
    (by decide) rfl demo_features (by simp) (by simp)
  have hi := (identified_of_top _ _ _ e rest ht hs).2.2
  have hmem : e ∈ (matchImageToMovie soloEnv [7]
        { type := none, limit := none, excludeId := none }).identifiedMovie.toList
      ++ (matchImageToMovie soloEnv [7]
        { type := none, limit := none, excludeId := none }).alternativeResults := by
    rw [hi]; simp
  have h := image_match_score_range soloEnv [7]
    { type := none, limit := none, excludeId := none } e hmem
  exact ⟨e, hmem, h.1, h.2.1, h.2.2.1⟩

/-- Claim C21, as stated, fails at a rating of exactly 0: it is read as 6, so
the closeness of the ratings 0 and 10 is 0.6, not 0. -/
theorem rating_zero_counts_as_six :
    toneScoreOf (some 0) (some 10) = 3 / 5 ∧
    toneScoreOf (some 0) (some 10) ≠ 1 - |(0 : ℚ) - 10| / 10 := by
  have h : toneScoreOf (some 0) (some 10) = 3 / 5 := by
    simp only [toneScoreOf, ratingOr6]
    norm_num
  refine ⟨h, ?_⟩
  rw [h]
  norm_num

/-- Claim C21 (amended): the rating-closeness sub-score used by
`calculateComprehensiveSimilarityScore` is `1 - |a - b| / 10`, where `a` and
`b` are the two ratings after a missing rating or a rating of exactly 0 has
been replaced by 6, and it enters the score with weight 0.15. So it is
`1 - |ratingA - ratingB| / 10` for every pair of non-zero ratings,
`1 - |6 - b| / 10` when one rating is 0 or missing and the other one is
`b ≠ 0`, and 1 when both are 0 or missing. -/
theorem rating_closeness_formula (toLowerCase : JsString → JsString) (A B : MovieRecord)
    (VA VB : VibeVector) :
    toneScoreOf A.rating B.rating
      = 1 - |(if A.rating = none ∨ A.rating = some 0 then 6 else A.rating.getD 0)
            - (if B.rating = none ∨ B.rating = some 0 then 6 else B.rating.getD 0)| / 10 ∧
    calculateComprehensiveSimilarityScore toLowerCase A B VA VB
      = calculateComprehensiveSimilarityScore toLowerCase { A with rating := none }
          { B with rating := none } VA VB
        + ((1 - |(if A.rating = none ∨ A.rating = some 0 then 6 else A.rating.getD 0)
            - (if B.rating = none ∨ B.rating = some 0 then 6 else B.rating.getD 0)| / 10) - 1)
          * (15 / 100) ∧
    (∀ a b : ℚ, a ≠ 0 → b ≠ 0 → toneScoreOf (some a) (some b) = 1 - |a - b| / 10) ∧
    (∀ b : ℚ, b ≠ 0 →
      toneScoreOf (some 0) (some b) = 1 - |6 - b| / 10 ∧
      toneScoreOf none (some b) = 1 - |6 - b| / 10 ∧
      toneScoreOf (some b) (some 0) = 1 - |b - 6| / 10 ∧
      toneScoreOf (some b) none = 1 - |b - 6| / 10) ∧
    (toneScoreOf none none = 1 ∧ toneScoreOf (some 0) (some 0) = 1 ∧
      toneScoreOf none (some 0) = 1 ∧ toneScoreOf (some 0) none = 1) := by
  have hgen := toneScore_eq A.rating B.rating
  refine ⟨hgen, ?_, ?_, ?_, ?_⟩
  · rw [score_tone_part, hgen]
  · intro a b ha hb
    exact toneScore_nonzero a b ha hb
  · intro b hb
    refine ⟨?_, ?_, ?_, ?_⟩ <;> rw [toneScore_eq] <;> simp [hb]
  · refine ⟨?_, ?_, ?_, ?_⟩ <;> rw [toneScore_eq] <;> simp

/-- Claim C22: `calculateVibeSimilarity v1 v2` is 1 minus the sum, over the
keys present in both vectors, of `|v1[k] - v2[k]|`, divided by 5 times the
number of those keys, and 0.5 when no key is shared; for vectors produced by
`extractVibes` it lies in `[0, 1]`. A vector is an object: no key twice. -/
theorem vibe_similarity_formula (toLowerCase : JsString → JsString)
    (v1 v2 : VibeVector) (hnd : (v1.map Prod.fst).Nodup) :
    calculateVibeSimilarity v1 v2
      = (if sharedKeys v1 v2 = [] then 1 / 2
        else 1 - ((sharedKeys v1 v2).map fun k => |vibeValue v1 k - vibeValue v2 k|).sum
              / (5 * ((sharedKeys v1 v2).length : ℚ))) ∧
    ∀ A B : MovieRecord,
      0 ≤ calculateVibeSimilarity (extractVibes toLowerCase A) (extractVibes toLowerCase B) ∧
      calculateVibeSimilarity (extractVibes toLowerCase A) (extractVibes toLowerCase B) ≤ 1 :=
  ⟨vibeSimilarity_eq v1 v2 hnd,
    fun A B => vibeSimilarity_bounds _ _ (extractVibes_values A) (extractVibes_values B)⟩

/-- Witness of claim C22: the vibe vectors of two records. -/
theorem vibe_similarity_formula_witness :
    calculateVibeSimilarity (extractVibes asciiLowerCase alpha) (extractVibes asciiLowerCase beta)
      = (if sharedKeys (extractVibes asciiLowerCase alpha) (extractVibes asciiLowerCase beta) = []
        then 1 / 2
        else 1 - ((sharedKeys (extractVibes asciiLowerCase alpha)
                (extractVibes asciiLowerCase beta)).map
              fun k => |vibeValue (extractVibes asciiLowerCase alpha) k
                - vibeValue (extractVibes asciiLowerCase beta) k|).sum
              / (5 * ((sharedKeys (extractVibes asciiLowerCase alpha)
                  (extractVibes asciiLowerCase beta)).length : ℚ))) :=
  (vibe_similarity_formula asciiLowerCase (extractVibes asciiLowerCase alpha)
    (extractVibes asciiLowerCase beta) (extractVibes_nodup alpha)).1

/-- Claim C23: `rgbToHsv(255, 0, 0)` returns hue 0, saturation 100 and value
100. -/
theorem rgbToHsv_pure_red : rgbToHsv 255 0 0 = { h := 0, s := 100, v := 100 } := by
  simp [rgbToHsv, jsRem]

/-- Claim C24: with 3 retries `retryRequest` calls `fn` at most 3 times, returns
the result of the first call that succeeds without calling `fn` again, raises
the last error exactly when all 3 calls fail, and waits 1000 ms after the
first failed call and 2000 ms after the second, that is `min(1000 * 2^i, 5000)`;
whatever the number of retries, no wait exceeds 5000 ms. -/
theorem retry_three_attempts {σ α : Type} (sleep : ℕ → σ → σ)
    (fn : σ → Except String α × σ) (s : σ) :
    (retryRequest (tracedSleep sleep) (tracedFn fn) 3 ([], s) =
      match fn s with
      | (.ok a, s1) => (.ok (some a), ([RetryEvent.call], s1))
      | (.error _, s1) =>
        match fn (sleep 1000 s1) with
        | (.ok a, s2) =>
          (.ok (some a), ([RetryEvent.call, RetryEvent.wait 1000, RetryEvent.call], s2))
        | (.error _, s2) =>
          match fn (sleep 2000 s2) with
          | (.ok a, s3) =>
            (.ok (some a), ([RetryEvent.call, RetryEvent.wait 1000, RetryEvent.call,
              RetryEvent.wait 2000, RetryEvent.call], s3))
          | (.error e, s3) =>
            (.error e, ([RetryEvent.call, RetryEvent.wait 1000, RetryEvent.call,
              RetryEvent.wait 2000, RetryEvent.call], s3))) ∧
    (min (1000 * 2 ^ 0) 5000 = 1000 ∧ min (1000 * 2 ^ 1) 5000 = 2000) ∧
    ∀ retries ms, RetryEvent.wait ms ∈
        (retryRequest (tracedSleep sleep) (tracedFn fn) retries ([], s)).2.1 → ms ≤ 5000 := by
  refine ⟨retry_three_trace sleep fn s, ⟨by norm_num, by norm_num⟩, ?_⟩
  intro retries ms hm
  unfold retryRequest at hm
  exact retryFrom_waits_capped sleep fn retries retries 0 ([], s) (by simp) ms hm

/-- Claim C25: every entry is scored as the specification says (1000 +
popularity/10 upcoming; 500 + popularity/5 + 100/(|daysDiff| + 1) fresh;
100 + popularity/20 viral_old; 0 dead; plus 50 above 1000 votes), and the
output holds at most 20 scored Indian-language pool entries, in
non-increasing score order, no entry left out scoring higher than a listed
one: it is the first 20 of the entries with a positive score, sorted. -/
theorem trending_score_and_ranking (today : ℤ) (allMovies : List TrendingMovie) :
    (∀ movie, ((scoreMovie today movie).score, (scoreMovie today movie).status)
      = trendingFormula (daysDiffOf today movie) movie.popularity movie.vote_count
          movie.source) ∧
    (∀ m ∈ talkOfTheTown today allMovies,
      ∃ movie ∈ allMovies, isIndianLanguage movie = true ∧ m = scoreMovie today movie) ∧
    (talkOfTheTown today allMovies).length ≤ 20 ∧
    (talkOfTheTown today allMovies).Pairwise (fun a b => b.score ≤ a.score) ∧
    (∀ movie ∈ allMovies, isIndianLanguage movie = true →
      scoreMovie today movie ∉ talkOfTheTown today allMovies →
      ∀ m ∈ talkOfTheTown today allMovies, (scoreMovie today movie).score ≤ m.score) ∧
    talkOfTheTown today allMovies
      = (sortDesc ScoredMovie.score
          (((allMovies.filter isIndianLanguage).map (scoreMovie today)).filter
            fun m => decide (m.score > 0))).take 20 := by
  have hpw := sortDesc_pairwise ScoredMovie.score
    (((allMovies.filter isIndianLanguage).map (scoreMovie today)).filter
      fun m => decide (m.score > 0))
  refine ⟨scoreMovie_formula today, ?_, ?_, ?_, ?_, talkOfTheTown_eq today allMovies⟩
  · intro m hm
    rw [talkOfTheTown_eq] at hm
    have h1 := (mem_sortDesc _ _ _).mp (List.mem_of_mem_take hm)
    have h2 := List.mem_of_mem_filter h1
    rw [List.mem_map] at h2
    obtain ⟨movie, hmovie, rfl⟩ := h2
    rw [List.mem_filter] at hmovie
    exact ⟨movie, hmovie.1, hmovie.2, rfl⟩
  · rw [talkOfTheTown_eq]
    exact List.length_take_le _ _
  · rw [talkOfTheTown_eq]
    exact hpw.sublist (List.take_sublist _ _)
  · intro movie hmovie hind hnot m hm
    rw [talkOfTheTown_eq] at hnot hm
    have hmpos : 0 < m.score := by
      have h1 := (mem_sortDesc _ _ _).mp (List.mem_of_mem_take hm)
      have h2 := (List.mem_filter.mp h1).2
      simpa using h2
    by_cases hpos : 0 < (scoreMovie today movie).score
    · have hin : scoreMovie today movie ∈ sortDesc ScoredMovie.score
          (((allMovies.filter isIndianLanguage).map (scoreMovie today)).filter
            fun m => decide (m.score > 0)) := by
        rw [mem_sortDesc, List.mem_filter]
        refine ⟨List.mem_map.mpr ⟨movie, List.mem_filter.mpr ⟨hmovie, hind⟩, rfl⟩, ?_⟩
        simpa using hpos
      rw [← List.take_append_drop 20 (sortDesc ScoredMovie.score _), List.mem_append] at hin
      rcases hin with hin | hin
      · exact absurd hin hnot
      · exact List.Sorted.rel_of_mem_take_of_mem_drop hpw hm hin
    · linarith [not_lt.mp hpos]

/-- Claim C26: for every movie record, the keys of `extractVibes` are exactly
the 14 labels of `VIBE_KEYWORDS`, each once, and every value is an integer
between 0 and 5; so any two vectors it produces have the same keys. -/
theorem vibe_vector_keys_and_values (toLowerCase : JsString → JsString) :
    (∀ m : MovieRecord,
      (extractVibes toLowerCase m).map Prod.fst = VIBE_KEYWORDS.map Prod.fst ∧
      ((extractVibes toLowerCase m).map Prod.fst).Nodup ∧
      (extractVibes toLowerCase m).length = 14 ∧
      ∀ kv ∈ extractVibes toLowerCase m, ∃ n : ℕ, kv.2 = (n : ℚ) ∧ n ≤ 5) ∧
    (∀ m1 m2 : MovieRecord,
      (extractVibes toLowerCase m1).map Prod.fst = (extractVibes toLowerCase m2).map Prod.fst) :=
  ⟨fun m => ⟨extractVibes_keys m, extractVibes_nodup m, extractVibes_length m,
      extractVibes_value_nat m⟩,
    fun m1 m2 => by rw [extractVibes_keys, extractVibes_keys]⟩

/-- Claim C27: `calculateComprehensiveSimilarityScore` is symmetric: for every
two records and vibe vectors (objects: no key twice),
`score(A, B, VA, VB) = score(B, A, VB, VA)`. -/
theorem similarity_score_symmetric (toLowerCase : JsString → JsString)
    (A B : MovieRecord) (VA VB : VibeVector)
    (hA : (VA.map Prod.fst).Nodup) (hB : (VB.map Prod.fst).Nodup) :
    calculateComprehensiveSimilarityScore toLowerCase A B VA VB
      = calculateComprehensiveSimilarityScore toLowerCase B A VB VA := by
  unfold calculateComprehensiveSimilarityScore
  simp only
  rw [overlap_comm (A.genres.map Genre.key) (B.genres.map Genre.key),
    overlap_comm (A.keywords.map (Keyword.lower toLowerCase))
      (B.keywords.map (Keyword.lower toLowerCase)),
    overlap_comm (A.cast.map CastMember.id) (B.cast.map CastMember.id),
    abs_sub_comm (ratingOr6 A.rating) (ratingOr6 B.rating),
    vibeSimilarity_comm VA VB hA hB]

/-- Witness of claim C27: two records with their own vibe vectors. -/
theorem similarity_score_symmetric_witness :
    calculateComprehensiveSimilarityScore asciiLowerCase alpha beta
        (extractVibes asciiLowerCase alpha) (extractVibes asciiLowerCase beta)
      = calculateComprehensiveSimilarityScore asciiLowerCase beta alpha
          (extractVibes asciiLowerCase beta) (extractVibes asciiLowerCase alpha) :=
  similarity_score_symmetric asciiLowerCase alpha beta _ _ (extractVibes_nodup alpha)
    (extractVibes_nodup beta)

/-- Claim C28: in `matchVideoToMovie`, an aggregated entry that is never the
`identifiedMovie` of a frame has an aggregate score of at most 50; hence when
the video result has `identified = true`, its `identifiedMovie` has the id of
the `identifiedMovie` of at least one frame. -/
theorem video_identified_needs_frame_identification (env : ImageEnv)
    (frameBuffers : List Buffer) (options : MatchOptions) :
    (∀ e ∈ aggregatedResults (frameBuffers.map fun b => matchImageToMovie env b options),
      (∀ b ∈ frameBuffers, ∀ m, (matchImageToMovie env b options).identifiedMovie = some m →
        m.id ≠ e.id) →
      e.matchScore ≤ 50) ∧
    ((matchVideoToMovie env frameBuffers options).identified = true →
      ∃ top, (matchVideoToMovie env frameBuffers options).identifiedMovie = some top ∧
        ∃ b ∈ frameBuffers, ∃ m,
          (matchImageToMovie env b options).identifiedMovie = some m ∧ m.id = top.id) := by
  have hbound : ∀ r ∈ frameBuffers.map (fun b => matchImageToMovie env b options),
      ∀ m ∈ r.identifiedMovie.toList ++ r.alternativeResults, m.matchScore ≤ 100 := by
    intro r hr m hm
    rw [List.mem_map] at hr
    obtain ⟨b, _, rfl⟩ := hr
    exact image_entry_le_100 env b options m hm
  constructor
  · intro e he hnever
    apply alt_only_le_50 _ hbound e he
    intro r hr m hm
    rw [List.mem_map] at hr
    obtain ⟨b, hb, rfl⟩ := hr
    exact hnever b hb m hm
  · intro hid
    obtain ⟨top, htop, r, hr, m, hm, hidm⟩ :=
      identified_was_identified _ frameBuffers.length hbound hid
    rw [List.mem_map] at hr
    obtain ⟨b, hb, rfl⟩ := hr
    exact ⟨top, htop, b, hb, m, hm, hidm⟩

/-- Claim C29, as stated, fails for a poster that cannot be hashed: the
candidate is not skipped, it is scored with hash similarity 0 and, its colour
being that of the query, listed with score 30. -/
theorem unhashable_poster_is_not_skipped :
    (extractImageFeatures hashFailEnv.lib [9]).perceptualHash = none ∧
    hashFailEnv.downloadPoster "/poster.jpg" 42 = some [9] ∧
    ∃ e, (matchImageToMovie hashFailEnv [7] { type := none, limit := none, excludeId := none }
        ).alternativeResults = [e] ∧ e.id = 42 ∧ e.hashSimilarity = 0 ∧ e.matchScore = 30 := by
  refine ⟨rfl, rfl, ?_⟩
  obtain ⟨e, hpc, hid, hh, hs⟩ := hashFail_candidate
  obtain ⟨h, hq, hne⟩ := hashFail_query
  refine ⟨e, ?_, hid, hh, hs⟩
  have htop : topMatches hashFailEnv [7] { type := none, limit := none, excludeId := none }
      = .ok [e] := by
    unfold topMatches
    simp only
    have hlib : hashFailEnv.lib = hashFailLib := rfl
    rw [hlib, if_neg (by rw [hq]; simp [hne])]
    have hdisc : hashFailEnv.discover (discoverEndpoint "movie") = .ok [posterEntry 42] := rfl
    simp only [Option.getD_none]
    rw [hdisc]
    simp only [List.take, List.filterMap_cons, List.filterMap_nil, hpc]
    rfl
  unfold matchImageToMovie
  rw [htop]
  have h65 : ¬ (e.matchScore > 65) := by rw [hs]; norm_num
  simp [h65]

/-- Claim C29 (amended): `matchImageToMovie` returns the failure object
(`identified = false`, `confidence = low`, no `identifiedMovie`, no
alternatives, the error message) when the hash of the query image cannot be
extracted or the discovery call fails; a failed poster download removes that
candidate and leaves the entries of the others as they are; a downloaded poster
whose hash cannot be extracted is scored with hash similarity 0, that is
`matchScore = 0.3 * colorSimilarity`, and it is listed with that score exactly
when it exceeds 25; it is skipped when its colour cannot be extracted either. -/
theorem image_match_failure_paths (env : ImageEnv) (buf : Buffer) (o : MatchOptions) :
    (((extractImageFeatures env.lib buf).perceptualHash = none ∨
        (extractImageFeatures env.lib buf).perceptualHash = some []) →
      matchImageToMovie env buf o = failureResult "Failed to extract image features") ∧
    (∀ message,
      ¬ ((extractImageFeatures env.lib buf).perceptualHash = none ∨
        (extractImageFeatures env.lib buf).perceptualHash = some []) →
      env.discover (discoverEndpoint (o.type.getD "movie")) = .error message →
      matchImageToMovie env buf o = failureResult message) ∧
    (∀ (posterPath : String) (id : ℤ) (feats : ImageFeatures) (type : String)
        (pool : List CatalogMovie),
      pool.filterMap (processCandidate (failDownload env posterPath id) feats type)
        = (pool.filter fun movie =>
            !decide (movie.poster_path = some posterPath ∧ movie.id = id)).filterMap
          (processCandidate env feats type)) ∧
    (∀ (feats : ImageFeatures) (type : String) (movie : CatalogMovie) (p : String)
        (pb : Buffer),
      movie.poster_path = some p → p ≠ "" → env.downloadPoster p movie.id = some pb →
      (extractImageFeatures env.lib pb).perceptualHash = none →
      processCandidate env feats type movie
        = if 3 / 10 * calculateColorSimilarity feats.colorHistogram
              (extractImageFeatures env.lib pb).colorHistogram > 25 then
            some { id := movie.id,
                   title := strOr movie.title movie.name,
                   poster := movie.poster_path,
                   backdrop := movie.backdrop_path,
                   overview := movie.overview,
                   rating := movie.vote_average,
                   releaseDate := pathOr movie.release_date movie.first_air_date,
                   type := type,
                   matchScore := 3 / 10 * calculateColorSimilarity feats.colorHistogram
                     (extractImageFeatures env.lib pb).colorHistogram,
                   hashSimilarity := 0,
                   colorSimilarity := calculateColorSimilarity feats.colorHistogram
                     (extractImageFeatures env.lib pb).colorHistogram }
          else none) ∧
    (∀ (feats : ImageFeatures) (type : String) (movie : CatalogMovie) (p : String)
        (pb : Buffer),
      movie.poster_path = some p → env.downloadPoster p movie.id = some pb →
      (extractImageFeatures env.lib pb).perceptualHash = none →
      (extractImageFeatures env.lib pb).colorHistogram = none →
      processCandidate env feats type movie = none) :=
  ⟨match_of_no_hash env buf o,
    fun message hhash h => match_of_discover_error env buf o message hhash h,
    fun posterPath id feats type pool => found_failDownload env posterPath id feats type pool,
    fun feats type movie p pb hpath hne hdl hfail =>
      processCandidate_unhashable env feats type movie p pb hpath hne hdl hfail,
    fun feats type movie p pb hpath hdl hfail hcol =>
      processCandidate_unreadable env feats type movie p pb hpath hdl hfail hcol⟩

/-- Claim C30: for every `r`, `g`, `b` in `0..255`, `rgbToHsv` returns a hue in
`[0, 360)`, a saturation in `[0, 100]` and a value in `[0, 100]`; greys give
hue 0 and saturation 0. -/
theorem rgbToHsv_ranges (r g b : ℕ) (hr : r ≤ 255) (hg : g ≤ 255) (hb : b ≤ 255) :
    (0 ≤ (rgbToHsv r g b).h ∧ (rgbToHsv r g b).h < 360) ∧
    (0 ≤ (rgbToHsv r g b).s ∧ (rgbToHsv r g b).s ≤ 100) ∧
    (0 ≤ (rgbToHsv r g b).v ∧ (rgbToHsv r g b).v ≤ 100) ∧
    (r = g → g = b → (rgbToHsv r g b).h = 0 ∧ (rgbToHsv r g b).s = 0) := by
  have h := rgbToHsv_sat_val r g b hr hg hb
  refine ⟨rgbToHsv_hue r g b, ⟨h.1, h.2.1⟩, ⟨h.2.2.1, h.2.2.2⟩, ?_⟩
  intro h1 h2
  subst h1; subst h2
  exact rgbToHsv_grey r

/-- Witness of claim C30: the grey (128, 128, 128). -/
theorem rgbToHsv_ranges_witness :
    (0 ≤ (rgbToHsv 128 128 128).h ∧ (rgbToHsv 128 128 128).h < 360) ∧
    (0 ≤ (rgbToHsv 128 128 128).s ∧ (rgbToHsv 128 128 128).s ≤ 100) ∧
    (0 ≤ (rgbToHsv 128 128 128).v ∧ (rgbToHsv 128 128 128).v ≤ 100) ∧
    ((128 : ℕ) = 128 → (128 : ℕ) = 128 →
      (rgbToHsv 128 128 128).h = 0 ∧ (rgbToHsv 128 128 128).s = 0) :=
  rgbToHsv_ranges 128 128 128 (by norm_num) (by norm_num) (by norm_num)

end CineVerse
